import Mathlib

/-!
co2Clock: a shallow embedding of the firmware.

The firmware (declarations.h, functions.h, main.cpp) is translated function by
function.  Globals become the fields of `State`; every function becomes a pure
state transformer.  Machine integers of the AVR target are natural numbers or
integers with explicit wrap-around: `byte` is 8 bit, `unsigned int` is 16 bit,
`int` is 16 bit two's complement.

Inputs of the environment (the RTC read-out, the infrared event, the serial
receive buffer, the LDR and the door switch) are explicit arguments.  Outputs
(RTC writes, serial writes, the pixel buffer) are recorded in the state.

The timer interrupt `ISR` is a state transformer of its own.  It is interleaved
between the functions of the main loop and between the iterations of the two
busy-wait loops (door, CO2 reply).
-/

namespace Co2Clock

/-! ## Machine integers -/

/-- Truncation to the 8 bit `byte` type. -/
def toByte (n : Nat) : Nat := n % 256

/-- Truncation of an integer to `byte` (two's complement). -/
def intToByte (x : Int) : Nat := (x % 256).toNat

/-- Truncation to the 16 bit `unsigned int` type. -/
def toUInt16 (n : Nat) : Nat := n % 65536

/-- Conversion to the 16 bit signed `int` type of the target. -/
def toInt16 (x : Int) : Int := (x + 32768) % 65536 - 32768

/-! ## declarations.h -/

def RUN : Nat := 1
def CMD : Nat := 2
def ERROR_DOOR_OPEN : Nat := 1
def ERROR_TIMEOUT_CO2 : Nat := 2
def EVENT_DOOR_CLOSE : Nat := 3

def NUMBER_OF_TIMERS : Nat := 4
def TICK : Nat := 500

/-- The software timer record `Timer` of declarations.h. -/
structure Timer where
  Start : Bool
  Count : Nat
  Over : Bool
  InitialValue : Nat
deriving DecidableEq, Repr

def Timer0Value : Nat := toByte (2000 / TICK)
def Timer1Value : Nat := toByte (5000 / TICK)
def Timer2Value : Nat := toByte (15000 / TICK)
def Timer3Value : Nat := toByte (6000 / TICK)

def COLOUR_RED : Nat := 0x0FF0000
def COLOUR_GREEN : Nat := 0x00FF00
def COLOUR_BLUE : Nat := 0x0000FF
def COLOUR_ORANGE : Nat := 0x00FF00

def RING1 : Nat := 0
def RING2 : Nat := 24
def RING3 : Nat := 40
def RING4 : Nat := 52
def RING5 : Nat := 60

/-- The structure `localTimeStruct`. -/
structure LocalTime where
  hour : Nat
  minute : Nat
  year : Int
  month : Nat
  day : Nat
deriving DecidableEq, Repr

def KEY_UP : Nat := 10
def KEY_DOWN : Nat := 11
def KEY_LEFT : Nat := 12
def KEY_RIGHT : Nat := 13
def KEY_OK : Nat := 14
def KEY_AST : Nat := 15
def KEY_HASH : Nat := 16
def NO_CMD : Nat := 100

def INIT_CO2 : List Nat := [0xFF, 0x01, 0x86, 0x00, 0x00, 0x00, 0x00, 0x00, 0x79]
def INIT_CO2_LENGTH : Nat := 9
def CO2_BUFFER_SIZE : Nat := 15

/-! ## Collaborators: pixel strip, RTC, infrared receiver, serial link -/

/-- Number of pixels of the strip, `Adafruit_NeoPixel(61, ...)`. -/
def NUM_PIXELS : Nat := 61

/-- The display collaborator: the pixel buffer written by `setPixelColor` and
`clear`, the contents last committed by `show`, and the brightness. -/
structure Strip where
  pixels : List Nat
  shown : List Nat
  brightness : Nat
deriving DecidableEq, Repr

/-- Writes colour `c` at position `n`; positions outside the strip are ignored. -/
def Strip.setPixelColor (n c : Nat) (st : Strip) : Strip :=
  if n < NUM_PIXELS then { st with pixels := st.pixels.set n c } else st

/-- Sets every pixel of the buffer to 0, `strip.clear()`. -/
def Strip.clear (st : Strip) : Strip :=
  { st with pixels := List.replicate NUM_PIXELS 0 }

/-- Commits the buffer to the display, `strip.show()`. -/
def Strip.showPixels (st : Strip) : Strip :=
  { st with shown := st.pixels }

/-- Records the brightness, `strip.setBrightness(b)`. -/
def Strip.setBrightness (b : Nat) (st : Strip) : Strip :=
  { st with brightness := toByte b }

/-- Packs three channels into one colour word, `strip.Color(r, g, b)`. -/
def Color (r g b : Nat) : Nat := toByte r * 65536 + toByte g * 256 + toByte b

/-- A date and time as handed to or read from the RTC collaborator. -/
structure DateTime where
  year : Nat
  month : Nat
  day : Nat
  hour : Nat
  minute : Nat
  second : Nat
deriving DecidableEq, Repr

/-- The constructor call `DateTime(year, month, day, hour, min, sec)` with the
argument conversions of the target (`uint16_t` year, `uint8_t` others). -/
def mkDateTime (year : Int) (month day hour minute second : Nat) : DateTime :=
  { year := (year % 65536).toNat, month := toByte month, day := toByte day,
    hour := toByte hour, minute := toByte minute, second := toByte second }

/-- One decoded infrared frame: `decodedIRData.command` and `.flags`. -/
structure IRData where
  command : Nat
  flags : Nat
deriving DecidableEq, Repr

/-- Flag bit of the IR library: the frame is a repeat frame. -/
def IRDATA_FLAGS_IS_REPEAT : Nat := 0x01
/-- Flag bit of the IR library: the frame is an automatic repeat. -/
def IRDATA_FLAGS_IS_AUTO_REPEAT : Nat := 0x02

/-- One look at the serial receive buffer inside the busy-wait of `getCO2`:
`ticks` timer interrupts fire before the loop condition is evaluated, then
`Serial.available()` returns `available` and a read would deliver `frame`. -/
structure Poll where
  ticks : Nat
  available : Nat
  frame : List Nat
deriving DecidableEq, Repr

/-! ## Global state -/

/-- All globals of declarations.h together with the recorded outputs. -/
structure State where
  g_timers : Fin 4 → Timer
  g_showDisplay : Bool
  g_ringColour : Nat
  g_localTime : LocalTime
  g_countOK : Nat
  g_runMode : Nat
  g_command : Nat
  g_digitCount : Nat
  g_newDay : Nat
  g_newMonth : Nat
  g_newHour : Nat
  g_newMinute : Nat
  g_newYear : Int
  g_co2Level : Nat
  strip : Strip
  rtcWrites : List DateTime
  serialWrites : List (List Nat)

/-- The state at power-up: every global is zero-initialised. -/
def State.zero : State :=
  { g_timers := fun _ => { Start := false, Count := 0, Over := false, InitialValue := 0 },
    g_showDisplay := false,
    g_ringColour := 0,
    g_localTime := { hour := 0, minute := 0, year := 0, month := 0, day := 0 },
    g_countOK := 0,
    g_runMode := 0,
    g_command := 0,
    g_digitCount := 0,
    g_newDay := 0,
    g_newMonth := 0,
    g_newHour := 0,
    g_newMinute := 0,
    g_newYear := 0,
    g_co2Level := 0,
    strip := { pixels := List.replicate NUM_PIXELS 0, shown := List.replicate NUM_PIXELS 0,
               brightness := 255 },
    rtcWrites := [],
    serialWrites := [] }

/-- Replaces timer `i` of the bank. -/
def State.setTimer (s : State) (i : Fin 4) (t : Timer) : State :=
  { s with g_timers := Function.update s.g_timers i t }

/-- The assignment `g_timers[i].Start = b`. -/
def State.setStart (s : State) (i : Fin 4) (b : Bool) : State :=
  s.setTimer i { s.g_timers i with Start := b }

/-- The assignment `g_timers[i].Over = b`. -/
def State.setOver (s : State) (i : Fin 4) (b : Bool) : State :=
  s.setTimer i { s.g_timers i with Over := b }

/-- The assignment `g_timers[i].Count = c`. -/
def State.setCount (s : State) (i : Fin 4) (c : Nat) : State :=
  s.setTimer i { s.g_timers i with Count := c }

/-- The assignment `g_timers[i].InitialValue = v`. -/
def State.setInitialValue (s : State) (i : Fin 4) (v : Nat) : State :=
  s.setTimer i { s.g_timers i with InitialValue := v }

/-- Applies a change to the pixel strip. -/
def State.onStrip (s : State) (f : Strip → Strip) : State :=
  { s with strip := f s.strip }

/-- A counted loop `for (byte i = 0; i < n; i++) body`. -/
def forLoop {α : Type} (n : Nat) (body : Nat → α → α) (init : α) : α :=
  (List.range n).foldl (fun acc i => body i acc) init

/-! ## main.cpp: the timer interrupt -/

/-- The body of the interrupt loop for timer `i`. -/
def isrBody (s : State) (i : Fin 4) : State :=
  if (s.g_timers i).Start = true then
    let s1 := s.setCount i (toByte ((s.g_timers i).Count + 255))
    if (s1.g_timers i).Count = 0 then
      let s2 := s1.setStart i false
      s2.setOver i true
    else s1
  else s

/-- The handler `ISR (TIMER1_OVF_vect)`: one tick of all four timers.  The
reload of the hardware counter is not part of the state. -/
def ISR (s : State) : State :=
  [(0 : Fin 4), 1, 2, 3].foldl isrBody s

/-! ## functions.h -/

/-- The function `updateBrightness` with the LDR reading as input. -/
def updateBrightness (ldrValue : Nat) (s : State) : State :=
  if ldrValue > 400 then
    s.onStrip (Strip.setBrightness 0)
  else
    let ldrValue1 := if ldrValue > 100 then 80 else ldrValue
    s.onStrip (Strip.setBrightness (100 - ldrValue1))

/-- The function `setErrorCode`, on the strip. -/
def setErrorCodeStrip (errorCode : Nat) (st : Strip) : Strip :=
  let st1 := forLoop 16 (fun i a =>
    if i < errorCode then a.setPixelColor (RING2 + i) COLOUR_BLUE
    else a.setPixelColor (RING2 + i) 0) st
  let st2 := st1.setPixelColor RING5 COLOUR_RED
  st2.showPixels

/-- The function `setErrorCode`. -/
def setErrorCode (errorCode : Nat) (s : State) : State :=
  s.onStrip (setErrorCodeStrip errorCode)

/-- The function `startTimer`. -/
def startTimer (timerID : Fin 4) (s : State) : State :=
  let s1 := s.setStart timerID false
  let s2 := s1.setOver timerID false
  let s3 := s2.setCount timerID (s2.g_timers timerID).InitialValue
  s3.setStart timerID true

/-- The function `checkDoor`.  `doorOpen` is the first reading of the switch;
while the door stays open the loop only delays, and `ticks` timer interrupts
fire before the door is found closed. -/
def checkDoor (doorOpen : Bool) (ticks : Nat) (s : State) : State :=
  if doorOpen = true then
    let s1 := s.onStrip Strip.clear
    let s2 := setErrorCode ERROR_DOOR_OPEN s1
    let s3 := ISR^[ticks] s2
    setErrorCode EVENT_DOOR_CLOSE s3
  else s

/-- The ring rendering inside `updateClock`. -/
def renderClock (lt : LocalTime) (minutesMod ringColour : Nat) (st : Strip) : Strip :=
  let st1 := st.setPixelColor 0 ringColour
  let st2 := st1.setPixelColor RING5 0
  let st3 := forLoop 16 (fun i a => a.setPixelColor (i + RING2) 0) st2
  let st4 := forLoop 24 (fun i a =>
    let twelveHour := if lt.hour > 12 then toByte (lt.hour - 12) else lt.hour
    if i ≤ 2 * twelveHour then a.setPixelColor i ringColour
    else a.setPixelColor i 0) st3
  let st5 := forLoop 12 (fun i a =>
    if i < minutesMod + 1 then a.setPixelColor (i + RING3) ringColour
    else a.setPixelColor (i + RING3) 0) st4
  let st6 := forLoop 8 (fun i a =>
    let minutesAdd := intToByte (2 * ((lt.minute : Int) - 5 * (minutesMod : Int)))
    if minutesAdd > i then a.setPixelColor (i + RING4) ringColour
    else a.setPixelColor (i + RING4) 0) st5
  st6.showPixels

/-- The function `updateClock`; `now` is what `g_rtc.now()` returns. -/
def updateClock (now : DateTime) (s : State) : State :=
  if (s.g_timers 2).Over = true then
    let lt : LocalTime :=
      { hour := toByte now.hour, minute := toByte now.minute,
        year := toInt16 now.year, month := toByte now.month, day := toByte now.day }
    let s1 := { s with g_localTime := lt }
    let minutesMod := toByte (lt.minute / 5)
    let s2 := if s1.g_showDisplay = true then
        s1.onStrip (renderClock lt minutesMod s1.g_ringColour)
      else s1
    startTimer 2 s2
  else s

/-- The function `setColorLevel`. -/
def setColorLevel (actualCo2Level : Int) (s : State) : State :=
  if actualCo2Level < 256 then
    let blue := intToByte (255 - actualCo2Level)
    let green := intToByte actualCo2Level
    let red := 0
    { s with g_ringColour := Color red green blue }
  else if actualCo2Level < 1024 then
    let blue := 0
    let green := 255
    let red := intToByte (Int.tdiv actualCo2Level 4)
    { s with g_ringColour := Color red green blue }
  else if actualCo2Level < 2048 then
    let blue := 0
    let green := intToByte (128 - Int.tdiv actualCo2Level 16)
    let red := 255
    { s with g_showDisplay := true, g_ringColour := Color red green blue }
  else
    let blue := 0
    let green := 0
    let red := 255
    { s with g_showDisplay := true, g_ringColour := Color red green blue }

/-- The busy-wait `while (g_timers[0].Over==false && co2LevelReceived==false)`
of `getCO2`, one list element per evaluation of the loop condition.  The
result is `none` when the list ends while the loop is still waiting.  The tick
handler runs before each evaluation of the loop condition and not inside the
loop body; `waitCO2Interrupted` has ticks inside the loop body as well. -/
def waitCO2 : List Poll → State → Option State
  | [], _ => none
  | p :: ps, s =>
    let s1 := ISR^[p.ticks] s
    if (s1.g_timers 0).Over = false then
      if p.available = 9 then
        let b2 := toByte (p.frame.getD 2 0)
        let b3 := toByte (p.frame.getD 3 0)
        let s2 := { s1 with g_co2Level := toUInt16 (b2 * 256 + b3) }
        let s3 := s2.setStart 0 false
        some (setColorLevel (toInt16 s3.g_co2Level) s3)
      else waitCO2 ps s1
    else some s1

/-- The function `getCO2`; `polls` describes the serial link and the timer
interrupts during the wait for the reply. -/
def getCO2 (polls : List Poll) (s : State) : Option State :=
  if (s.g_timers 1).Over = true then
    let s1 := startTimer 1 s
    let s2 := { s1 with serialWrites := s1.serialWrites ++ [INIT_CO2.take INIT_CO2_LENGTH] }
    let s3 := startTimer 0 s2
    match waitCO2 polls s3 with
    | none => none
    | some s4 =>
      if (s4.g_timers 0).Over = true then
        let s5 := setErrorCode ERROR_TIMEOUT_CO2 s4
        some { s5 with g_co2Level := 0 }
      else some s4
  else some s

/-- The `switch(receivedIR)` of `receiveIR`: raw key code to command. -/
def decodeKey (receivedIR : Nat) : Nat :=
  if receivedIR = 0x45 then 1
  else if receivedIR = 0x46 then 2
  else if receivedIR = 0x47 then 3
  else if receivedIR = 0x44 then 4
  else if receivedIR = 0x40 then 5
  else if receivedIR = 0x43 then 6
  else if receivedIR = 0x7 then 7
  else if receivedIR = 0x15 then 8
  else if receivedIR = 0x9 then 9
  else if receivedIR = 0x16 then KEY_AST
  else if receivedIR = 0x19 then 0
  else if receivedIR = 0x0D then KEY_HASH
  else if receivedIR = 0x18 then KEY_UP
  else if receivedIR = 0x8 then KEY_LEFT
  else if receivedIR = 0x1C then KEY_OK
  else if receivedIR = 0x5A then KEY_RIGHT
  else if receivedIR = 0x52 then KEY_DOWN
  else NO_CMD

/-- The test on the flags of a frame: set when the frame is a repeat or an
automatic repeat. -/
def isRepeat (d : IRData) : Bool :=
  (d.flags &&& (IRDATA_FLAGS_IS_AUTO_REPEAT ||| IRDATA_FLAGS_IS_REPEAT)) != 0

/-- The function `receiveIR`; `ev` is `none` when `IrReceiver.decode()` finds
nothing.  The result is the returned command and the new state. -/
def receiveIR (ev : Option IRData) (s : State) : Nat × State :=
  match ev with
  | none => (NO_CMD, s)
  | some d =>
    let receivedIR := toByte d.command
    if isRepeat d = false then
      let s1 := { s with g_countOK := 0 }
      (decodeKey receivedIR, s1)
    else
      if s.g_runMode = RUN ∧ receivedIR = 0x1C then
        let s1 := { s with g_countOK := toByte (s.g_countOK + 1) }
        if s1.g_countOK = 10 then
          let s2 := startTimer 3 s1
          let s3 := { s2 with g_runMode := CMD }
          let s4 := s3.onStrip Strip.clear
          let s5 := s4.onStrip (Strip.setPixelColor RING5 COLOUR_ORANGE)
          let s6 := s5.onStrip Strip.showPixels
          (NO_CMD, { s6 with g_digitCount := 0 })
        else (NO_CMD, s1)
      else (NO_CMD, s)

/-- The function `showEntry`, on the strip. -/
def showEntryStrip (entryCode position : Nat) (st : Strip) : Strip :=
  let st1 := st.clear
  let st2 :=
    if entryCode > 9 then
      forLoop position (fun i a => a.setPixelColor (i + RING3) COLOUR_RED) st1
    else
      let a1 := forLoop entryCode (fun i a => a.setPixelColor (i + RING3) COLOUR_ORANGE) st1
      forLoop position (fun i a => a.setPixelColor (i + RING2) COLOUR_ORANGE) a1
  st2.showPixels

/-- The function `showEntry`. -/
def showEntry (entryCode position : Nat) (s : State) : State :=
  s.onStrip (showEntryStrip entryCode position)

/-- The `while (co2Display>0)` loop of the LEFT command.  The first argument
bounds the number of iterations; `co2Display` itself is always enough. -/
def co2DigitsLoop : Nat → Int → Nat → Nat → Nat → Strip → Strip
  | 0, _, _, _, _, st => st
  | fuel + 1, co2Display, digits, offset, ringColour, st =>
    if co2Display > 0 then
      let displayDigit := intToByte (Int.tmod co2Display 10 + 1)
      let co2Display1 := Int.tdiv co2Display 10
      let offset1 :=
        if digits = 4 then 52
        else if digits = 3 then 40
        else if digits = 2 then 24
        else if digits = 1 then 0
        else if digits = 0 then 0
        else offset
      let st1 := forLoop displayDigit (fun i a => a.setPixelColor (i + offset1) ringColour) st
      co2DigitsLoop fuel co2Display1 (toByte (digits + 255)) offset1 ringColour st1
    else st

/-- The function `runTimeCommandProcessing`. -/
def runTimeCommandProcessing (rxcmd : Nat) (s : State) : State :=
  if rxcmd = KEY_AST then
    let s1 := { s with g_showDisplay := false }
    let s2 := s1.onStrip Strip.clear
    s2.onStrip Strip.showPixels
  else if rxcmd = KEY_HASH then
    let s1 := { s with g_showDisplay := true }
    let s2 := s1.setStart 2 false
    s2.setOver 2 true
  else if rxcmd = KEY_UP then
    let s1 := startTimer 2 s
    let s2 := s1.onStrip Strip.clear
    let s3 := s2.onStrip (forLoop 31 (fun i a =>
      if i < s2.g_localTime.day then a.setPixelColor i s2.g_ringColour
      else a.setPixelColor i 0))
    let s4 := s3.onStrip (forLoop 12 (fun i a =>
      if i < s3.g_localTime.month then a.setPixelColor (i + RING3) s3.g_ringColour
      else a.setPixelColor (i + RING3) 0))
    s4.onStrip Strip.showPixels
  else if rxcmd = KEY_LEFT then
    let s1 := startTimer 2 s
    let s2 := s1.onStrip Strip.clear
    let digits := 4
    let co2Display := toInt16 s2.g_co2Level
    let s3 := s2.onStrip (co2DigitsLoop co2Display.toNat co2Display digits 0 s2.g_ringColour)
    s3.onStrip Strip.showPixels
  else s

/-- The `switch (g_digitCount)` of `cmdTimeCommandProcessing`. -/
def cmdDigitSwitch (rxcmd : Nat) (s : State) : State :=
  if s.g_digitCount = 0 then
    if rxcmd > 3 then showEntry 255 s.g_digitCount s
    else { s with g_newDay := rxcmd, g_digitCount := toByte (s.g_digitCount + 1) }
  else if s.g_digitCount = 1 then
    { s with g_newDay := toByte (s.g_newDay * 10 + rxcmd),
             g_digitCount := toByte (s.g_digitCount + 1) }
  else if s.g_digitCount = 2 then
    if rxcmd > 1 then showEntry 255 s.g_digitCount s
    else { s with g_newMonth := rxcmd, g_digitCount := toByte (s.g_digitCount + 1) }
  else if s.g_digitCount = 3 then
    { s with g_newMonth := toByte (s.g_newMonth * 10 + rxcmd),
             g_digitCount := toByte (s.g_digitCount + 1) }
  else if s.g_digitCount = 4 then
    { s with g_newYear := (rxcmd : Int), g_digitCount := toByte (s.g_digitCount + 1) }
  else if s.g_digitCount = 5 then
    { s with g_newYear := toInt16 (2000 + (s.g_newYear * 10 + (rxcmd : Int))),
             g_digitCount := toByte (s.g_digitCount + 1) }
  else if s.g_digitCount = 6 then
    if rxcmd > 2 then showEntry 255 s.g_digitCount s
    else { s with g_newHour := rxcmd, g_digitCount := toByte (s.g_digitCount + 1) }
  else if s.g_digitCount = 7 then
    if s.g_newHour * 10 + rxcmd > 23 then showEntry 255 s.g_digitCount s
    else { s with g_newHour := toByte (s.g_newHour * 10 + rxcmd),
                  g_digitCount := toByte (s.g_digitCount + 1) }
  else if s.g_digitCount = 8 then
    if rxcmd > 5 then showEntry 255 s.g_digitCount s
    else { s with g_newMinute := rxcmd, g_digitCount := toByte (s.g_digitCount + 1) }
  else if s.g_digitCount = 9 then
    { s with g_newMinute := toByte (s.g_newMinute * 10 + rxcmd),
             g_digitCount := toByte (s.g_digitCount + 1) }
  else
    let s1 := { s with g_runMode := RUN }
    let s2 := s1.setStart 3 false
    startTimer 2 s2

/-- The first block of `cmdTimeCommandProcessing`: `if (rxcmd < KEY_UP)`. -/
def cmdDigits (rxcmd : Nat) (s : State) : State :=
  if rxcmd < KEY_UP then
    let s1 := startTimer 3 s
    let s2 := s1.setStart 2 false
    let s3 := showEntry rxcmd s2.g_digitCount s2
    cmdDigitSwitch rxcmd s3
  else s

/-- The second block of `cmdTimeCommandProcessing`: `if (rxcmd == KEY_OK)`. -/
def cmdOk (rxcmd : Nat) (s : State) : State :=
  if rxcmd = KEY_OK then
    let s0 :=
      if s.g_digitCount = 10 then
        { s with rtcWrites := s.rtcWrites ++
            [mkDateTime s.g_newYear s.g_newMonth s.g_newDay s.g_newHour s.g_newMinute 0] }
      else s
    let s1 := { s0 with g_runMode := RUN }
    let s2 := s1.setStart 3 false
    let s3 := s2.setStart 2 false
    s3.setOver 2 true
  else s

/-- The function `cmdTimeCommandProcessing`: its two blocks in sequence. -/
def cmdTimeCommandProcessing (rxcmd : Nat) (s : State) : State :=
  cmdOk rxcmd (cmdDigits rxcmd s)

/-- The function `IRcommandHandler`; `ev` is the pending infrared frame. -/
def IRcommandHandler (ev : Option IRData) (s : State) : State :=
  if (s.g_timers 3).Over = true then
    let s1 := s.onStrip Strip.clear
    let s2 := { s1 with g_showDisplay := true }
    let s3 := { s2 with g_runMode := RUN }
    let s4 := s3.setOver 3 false
    startTimer 2 s4
  else
    let r := receiveIR ev s
    let s1 := { r.2 with g_command := r.1 }
    if s1.g_command ≠ NO_CMD then
      let s2 :=
        if s1.g_runMode = RUN then
          { runTimeCommandProcessing s1.g_command s1 with g_command := NO_CMD }
        else s1
      if s2.g_runMode = CMD then
        { cmdTimeCommandProcessing s2.g_command s2 with g_command := NO_CMD }
      else s2
    else s1

/-! ## main.cpp: setup and the main loop -/

/-- The function `setup`, run on the power-up state.  `rtcRunning` is the
answer of `g_rtc.isrunning()`, `compileTime` the build date written to a
stopped RTC, `now` the RTC read-out of the first clock update. -/
def setup (rtcRunning : Bool) (compileTime now : DateTime) (s : State) : State :=
  let s1 := { s with g_showDisplay := true }
  let s2 := if rtcRunning = false then
      { s1 with rtcWrites := s1.rtcWrites ++ [compileTime] }
    else s1
  let s3 := s2.setInitialValue 0 Timer0Value
  let s4 := s3.setInitialValue 1 Timer1Value
  let s5 := s4.setInitialValue 2 Timer2Value
  let s6 := s5.setInitialValue 3 Timer3Value
  let s7 := (s6.onStrip (Strip.setBrightness 10)).onStrip Strip.showPixels
  let s8 := { s7 with g_ringColour := COLOUR_BLUE }
  let s9 := { s8 with g_command := NO_CMD }
  let s10 := s9.onStrip (forLoop 61 (fun i a =>
    (a.setPixelColor i s9.g_ringColour).showPixels))
  let s11 := s10.onStrip (forLoop 61 (fun i a => (a.setPixelColor i 0).showPixels))
  let s12 := s11.setOver 2 true
  let s13 := updateClock now s12
  let s14 := startTimer 0 s13
  let s15 := startTimer 1 s14
  let s16 := startTimer 2 s15
  { s16 with g_runMode := RUN }

/-- What the environment does: a tick of the timer interrupt, or one of the
calls of the main loop together with its inputs. -/
inductive Action where
  | tick : Action
  | updateClock (now : DateTime) : Action
  | checkDoor (doorOpen : Bool) (ticks : Nat) : Action
  | getCO2 (polls : List Poll) : Action
  | updateBrightness (ldrValue : Nat) : Action
  | IRcommandHandler (ev : Option IRData) : Action

/-- Runs one action; `none` only when the reply wait of `getCO2` is given too
short a list of polls to finish. -/
def step (a : Action) (s : State) : Option State :=
  match a with
  | Action.tick => some (ISR s)
  | Action.updateClock now => some (updateClock now s)
  | Action.checkDoor doorOpen ticks => some (checkDoor doorOpen ticks s)
  | Action.getCO2 polls => getCO2 polls s
  | Action.updateBrightness ldrValue => some (updateBrightness ldrValue s)
  | Action.IRcommandHandler ev => some (IRcommandHandler ev s)

/-- Runs a sequence of actions from left to right. -/
def run : List Action → State → Option State
  | [], s => some s
  | a :: as, s =>
    match step a s with
    | none => none
    | some s1 => run as s1

/-- The body of `loop`, without interrupts between its five calls. -/
def loop (now : DateTime) (doorOpen : Bool) (doorTicks : Nat) (polls : List Poll)
    (ldrValue : Nat) (ev : Option IRData) (s : State) : Option State :=
  run [Action.updateClock now, Action.checkDoor doorOpen doorTicks, Action.getCO2 polls,
       Action.updateBrightness ldrValue, Action.IRcommandHandler ev] s

/-- The state after `setup`, for some inputs of `setup`. -/
def postSetup (rtcRunning : Bool) (compileTime now : DateTime) : State :=
  setup rtcRunning compileTime now State.zero

/-- A state the firmware can be in after `setup`: reached from a post-setup
state by ticks and main-loop calls in any order. -/
def Reachable (s : State) : Prop :=
  ∃ (rtcRunning : Bool) (compileTime now : DateTime) (acts : List Action),
    run acts (postSetup rtcRunning compileTime now) = some s

/-! ## Auxiliary definitions for the statements -/

/-- The effect of one tick on a single timer. -/
def tickTimer (t : Timer) : Timer :=
  if t.Start = true then
    if toByte (t.Count + 255) = 0 then
      { t with Start := false, Count := toByte (t.Count + 255), Over := true }
    else { t with Count := toByte (t.Count + 255) }
  else t

/-- A timer is well configured: its initial value is in 1..255 and, while it
is started, its count is in 1..255. -/
def TimerOK (t : Timer) : Prop :=
  1 ≤ t.InitialValue ∧ t.InitialValue ≤ 255 ∧ (t.Start = true → 1 ≤ t.Count ∧ t.Count ≤ 255)

/-- Every timer of the bank is well configured. -/
def TimersOK (s : State) : Prop := ∀ i : Fin 4, TimerOK (s.g_timers i)

/-- An RTC read-out used in the examples. -/
def sampleTime : DateTime :=
  { year := 2024, month := 5, day := 17, hour := 10, minute := 24, second := 0 }

/-- The state after `setup` with a running RTC that reads `sampleTime`. -/
def bootState : State := postSetup true sampleTime sampleTime

/-- Feeds decoded infrared frames to `IRcommandHandler`, one per pass of the
main loop, with no tick in between. -/
def handleFrames (evs : List IRData) (s : State) : State :=
  evs.foldl (fun st d => IRcommandHandler (some d) st) s

/-- Runs `cmdTimeCommandProcessing` on a sequence of commands. -/
def cmdSequence (cmds : List Nat) (s : State) : State :=
  cmds.foldl (fun st c => cmdTimeCommandProcessing c st) s

/-- A repeat frame of the OK key (raw code 0x1C). -/
def okRepeatFrame : IRData := { command := 0x1C, flags := IRDATA_FLAGS_IS_REPEAT }

/-- The state right after command mode is entered: ten repeat frames of the OK
key received in the state after `setup`. -/
def cmdEntryState : State := handleFrames (List.replicate 10 okRepeatFrame) bootState

/-- The acceptance rule for digit `d` at position `p` in the words of the
specification; `hourTens` is the hour digit entered at position 6. -/
def digitAccepted (p d hourTens : Nat) : Prop :=
  (p = 0 ∧ d ≤ 3) ∨ (p = 2 ∧ d ≤ 1) ∨ (p = 6 ∧ d ≤ 2) ∨ (p = 7 ∧ 10 * hourTens + d ≤ 23) ∨
    (p = 8 ∧ d ≤ 5) ∨ p = 1 ∨ p = 3 ∨ p = 4 ∨ p = 5 ∨ p = 9

instance (p d hourTens : Nat) : Decidable (digitAccepted p d hourTens) := by
  unfold digitAccepted
  infer_instance

/-- The state in which the digit switch of `cmdTimeCommandProcessing` runs:
timer 3 restarted, timer 2 stopped, the digit shown. -/
def entryState (rxcmd : Nat) (s : State) : State :=
  showEntry rxcmd ((startTimer 3 s).setStart 2 false).g_digitCount
    ((startTimer 3 s).setStart 2 false)

/-- The pending entry of a state: digits entered, the five fields under
construction, and the RTC writes recorded so far. -/
def Pending (s : State) (p day month hour minute : Nat) (year : Int)
    (w : List DateTime) : Prop :=
  s.g_digitCount = p ∧ s.g_newDay = day ∧ s.g_newMonth = month ∧ s.g_newHour = hour ∧
    s.g_newMinute = minute ∧ s.g_newYear = year ∧ s.rtcWrites = w

/-- The one situation in which the command handler commits an entry: the
action is an `IRcommandHandler` call with the command timeout not over, the
pending frame is a non-repeated OK, the mode is CMD and ten digits are
entered. -/
def commitsEntry (a : Action) (s : State) : Prop :=
  match a with
  | Action.IRcommandHandler (some d) =>
      (s.g_timers 3).Over = false ∧ isRepeat d = false ∧
        decodeKey (toByte d.command) = KEY_OK ∧ s.g_runMode = CMD ∧ s.g_digitCount = 10
  | _ => False

/-- A non-repeated frame of the key with raw code `raw`. -/
def pressFrame (raw : Nat) : IRData := { command := raw, flags := 0 }

instance (a : Action) (s : State) : Decidable (commitsEntry a s) := by
  cases a with
  | tick => exact isFalse (fun h => h)
  | updateClock now => exact isFalse (fun h => h)
  | checkDoor doorOpen ticks => exact isFalse (fun h => h)
  | getCO2 polls => exact isFalse (fun h => h)
  | updateBrightness ldrValue => exact isFalse (fun h => h)
  | IRcommandHandler ev =>
    cases ev with
    | none => exact isFalse (fun h => h)
    | some d =>
      exact inferInstanceAs (Decidable ((s.g_timers 3).Over = false ∧ isRepeat d = false ∧
        decodeKey (toByte d.command) = KEY_OK ∧ s.g_runMode = CMD ∧ s.g_digitCount = 10))

/-- The timer interrupts that fire while the polls of a list are made. -/
def pollTicks (polls : List Poll) : Nat := (polls.map Poll.ticks).sum

/-- The red, green and blue channels of a colour word. -/
def channels (colour : Nat) : Nat × Nat × Nat :=
  (colour / 65536 % 256, colour / 256 % 256, colour % 256)

/-- The state ten ticks after `setup`, with the display switched off by the
key STAR: the poll timer is over and `g_showDisplay` is false. -/
def darkPollState : State := ISR^[10] (runTimeCommandProcessing KEY_AST bootState)

/-- The key table in the words of the specification: raw code and abstract
command, for the digits 0..9 and for UP, DOWN, LEFT, RIGHT, OK, STAR, HASH. -/
def keyTable : List (Nat × Nat) :=
  [(0x19, 0), (0x45, 1), (0x46, 2), (0x47, 3), (0x44, 4), (0x40, 5), (0x43, 6), (0x07, 7),
   (0x15, 8), (0x09, 9), (0x18, KEY_UP), (0x52, KEY_DOWN), (0x08, KEY_LEFT), (0x5A, KEY_RIGHT),
   (0x1C, KEY_OK), (0x16, KEY_AST), (0x0D, KEY_HASH)]

/-- The four field writes of `startTimer`, in program order. -/
def startTimerWrites (timerID : Fin 4) : List (State → State) :=
  [fun s => s.setStart timerID false,
   fun s => s.setOver timerID false,
   fun s => s.setCount timerID (s.g_timers timerID).InitialValue,
   fun s => s.setStart timerID true]

/-- Runs a list of writes from left to right. -/
def runWrites (ws : List (State → State)) (s : State) : State :=
  ws.foldl (fun st w => w st) s

/-- The function `startTimer` with one execution of the tick handler after the
first `k` of its four field writes. -/
def startTimerInterrupted (k : Nat) (timerID : Fin 4) (s : State) : State :=
  runWrites ((startTimerWrites timerID).drop k)
    (ISR (runWrites ((startTimerWrites timerID).take k) s))

/-- The pixel buffer after `for (i = 0; i < n; i++) setPixelColor(i + off, c)`. -/
def paint (off n c : Nat) (px : List Nat) : List Nat :=
  forLoop n (fun i a => if i + off < NUM_PIXELS then a.set (i + off) c else a) px

/-- The cleared pixel buffer. -/
def darkPixels : List Nat := List.replicate NUM_PIXELS 0

/-- The globals owned by the mode state machine: the OK-repeat counter, the
mode, the command, the digit count, the five pending fields and the RTC log. -/
def machineFields (s : State) :
    Nat × Nat × Nat × Nat × Nat × Nat × Nat × Nat × Int × List DateTime :=
  (s.g_countOK, s.g_runMode, s.g_command, s.g_digitCount, s.g_newDay, s.g_newMonth,
    s.g_newHour, s.g_newMinute, s.g_newYear, s.rtcWrites)

/-- A timer that will still expire or has expired: started with a count of at
least one, or over. -/
def Alive (t : Timer) : Prop := (t.Start = true ∧ 1 ≤ t.Count) ∨ t.Over = true

instance (t : Timer) : Decidable (Alive t) := by
  unfold Alive
  infer_instance

/-- While the mode is CMD the command timeout can still fire: timer 3 is
started with a count of at least one, or over. -/
def CmdTimeoutAlive (s : State) : Prop := s.g_runMode = CMD → Alive (s.g_timers 3)

/-- While the mode is RUN the clock refresh can still fire: timer 2 is started
with a count of at least one, or over. -/
def RunRefreshAlive (s : State) : Prop := s.g_runMode = RUN → Alive (s.g_timers 2)

/-- The digit count and the five pending fields. -/
def entryFields (s : State) : Nat × Nat × Nat × Nat × Nat × Int :=
  (s.g_digitCount, s.g_newDay, s.g_newMonth, s.g_newHour, s.g_newMinute, s.g_newYear)

/-- The bounds of the pending entry: at most ten digits are entered, and each
field is within what the digits entered so far allow. -/
def EntryOK (s : State) : Prop :=
  s.g_digitCount ≤ 10 ∧
  (s.g_digitCount = 1 → s.g_newDay ≤ 3) ∧ (2 ≤ s.g_digitCount → s.g_newDay ≤ 39) ∧
  (s.g_digitCount = 3 → s.g_newMonth ≤ 1) ∧ (4 ≤ s.g_digitCount → s.g_newMonth ≤ 19) ∧
  (s.g_digitCount = 5 → 0 ≤ s.g_newYear ∧ s.g_newYear ≤ 9) ∧
  (6 ≤ s.g_digitCount → 2000 ≤ s.g_newYear ∧ s.g_newYear ≤ 2099) ∧
  (s.g_digitCount = 7 → s.g_newHour ≤ 2) ∧ (8 ≤ s.g_digitCount → s.g_newHour ≤ 23) ∧
  (s.g_digitCount = 9 → s.g_newMinute ≤ 5) ∧ (10 ≤ s.g_digitCount → s.g_newMinute ≤ 59)

/-- No step of the digit entry wraps around: for the digit `d` the sums built
at the positions 1, 3, 5, 7 and 9 and the incremented digit count are what
the 8 bit and 16 bit variables hold. -/
def NoWrap (s : State) (d : Nat) : Prop :=
  (s.g_digitCount ≤ 9 → toByte (s.g_digitCount + 1) = s.g_digitCount + 1) ∧
  (s.g_digitCount = 1 → toByte (s.g_newDay * 10 + d) = s.g_newDay * 10 + d) ∧
  (s.g_digitCount = 3 → toByte (s.g_newMonth * 10 + d) = s.g_newMonth * 10 + d) ∧
  (s.g_digitCount = 5 →
    toInt16 (2000 + (s.g_newYear * 10 + (d : Int))) = 2000 + (s.g_newYear * 10 + (d : Int))) ∧
  (s.g_digitCount = 7 → toByte (s.g_newHour * 10 + d) = s.g_newHour * 10 + d) ∧
  (s.g_digitCount = 9 → toByte (s.g_newMinute * 10 + d) = s.g_newMinute * 10 + d)

/-- The bounds of a date and time written by the command handler. -/
def DateOK (w : DateTime) : Prop :=
  w.hour ≤ 23 ∧ w.minute ≤ 59 ∧ 2000 ≤ w.year ∧ w.year ≤ 2099 ∧ w.day ≤ 39 ∧ w.month ≤ 19

instance (w : DateTime) : Decidable (DateOK w) := by
  unfold DateOK
  infer_instance

/-- A complete entry as seen by the main loop: ten repeat frames of OK, the
keys 0 1 0 1 2 4 1 0 3 0 and OK, one frame per `IRcommandHandler` call. -/
def fullEntryActs : List Action :=
  List.replicate 10 (Action.IRcommandHandler (some okRepeatFrame)) ++
    ([0x19, 0x45, 0x19, 0x45, 0x46, 0x44, 0x45, 0x19, 0x47, 0x19, 0x1C].map
      (fun raw => Action.IRcommandHandler (some (pressFrame raw))))

/-- The state after the complete entry, started in the state after `setup`. -/
def committedState : State := (run fullEntryActs bootState).getD bootState

/-- A session that ends by the command timeout: ten repeat frames of OK, then
twelve ticks, then an `IRcommandHandler` call with no frame pending. -/
def timeoutActs : List Action :=
  List.replicate 10 (Action.IRcommandHandler (some okRepeatFrame)) ++
    List.replicate 12 Action.tick ++ [Action.IRcommandHandler none]

/-- The state after the session that ends by the command timeout. -/
def timedOutState : State := (run timeoutActs bootState).getD bootState

/-- The state `s` with the digit count and the five pending fields replaced. -/
def setPending (s : State) (digitCount day month hour minute : Nat) (year : Int) : State :=
  { s with g_digitCount := digitCount, g_newDay := day, g_newMonth := month, g_newHour := hour,
           g_newMinute := minute, g_newYear := year }

/-- The state `t` differs from `s` at most in the digit count and the five
pending fields. -/
def SameButEntry (s t : State) : Prop :=
  ∃ (digitCount day month hour minute : Nat) (year : Int),
    t = setPending s digitCount day month hour minute year

/-- The states `s` and `t` agree on the entry that is under way: the digit
count and the pending fields that the digits entered so far have set. -/
def EntryAgree (s t : State) : Prop :=
  t.g_digitCount = s.g_digitCount ∧
  (1 ≤ s.g_digitCount → t.g_newDay = s.g_newDay) ∧
  (3 ≤ s.g_digitCount → t.g_newMonth = s.g_newMonth) ∧
  (5 ≤ s.g_digitCount → t.g_newYear = s.g_newYear) ∧
  (7 ≤ s.g_digitCount → t.g_newHour = s.g_newHour) ∧
  (9 ≤ s.g_digitCount → t.g_newMinute = s.g_newMinute)

/-- The relation kept by every step of two runs that start in states differing
only in stale pending fields: the states differ at most in the digit count and
the pending fields, and while the mode is CMD they agree on the entry under
way. -/
def StaleRel (s t : State) : Prop :=
  SameButEntry s t ∧ (s.g_runMode = CMD → EntryAgree s t)

/-- The state after `setup` with pending fields and a digit count left over
from an earlier session. -/
def staleState : State := setPending bootState 7 31 12 23 59 2099

/-- The pixel buffer after `for (i = 0; i < n; i++) setPixelColor(i + off, f i)`. -/
def paintWith (off n : Nat) (f : Nat → Nat) (px : List Nat) : List Nat :=
  forLoop n (fun i a => if i + off < NUM_PIXELS then a.set (i + off) (f i) else a) px

/-- The busy-wait of `getCO2` with timer interrupts inside the loop body as
well (`waitCO2` is the case `bodyTicks = 0`).  In the iteration that finds nine bytes `bodyTicks`
executions of the tick handler fire after the loop condition is evaluated and
before the store `g_timers[0].Start = false`.  (The statements of the body
before that store touch no timer, so it does not matter where among them the
handler runs; after the store the handler leaves timer 0 alone.) -/
def waitCO2Interrupted (bodyTicks : Nat) : List Poll → State → Option State
  | [], _ => none
  | p :: ps, s =>
    let s1 := ISR^[p.ticks] s
    if (s1.g_timers 0).Over = false then
      if p.available = 9 then
        let b2 := toByte (p.frame.getD 2 0)
        let b3 := toByte (p.frame.getD 3 0)
        let s2 := { s1 with g_co2Level := toUInt16 (b2 * 256 + b3) }
        let s2b := ISR^[bodyTicks] s2
        let s3 := s2b.setStart 0 false
        some (setColorLevel (toInt16 s3.g_co2Level) s3)
      else waitCO2Interrupted bodyTicks ps s1
    else some s1

/-- The function `getCO2` with the wait loop `waitCO2Interrupted`. -/
def getCO2Interrupted (bodyTicks : Nat) (polls : List Poll) (s : State) : Option State :=
  if (s.g_timers 1).Over = true then
    let s1 := startTimer 1 s
    let s2 := { s1 with serialWrites := s1.serialWrites ++ [INIT_CO2.take INIT_CO2_LENGTH] }
    let s3 := startTimer 0 s2
    match waitCO2Interrupted bodyTicks polls s3 with
    | none => none
    | some s4 =>
      if (s4.g_timers 0).Over = true then
        let s5 := setErrorCode ERROR_TIMEOUT_CO2 s4
        some { s5 with g_co2Level := 0 }
      else some s4
  else some s

/-- A reply frame with the reading 400 ppm, seen by a poll made three ticks
after the request. -/
def replyPoll : Poll :=
  { ticks := 3, available := 9, frame := [0xFF, 0x86, 0x01, 0x90, 0x00, 0x00, 0x00, 0x00, 0xE9] }

/-! ## Lemmas on the timer bank -/

set_option maxRecDepth 4000

theorem isrBody_eq (s : State) (i : Fin 4) :
    isrBody s i =
      { s with g_timers := Function.update s.g_timers i (tickTimer (s.g_timers i)) } := by
  unfold isrBody tickTimer
  by_cases h : (s.g_timers i).Start = true
  · by_cases h0 : toByte ((s.g_timers i).Count + 255) = 0
    · simp [h, h0, State.setTimer, State.setStart, State.setOver, State.setCount]
    · simp [h, h0, State.setTimer, State.setStart, State.setOver, State.setCount]
  · simp [h]

/-- One interrupt changes nothing but the timers, each by `tickTimer`. -/
theorem ISR_eq (s : State) :
    ISR s = { s with g_timers := fun i => tickTimer (s.g_timers i) } := by
  simp only [ISR, List.foldl, isrBody_eq]
  congr 1
  funext i
  fin_cases i <;> simp [Function.update]

theorem ISR_timers (s : State) (i : Fin 4) :
    (ISR s).g_timers i = tickTimer (s.g_timers i) := by
  rw [ISR_eq]

theorem ISR_iterate_timers (n : Nat) (s : State) (i : Fin 4) :
    (ISR^[n] s).g_timers i = tickTimer^[n] (s.g_timers i) := by
  induction n generalizing s with
  | zero => rfl
  | succ k ih => rw [Function.iterate_succ_apply, Function.iterate_succ_apply, ih, ISR_timers]

theorem startTimer_timers_same (s : State) (i : Fin 4) :
    (startTimer i s).g_timers i =
      { Start := true, Count := (s.g_timers i).InitialValue, Over := false,
        InitialValue := (s.g_timers i).InitialValue } := by
  simp [startTimer, State.setTimer, State.setStart, State.setOver, State.setCount]

theorem startTimer_timers_ne (s : State) (i j : Fin 4) (h : j ≠ i) :
    (startTimer i s).g_timers j = s.g_timers j := by
  simp [startTimer, State.setTimer, State.setStart, State.setOver, State.setCount,
    Function.update_noteq h]

/-- A running timer with `c` ticks left still runs, with `c - n` ticks left,
after `n < c` ticks. -/
theorem tickTimer_iterate_lt (n c v : Nat) (hc : c ≤ 255) (hn : n < c) :
    tickTimer^[n] { Start := true, Count := c, Over := false, InitialValue := v } =
      { Start := true, Count := c - n, Over := false, InitialValue := v } := by
  induction n with
  | zero => rfl
  | succ k ih =>
    rw [Function.iterate_succ_apply', ih (by omega)]
    have h1 : toByte (c - k + 255) = c - (k + 1) := by unfold toByte; omega
    have h2 : c - (k + 1) ≠ 0 := by omega
    simp [tickTimer, h1, h2]

/-- A running timer with `c` ticks left is stopped and over after exactly `c`
ticks. -/
theorem tickTimer_iterate_eq (c v : Nat) (h1 : 1 ≤ c) (hc : c ≤ 255) :
    tickTimer^[c] { Start := true, Count := c, Over := false, InitialValue := v } =
      { Start := false, Count := 0, Over := true, InitialValue := v } := by
  obtain ⟨k, rfl⟩ : ∃ k, c = k + 1 := ⟨c - 1, by omega⟩
  rw [Function.iterate_succ_apply', tickTimer_iterate_lt k (k + 1) v hc (by omega)]
  have h256 : toByte 256 = 0 := rfl
  simp [tickTimer, h256]

/-- One tick decrements the count of a started timer as a byte. -/
theorem ISR_count_of_started (s : State) (i : Fin 4) (h : (s.g_timers i).Start = true) :
    ((ISR s).g_timers i).Count = toByte ((s.g_timers i).Count + 255) := by
  rw [ISR_timers]
  unfold tickTimer
  rw [if_pos h]
  split_ifs <;> rfl

/-! ## C1: a started timer expires after exactly its initial value of ticks -/

/-- C1: for every timer whose initial value is in 1..255 and every `n` below
that value: after `startTimer` and `n` ticks the timer is not over and still
started (with the initial value minus `n` ticks left); after exactly as many
ticks as the initial value it is over and no longer started. -/
theorem startTimer_then_ticks (s : State) (id : Fin 4) (n : Nat)
    (h1 : 1 ≤ (s.g_timers id).InitialValue) (h255 : (s.g_timers id).InitialValue ≤ 255)
    (hn : n < (s.g_timers id).InitialValue) :
    ((ISR^[n] (startTimer id s)).g_timers id).Over = false ∧
    ((ISR^[n] (startTimer id s)).g_timers id).Start = true ∧
    ((ISR^[n] (startTimer id s)).g_timers id).Count = (s.g_timers id).InitialValue - n ∧
    ((ISR^[(s.g_timers id).InitialValue] (startTimer id s)).g_timers id).Over = true ∧
    ((ISR^[(s.g_timers id).InitialValue] (startTimer id s)).g_timers id).Start = false := by
  rw [ISR_iterate_timers, ISR_iterate_timers, startTimer_timers_same,
    tickTimer_iterate_lt n _ _ h255 hn, tickTimer_iterate_eq _ _ h1 h255]
  simp

theorem startTimer_then_ticks_witness :
    (((ISR^[3] (startTimer 0 bootState)).g_timers 0).Over = false ∧
     ((ISR^[3] (startTimer 0 bootState)).g_timers 0).Start = true ∧
     ((ISR^[3] (startTimer 0 bootState)).g_timers 0).Count = 4 - 3 ∧
     ((ISR^[4] (startTimer 0 bootState)).g_timers 0).Over = true ∧
     ((ISR^[4] (startTimer 0 bootState)).g_timers 0).Start = false) ∧
    (((ISR^[9] (startTimer 1 bootState)).g_timers 1).Over = false ∧
     ((ISR^[9] (startTimer 1 bootState)).g_timers 1).Start = true ∧
     ((ISR^[9] (startTimer 1 bootState)).g_timers 1).Count = 10 - 9 ∧
     ((ISR^[10] (startTimer 1 bootState)).g_timers 1).Over = true ∧
     ((ISR^[10] (startTimer 1 bootState)).g_timers 1).Start = false) ∧
    (((ISR^[29] (startTimer 2 bootState)).g_timers 2).Over = false ∧
     ((ISR^[29] (startTimer 2 bootState)).g_timers 2).Start = true ∧
     ((ISR^[29] (startTimer 2 bootState)).g_timers 2).Count = 30 - 29 ∧
     ((ISR^[30] (startTimer 2 bootState)).g_timers 2).Over = true ∧
     ((ISR^[30] (startTimer 2 bootState)).g_timers 2).Start = false) ∧
    (((ISR^[0] (startTimer 3 bootState)).g_timers 3).Over = false ∧
     ((ISR^[0] (startTimer 3 bootState)).g_timers 3).Start = true ∧
     ((ISR^[0] (startTimer 3 bootState)).g_timers 3).Count = 12 - 0 ∧
     ((ISR^[12] (startTimer 3 bootState)).g_timers 3).Over = true ∧
     ((ISR^[12] (startTimer 3 bootState)).g_timers 3).Start = false) :=
  ⟨startTimer_then_ticks bootState 0 3 (by decide) (by decide) (by decide),
   startTimer_then_ticks bootState 1 9 (by decide) (by decide) (by decide),
   startTimer_then_ticks bootState 2 29 (by decide) (by decide) (by decide),
   startTimer_then_ticks bootState 3 0 (by decide) (by decide) (by decide)⟩

/-! ## C2: one tick -/

/-- C2: one execution of the tick handler leaves every timer that is not
started completely unchanged and changes no initial value.  For a started
timer the count is decremented by one as a byte (exactly `Count - 1` whenever
the count is in 1..255); the timer is marked over and stopped when the
decremented count is 0, and otherwise keeps its flags (still started, `Over`
as before). -/
theorem ISR_one_tick (s : State) (i : Fin 4) :
    ((ISR s).g_timers i).InitialValue = (s.g_timers i).InitialValue ∧
    ((s.g_timers i).Start = false → (ISR s).g_timers i = s.g_timers i) ∧
    ((s.g_timers i).Start = true →
      ((ISR s).g_timers i).Count = toByte ((s.g_timers i).Count + 255) ∧
      (1 ≤ (s.g_timers i).Count → (s.g_timers i).Count ≤ 255 →
        ((ISR s).g_timers i).Count = (s.g_timers i).Count - 1) ∧
      (((ISR s).g_timers i).Count = 0 →
        ((ISR s).g_timers i).Over = true ∧ ((ISR s).g_timers i).Start = false) ∧
      (((ISR s).g_timers i).Count ≠ 0 →
        ((ISR s).g_timers i).Over = (s.g_timers i).Over ∧
        ((ISR s).g_timers i).Start = true)) := by
  rw [ISR_timers]
  refine ⟨?_, ?_, ?_⟩
  · unfold tickTimer; split_ifs <;> rfl
  · intro h; simp [tickTimer, h]
  · intro h
    have hc : (tickTimer (s.g_timers i)).Count = toByte ((s.g_timers i).Count + 255) := by
      unfold tickTimer
      rw [if_pos h]
      split_ifs <;> rfl
    refine ⟨hc, ?_, ?_, ?_⟩
    · intro h1 h2
      rw [hc]
      unfold toByte
      omega
    · intro h0
      rw [hc] at h0
      simp [tickTimer, h, h0]
    · intro h0
      rw [hc] at h0
      simp [tickTimer, h, h0]

theorem ISR_one_tick_witness :
    ((ISR bootState).g_timers 0).InitialValue = (bootState.g_timers 0).InitialValue ∧
    (ISR bootState).g_timers 3 = bootState.g_timers 3 ∧
    ((ISR bootState).g_timers 0).Count = toByte ((bootState.g_timers 0).Count + 255) ∧
    ((ISR bootState).g_timers 0).Count = (bootState.g_timers 0).Count - 1 ∧
    (((ISR bootState).g_timers 0).Over = (bootState.g_timers 0).Over ∧
      ((ISR bootState).g_timers 0).Start = true) ∧
    (((ISR (ISR^[3] bootState)).g_timers 0).Over = true ∧
      ((ISR (ISR^[3] bootState)).g_timers 0).Start = false) :=
  ⟨(ISR_one_tick bootState 0).1,
   (ISR_one_tick bootState 3).2.1 (by decide),
   ((ISR_one_tick bootState 0).2.2 (by decide)).1,
   ((ISR_one_tick bootState 0).2.2 (by decide)).2.1 (by decide) (by decide),
   ((ISR_one_tick bootState 0).2.2 (by decide)).2.2.2 (by decide),
   ((ISR_one_tick (ISR^[3] bootState) 0).2.2 (by decide)).2.2.1 (by decide)⟩

/-! ## The digit switch, position by position -/

theorem cmdDigitSwitch_pos0 (c : Nat) (s : State) (h : s.g_digitCount = 0) :
    cmdDigitSwitch c s =
      if c > 3 then showEntry 255 0 s else { s with g_newDay := c, g_digitCount := 1 } := by
  simp [cmdDigitSwitch, h, toByte]

theorem cmdDigitSwitch_pos1 (c : Nat) (s : State) (h : s.g_digitCount = 1) :
    cmdDigitSwitch c s =
      { s with g_newDay := toByte (s.g_newDay * 10 + c), g_digitCount := 2 } := by
  simp [cmdDigitSwitch, h, toByte]

theorem cmdDigitSwitch_pos2 (c : Nat) (s : State) (h : s.g_digitCount = 2) :
    cmdDigitSwitch c s =
      if c > 1 then showEntry 255 2 s else { s with g_newMonth := c, g_digitCount := 3 } := by
  simp [cmdDigitSwitch, h, toByte]

theorem cmdDigitSwitch_pos3 (c : Nat) (s : State) (h : s.g_digitCount = 3) :
    cmdDigitSwitch c s =
      { s with g_newMonth := toByte (s.g_newMonth * 10 + c), g_digitCount := 4 } := by
  simp [cmdDigitSwitch, h, toByte]

theorem cmdDigitSwitch_pos4 (c : Nat) (s : State) (h : s.g_digitCount = 4) :
    cmdDigitSwitch c s = { s with g_newYear := (c : Int), g_digitCount := 5 } := by
  simp [cmdDigitSwitch, h, toByte]

theorem cmdDigitSwitch_pos5 (c : Nat) (s : State) (h : s.g_digitCount = 5) :
    cmdDigitSwitch c s =
      { s with g_newYear := toInt16 (2000 + (s.g_newYear * 10 + (c : Int))),
               g_digitCount := 6 } := by
  simp [cmdDigitSwitch, h, toByte]

theorem cmdDigitSwitch_pos6 (c : Nat) (s : State) (h : s.g_digitCount = 6) :
    cmdDigitSwitch c s =
      if c > 2 then showEntry 255 6 s else { s with g_newHour := c, g_digitCount := 7 } := by
  simp [cmdDigitSwitch, h, toByte]

theorem cmdDigitSwitch_pos7 (c : Nat) (s : State) (h : s.g_digitCount = 7) :
    cmdDigitSwitch c s =
      if s.g_newHour * 10 + c > 23 then showEntry 255 7 s
      else { s with g_newHour := toByte (s.g_newHour * 10 + c), g_digitCount := 8 } := by
  simp [cmdDigitSwitch, h, toByte]

theorem cmdDigitSwitch_pos8 (c : Nat) (s : State) (h : s.g_digitCount = 8) :
    cmdDigitSwitch c s =
      if c > 5 then showEntry 255 8 s else { s with g_newMinute := c, g_digitCount := 9 } := by
  simp [cmdDigitSwitch, h, toByte]

theorem cmdDigitSwitch_pos9 (c : Nat) (s : State) (h : s.g_digitCount = 9) :
    cmdDigitSwitch c s =
      { s with g_newMinute := toByte (s.g_newMinute * 10 + c), g_digitCount := 10 } := by
  simp [cmdDigitSwitch, h, toByte]

theorem cmdDigitSwitch_overflow (c : Nat) (s : State) (h : 10 ≤ s.g_digitCount) :
    cmdDigitSwitch c s = startTimer 2 (({ s with g_runMode := RUN }).setStart 3 false) := by
  have h0 : s.g_digitCount ≠ 0 := by omega
  have h1 : s.g_digitCount ≠ 1 := by omega
  have h2 : s.g_digitCount ≠ 2 := by omega
  have h3 : s.g_digitCount ≠ 3 := by omega
  have h4 : s.g_digitCount ≠ 4 := by omega
  have h5 : s.g_digitCount ≠ 5 := by omega
  have h6 : s.g_digitCount ≠ 6 := by omega
  have h7 : s.g_digitCount ≠ 7 := by omega
  have h8 : s.g_digitCount ≠ 8 := by omega
  have h9 : s.g_digitCount ≠ 9 := by omega
  simp only [cmdDigitSwitch, h0, h1, h2, h3, h4, h5, h6, h7, h8, h9, if_false]

theorem digitCount_cases (n : Nat) :
    n = 0 ∨ n = 1 ∨ n = 2 ∨ n = 3 ∨ n = 4 ∨ n = 5 ∨ n = 6 ∨ n = 7 ∨ n = 8 ∨ n = 9 ∨
      10 ≤ n := by
  omega

/-! ## The timer invariant is kept by every function -/

theorem tickTimer_ok (t : Timer) (h : TimerOK t) : TimerOK (tickTimer t) := by
  obtain ⟨h1, h2, h3⟩ := h
  unfold tickTimer
  split_ifs with hs h0
  · exact ⟨h1, h2, by simp⟩
  · refine ⟨h1, h2, fun _ => ?_⟩
    have := h3 hs
    simp only [toByte] at h0 ⊢
    omega
  · exact ⟨h1, h2, h3⟩

theorem TimersOK_ISR {s : State} (h : TimersOK s) : TimersOK (ISR s) := by
  intro i
  rw [ISR_timers]
  exact tickTimer_ok _ (h i)

theorem TimersOK_ISR_iterate (n : Nat) {s : State} (h : TimersOK s) :
    TimersOK (ISR^[n] s) := by
  induction n with
  | zero => exact h
  | succ k ih =>
    rw [Function.iterate_succ_apply']
    exact TimersOK_ISR ih

theorem TimersOK_setTimer {s : State} (h : TimersOK s) (i : Fin 4) (t : Timer)
    (ht : TimerOK t) : TimersOK (s.setTimer i t) := by
  intro j
  by_cases hj : j = i
  · subst hj; simpa [State.setTimer] using ht
  · simpa [State.setTimer, Function.update_noteq hj] using h j

theorem TimersOK_setStart_false {s : State} (i : Fin 4) (h : TimersOK s) :
    TimersOK (s.setStart i false) :=
  TimersOK_setTimer h i _ ⟨(h i).1, (h i).2.1, by simp⟩

theorem TimersOK_setOver {s : State} (i : Fin 4) (b : Bool) (h : TimersOK s) :
    TimersOK (s.setOver i b) :=
  TimersOK_setTimer h i _ ⟨(h i).1, (h i).2.1, (h i).2.2⟩

theorem TimersOK_startTimer {s : State} (i : Fin 4) (h : TimersOK s) :
    TimersOK (startTimer i s) := by
  intro j
  by_cases hj : j = i
  · subst hj
    rw [startTimer_timers_same]
    exact ⟨(h j).1, (h j).2.1, fun _ => ⟨(h j).1, (h j).2.1⟩⟩
  · rw [startTimer_timers_ne _ _ _ hj]; exact h j

theorem TimersOK_of_timers_eq {s t : State} (h : TimersOK s)
    (e : t.g_timers = s.g_timers) : TimersOK t := by
  intro i
  rw [e]
  exact h i

/-- The invariant of a state given field by field only reads the timers. -/
theorem TimersOK_mk (g : Fin 4 → Timer) (a1 : Bool) (a2 : Nat) (a3 : LocalTime)
    (a4 a5 a6 a7 a8 a9 a10 a11 : Nat) (a12 : Int) (a13 : Nat) (a14 : Strip)
    (a15 : List DateTime) (a16 : List (List Nat)) :
    TimersOK (State.mk g a1 a2 a3 a4 a5 a6 a7 a8 a9 a10 a11 a12 a13 a14 a15 a16) ↔
      ∀ i : Fin 4, TimerOK (g i) :=
  Iff.rfl

theorem onStrip_timers (f : Strip → Strip) (s : State) :
    (s.onStrip f).g_timers = s.g_timers := rfl

theorem TimersOK_onStrip (f : Strip → Strip) {s : State} (h : TimersOK s) :
    TimersOK (s.onStrip f) :=
  TimersOK_of_timers_eq h (onStrip_timers f s)

theorem TimersOK_setErrorCode (e : Nat) {s : State} (h : TimersOK s) :
    TimersOK (setErrorCode e s) :=
  TimersOK_onStrip _ h

theorem TimersOK_showEntry (a b : Nat) {s : State} (h : TimersOK s) :
    TimersOK (showEntry a b s) :=
  TimersOK_onStrip _ h

theorem setColorLevel_timers (a : Int) (s : State) :
    (setColorLevel a s).g_timers = s.g_timers := by
  unfold setColorLevel
  split_ifs <;> rfl

theorem TimersOK_updateClock (now : DateTime) {s : State} (h : TimersOK s) :
    TimersOK (updateClock now s) := by
  unfold updateClock
  split_ifs
  · apply TimersOK_startTimer
    split_ifs
    · exact TimersOK_onStrip _ (TimersOK_of_timers_eq h rfl)
    · exact TimersOK_of_timers_eq h rfl
  · exact h

theorem TimersOK_checkDoor (doorOpen : Bool) (ticks : Nat) {s : State} (h : TimersOK s) :
    TimersOK (checkDoor doorOpen ticks s) := by
  unfold checkDoor
  split_ifs
  · exact TimersOK_setErrorCode _
      (TimersOK_ISR_iterate ticks (TimersOK_setErrorCode _ (TimersOK_onStrip _ h)))
  · exact h

theorem TimersOK_updateBrightness (ldrValue : Nat) {s : State} (h : TimersOK s) :
    TimersOK (updateBrightness ldrValue s) := by
  unfold updateBrightness
  split_ifs <;> exact TimersOK_onStrip _ h

theorem TimersOK_waitCO2 (polls : List Poll) {s t : State} (h : TimersOK s)
    (e : waitCO2 polls s = some t) : TimersOK t := by
  induction polls generalizing s with
  | nil => simp [waitCO2] at e
  | cons p ps ih =>
    have hp : TimersOK (ISR^[p.ticks] s) := TimersOK_ISR_iterate p.ticks h
    simp only [waitCO2] at e
    split_ifs at e with h0 h9
    · simp only [Option.some.injEq] at e
      rw [← e]
      exact TimersOK_of_timers_eq
        (TimersOK_setStart_false 0 (TimersOK_of_timers_eq hp rfl)) (setColorLevel_timers _ _)
    · exact ih hp e
    · simp only [Option.some.injEq] at e
      rw [← e]
      exact hp

/-- The first three statements of the body of `getCO2`. -/
theorem getCO2_eq (polls : List Poll) (s : State) :
    getCO2 polls s =
      if (s.g_timers 1).Over = true then
        (waitCO2 polls (startTimer 0 { startTimer 1 s with
            serialWrites := (startTimer 1 s).serialWrites ++ [INIT_CO2.take INIT_CO2_LENGTH] })).bind
          (fun s4 => if (s4.g_timers 0).Over = true then
              some { setErrorCode ERROR_TIMEOUT_CO2 s4 with g_co2Level := 0 }
            else some s4)
      else some s := by
  unfold getCO2
  split_ifs
  · simp only []
    cases waitCO2 polls (startTimer 0 { startTimer 1 s with
        serialWrites := (startTimer 1 s).serialWrites ++ [INIT_CO2.take INIT_CO2_LENGTH] }) <;> rfl
  · rfl

theorem TimersOK_getCO2 (polls : List Poll) {s t : State} (h : TimersOK s)
    (e : getCO2 polls s = some t) : TimersOK t := by
  rw [getCO2_eq] at e
  split_ifs at e with h1
  · have h3 : TimersOK (startTimer 0 { startTimer 1 s with
          serialWrites := (startTimer 1 s).serialWrites ++ [INIT_CO2.take INIT_CO2_LENGTH] }) :=
      TimersOK_startTimer 0 (TimersOK_of_timers_eq (TimersOK_startTimer 1 h) rfl)
    rw [Option.bind_eq_some] at e
    obtain ⟨s4, hw, e4⟩ := e
    have h4 : TimersOK s4 := TimersOK_waitCO2 polls h3 hw
    split_ifs at e4
    · simp only [Option.some.injEq] at e4
      rw [← e4]
      have h5 : TimersOK (setErrorCode ERROR_TIMEOUT_CO2 s4) := TimersOK_setErrorCode _ h4
      simp only [TimersOK_mk]
      exact h5
    · simp only [Option.some.injEq] at e4
      rw [← e4]
      exact h4
  · simp only [Option.some.injEq] at e
    rw [← e]
    exact h

theorem TimersOK_cmdDigitSwitch (c : Nat) {s : State} (h : TimersOK s) :
    TimersOK (cmdDigitSwitch c s) := by
  rcases digitCount_cases s.g_digitCount with h0 | h0 | h0 | h0 | h0 | h0 | h0 | h0 | h0 | h0 | h0
  · rw [cmdDigitSwitch_pos0 c s h0]; split_ifs
    · exact TimersOK_showEntry _ _ h
    · exact TimersOK_of_timers_eq h rfl
  · rw [cmdDigitSwitch_pos1 c s h0]; exact TimersOK_of_timers_eq h rfl
  · rw [cmdDigitSwitch_pos2 c s h0]; split_ifs
    · exact TimersOK_showEntry _ _ h
    · exact TimersOK_of_timers_eq h rfl
  · rw [cmdDigitSwitch_pos3 c s h0]; exact TimersOK_of_timers_eq h rfl
  · rw [cmdDigitSwitch_pos4 c s h0]; exact TimersOK_of_timers_eq h rfl
  · rw [cmdDigitSwitch_pos5 c s h0]; exact TimersOK_of_timers_eq h rfl
  · rw [cmdDigitSwitch_pos6 c s h0]; split_ifs
    · exact TimersOK_showEntry _ _ h
    · exact TimersOK_of_timers_eq h rfl
  · rw [cmdDigitSwitch_pos7 c s h0]; split_ifs
    · exact TimersOK_showEntry _ _ h
    · exact TimersOK_of_timers_eq h rfl
  · rw [cmdDigitSwitch_pos8 c s h0]; split_ifs
    · exact TimersOK_showEntry _ _ h
    · exact TimersOK_of_timers_eq h rfl
  · rw [cmdDigitSwitch_pos9 c s h0]; exact TimersOK_of_timers_eq h rfl
  · rw [cmdDigitSwitch_overflow c s h0]
    exact TimersOK_startTimer 2 (TimersOK_setStart_false 3 (TimersOK_of_timers_eq h rfl))

theorem TimersOK_cmdDigits (c : Nat) {s : State} (h : TimersOK s) :
    TimersOK (cmdDigits c s) := by
  unfold cmdDigits
  split_ifs
  · exact TimersOK_cmdDigitSwitch c
      (TimersOK_showEntry _ _ (TimersOK_setStart_false 2 (TimersOK_startTimer 3 h)))
  · exact h

theorem TimersOK_cmdOk (c : Nat) {s : State} (h : TimersOK s) :
    TimersOK (cmdOk c s) := by
  unfold cmdOk
  split_ifs
  · exact TimersOK_setOver 2 true (TimersOK_setStart_false 2 (TimersOK_setStart_false 3
      (TimersOK_of_timers_eq h rfl)))
  · exact TimersOK_setOver 2 true (TimersOK_setStart_false 2 (TimersOK_setStart_false 3
      (TimersOK_of_timers_eq h rfl)))
  · exact h

theorem TimersOK_cmd (c : Nat) {s : State} (h : TimersOK s) :
    TimersOK (cmdTimeCommandProcessing c s) :=
  TimersOK_cmdOk c (TimersOK_cmdDigits c h)

theorem TimersOK_runTime (c : Nat) {s : State} (h : TimersOK s) :
    TimersOK (runTimeCommandProcessing c s) := by
  unfold runTimeCommandProcessing
  split_ifs
  · exact TimersOK_onStrip _ (TimersOK_onStrip _ (TimersOK_of_timers_eq h rfl))
  · exact TimersOK_setOver 2 true (TimersOK_setStart_false 2 (TimersOK_of_timers_eq h rfl))
  · exact TimersOK_onStrip _ (TimersOK_onStrip _ (TimersOK_onStrip _ (TimersOK_onStrip _
      (TimersOK_startTimer 2 h))))
  · exact TimersOK_onStrip _ (TimersOK_onStrip _ (TimersOK_onStrip _
      (TimersOK_startTimer 2 h)))
  · exact h

theorem TimersOK_receiveIR (ev : Option IRData) {s : State} (h : TimersOK s) :
    TimersOK (receiveIR ev s).2 := by
  unfold receiveIR
  cases ev with
  | none => exact h
  | some d =>
    simp only []
    split_ifs
    · simp only [TimersOK_mk]
      exact h
    · have h1 : TimersOK { s with g_countOK := toByte (s.g_countOK + 1) } := by
        simp only [TimersOK_mk]
        exact h
      have h2 := TimersOK_startTimer 3 h1
      simp only [TimersOK_mk]
      exact h2
    · simp only [TimersOK_mk]
      exact h
    · exact h

theorem TimersOK_IRcommandHandler (ev : Option IRData) {s : State} (h : TimersOK s) :
    TimersOK (IRcommandHandler ev s) := by
  have hr : TimersOK { (receiveIR ev s).2 with g_command := (receiveIR ev s).1 } := by
    simp only [TimersOK_mk]
    exact TimersOK_receiveIR ev h
  generalize hs1 : ({ (receiveIR ev s).2 with g_command := (receiveIR ev s).1 } : State) = s1
    at hr
  have hrun : ∀ c : Nat,
      TimersOK { runTimeCommandProcessing c s1 with g_command := NO_CMD } := by
    intro c
    simp only [TimersOK_mk]
    exact TimersOK_runTime c hr
  unfold IRcommandHandler
  split_ifs
  · exact TimersOK_startTimer 2 (TimersOK_setOver 3 false
      (TimersOK_of_timers_eq (TimersOK_onStrip Strip.clear h) rfl))
  · simp only [hs1]
    split_ifs
    · simp only [TimersOK_mk]
      exact TimersOK_cmd _ (hrun _)
    · exact hrun _
    · simp only [TimersOK_mk]
      exact TimersOK_cmd _ hr
    · exact hr
    · exact hr

/-! ## C3: a started timer never holds the count 0 -/

theorem TimersOK_configure (s : State) (h : ∀ i : Fin 4, (s.g_timers i).Start = false) :
    TimersOK ((((s.setInitialValue 0 Timer0Value).setInitialValue 1 Timer1Value).setInitialValue
      2 Timer2Value).setInitialValue 3 Timer3Value) := by
  intro i
  have h0 := h 0
  have h1 := h 1
  have h2 := h 2
  have h3 := h 3
  fin_cases i <;>
    simp [TimerOK, State.setInitialValue, State.setTimer, Function.update, h0, h1, h2, h3,
      Timer0Value, Timer1Value, Timer2Value, Timer3Value, TICK, toByte]

theorem TimersOK_postSetup (rtcRunning : Bool) (compileTime now : DateTime) :
    TimersOK (postSetup rtcRunning compileTime now) := by
  have h6 : TimersOK ((((
      (if rtcRunning = false then
        { ({ State.zero with g_showDisplay := true } : State) with
          rtcWrites := ({ State.zero with g_showDisplay := true } : State).rtcWrites ++
            [compileTime] }
      else { State.zero with g_showDisplay := true }).setInitialValue 0
        Timer0Value).setInitialValue 1 Timer1Value).setInitialValue 2
        Timer2Value).setInitialValue 3 Timer3Value) := by
    apply TimersOK_configure
    intro i
    split_ifs <;> rfl
  unfold postSetup setup
  simp only [TimersOK_mk]
  refine TimersOK_startTimer 2 (TimersOK_startTimer 1 (TimersOK_startTimer 0
    (TimersOK_updateClock now (TimersOK_setOver 2 true (TimersOK_onStrip _
      (TimersOK_onStrip _ ?_))))))
  simp only [TimersOK_mk]
  exact TimersOK_onStrip _ (TimersOK_onStrip _ h6)

theorem TimersOK_step (a : Action) {s t : State} (h : TimersOK s) (e : step a s = some t) :
    TimersOK t := by
  cases a with
  | tick =>
    simp only [step, Option.some.injEq] at e
    rw [← e]; exact TimersOK_ISR h
  | updateClock now =>
    simp only [step, Option.some.injEq] at e
    rw [← e]; exact TimersOK_updateClock now h
  | checkDoor doorOpen ticks =>
    simp only [step, Option.some.injEq] at e
    rw [← e]; exact TimersOK_checkDoor doorOpen ticks h
  | getCO2 polls => exact TimersOK_getCO2 polls h e
  | updateBrightness ldrValue =>
    simp only [step, Option.some.injEq] at e
    rw [← e]; exact TimersOK_updateBrightness ldrValue h
  | IRcommandHandler ev =>
    simp only [step, Option.some.injEq] at e
    rw [← e]; exact TimersOK_IRcommandHandler ev h

theorem TimersOK_run (acts : List Action) {s t : State} (h : TimersOK s)
    (e : run acts s = some t) : TimersOK t := by
  induction acts generalizing s with
  | nil =>
    simp only [run, Option.some.injEq] at e
    rw [← e]; exact h
  | cons a as ih =>
    simp only [run] at e
    cases hs : step a s with
    | none => simp [hs] at e
    | some s1 =>
      simp only [hs] at e
      exact ih (TimersOK_step a h hs) e

/-- Every state reachable after `setup` satisfies the timer invariant. -/
theorem TimersOK_of_reachable {s : State} (h : Reachable s) : TimersOK s := by
  obtain ⟨r, c, n, acts, e⟩ := h
  exact TimersOK_run acts (TimersOK_postSetup r c n) e

/-- C3: in every state reachable from the post-setup state by ticks and
main-loop calls, every started timer has a count of at least 1 (and at most
255), so the byte decrement of the next tick yields exactly the count minus
one and never wraps from 0 to 255. -/
theorem reachable_started_count_pos (s : State) (h : Reachable s) (i : Fin 4)
    (hs : (s.g_timers i).Start = true) :
    1 ≤ (s.g_timers i).Count ∧ (s.g_timers i).Count ≤ 255 ∧
    ((ISR s).g_timers i).Count + 1 = (s.g_timers i).Count ∧
    ((ISR s).g_timers i).Count ≠ 255 := by
  obtain ⟨h1, h2⟩ := (TimersOK_of_reachable h i).2.2 hs
  have hc := ISR_count_of_started s i hs
  refine ⟨h1, h2, ?_, ?_⟩
  · rw [hc]; unfold toByte; omega
  · rw [hc]; unfold toByte; omega

theorem reachable_started_count_pos_witness :
    1 ≤ ((ISR (ISR (ISR bootState))).g_timers 1).Count ∧
    ((ISR (ISR (ISR bootState))).g_timers 1).Count ≤ 255 ∧
    ((ISR (ISR (ISR (ISR bootState)))).g_timers 1).Count + 1 =
      ((ISR (ISR (ISR bootState))).g_timers 1).Count ∧
    ((ISR (ISR (ISR (ISR bootState)))).g_timers 1).Count ≠ 255 :=
  reachable_started_count_pos (ISR (ISR (ISR bootState)))
    ⟨true, sampleTime, sampleTime, [Action.tick, Action.tick, Action.tick], rfl⟩ 1 (by decide)

/-! ## C4: ten repeat frames of OK enter command mode -/

/-- One repeat frame of the OK key in RUN mode that is not the tenth one: only
the repeat counter moves. -/
theorem IRcommandHandler_repeatOK_count (s : State) (d : IRData)
    (hmode : s.g_runMode = RUN) (h3 : (s.g_timers 3).Over = false)
    (hrep : isRepeat d = true) (hcmd : toByte d.command = 0x1C)
    (hten : toByte (s.g_countOK + 1) ≠ 10) :
    IRcommandHandler (some d) s =
      { s with g_countOK := toByte (s.g_countOK + 1), g_command := NO_CMD } := by
  simp [IRcommandHandler, receiveIR, hmode, h3, hrep, hcmd, hten]

/-- The tenth repeat frame of the OK key in RUN mode. -/
theorem IRcommandHandler_repeatOK_tenth (s : State) (d : IRData)
    (hmode : s.g_runMode = RUN) (h3 : (s.g_timers 3).Over = false)
    (hrep : isRepeat d = true) (hcmd : toByte d.command = 0x1C)
    (hten : toByte (s.g_countOK + 1) = 10) :
    (IRcommandHandler (some d) s).g_runMode = CMD ∧
    (IRcommandHandler (some d) s).g_digitCount = 0 ∧
    (IRcommandHandler (some d) s).g_timers 3 =
      { Start := true, Count := (s.g_timers 3).InitialValue, Over := false,
        InitialValue := (s.g_timers 3).InitialValue } := by
  have e : (IRcommandHandler (some d) s).g_timers 3 =
      (startTimer 3 { s with g_countOK := toByte (s.g_countOK + 1) }).g_timers 3 := by
    simp [IRcommandHandler, receiveIR, hmode, h3, hrep, hcmd, hten, State.onStrip]
  refine ⟨?_, ?_, ?_⟩
  · simp [IRcommandHandler, receiveIR, hmode, h3, hrep, hcmd, hten, State.onStrip]
  · simp [IRcommandHandler, receiveIR, hmode, h3, hrep, hcmd, hten, State.onStrip]
  · rw [e, startTimer_timers_same]

theorem handleFrames_cons (d : IRData) (evs : List IRData) (s : State) :
    handleFrames (d :: evs) s = handleFrames evs (IRcommandHandler (some d) s) := rfl

/-- Fewer than ten repeat frames of OK: still RUN, counter advanced. -/
theorem handleFrames_repeatOK_lt (evs : List IRData) (s : State)
    (hmode : s.g_runMode = RUN) (h3 : (s.g_timers 3).Over = false)
    (hev : ∀ d ∈ evs, isRepeat d = true ∧ toByte d.command = 0x1C)
    (hlen : s.g_countOK + evs.length ≤ 9) :
    (handleFrames evs s).g_runMode = RUN ∧
    (handleFrames evs s).g_countOK = s.g_countOK + evs.length ∧
    (handleFrames evs s).g_timers = s.g_timers := by
  induction evs generalizing s with
  | nil => exact ⟨hmode, rfl, rfl⟩
  | cons d ds ih =>
    simp only [List.length_cons] at hlen
    have hd := hev d (List.mem_cons_self d ds)
    have hb : toByte (s.g_countOK + 1) = s.g_countOK + 1 := by unfold toByte; omega
    have hten : toByte (s.g_countOK + 1) ≠ 10 := by rw [hb]; omega
    have hstep := IRcommandHandler_repeatOK_count s d hmode h3 hd.1 hd.2 hten
    rw [handleFrames_cons, hstep]
    have := ih { s with g_countOK := toByte (s.g_countOK + 1), g_command := NO_CMD }
      hmode h3 (fun e he => hev e (List.mem_cons_of_mem d he))
      (by simp only [hb]; omega)
    simp only [hb] at this ⊢
    refine ⟨this.1, ?_, this.2.2⟩
    rw [this.2.1, List.length_cons]
    omega

/-- C4: starting in RUN mode with the OK-repeat counter at 0 and the command
timeout not over, after `k` consecutive repeat frames of the OK key (raw code
0x1C) the mode is still RUN for every `k ≤ 9`; after the tenth the mode is CMD,
the digit count is 0 and timer 3 is started, not over, with its count equal to
its initial value. -/
theorem held_OK_enters_cmd (s : State) (evs : List IRData)
    (hmode : s.g_runMode = RUN) (hcount : s.g_countOK = 0)
    (h3 : (s.g_timers 3).Over = false)
    (hev : ∀ d ∈ evs, isRepeat d = true ∧ toByte d.command = 0x1C) :
    (evs.length ≤ 9 → (handleFrames evs s).g_runMode = RUN) ∧
    (evs.length = 10 →
      (handleFrames evs s).g_runMode = CMD ∧
      (handleFrames evs s).g_digitCount = 0 ∧
      ((handleFrames evs s).g_timers 3).Start = true ∧
      ((handleFrames evs s).g_timers 3).Over = false ∧
      ((handleFrames evs s).g_timers 3).Count =
        ((handleFrames evs s).g_timers 3).InitialValue) := by
  constructor
  · intro hlen
    exact (handleFrames_repeatOK_lt evs s hmode h3 hev (by omega)).1
  · intro hlen
    obtain ⟨front, last, rfl⟩ : ∃ front last, evs = front ++ [last] := by
      have hne : evs ≠ [] := by
        intro h0
        rw [h0] at hlen
        simp at hlen
      exact ⟨evs.dropLast, evs.getLast hne, (List.dropLast_append_getLast hne).symm⟩
    have hfl : front.length = 9 := by
      simp only [List.length_append, List.length_singleton] at hlen
      omega
    have hfront := handleFrames_repeatOK_lt front s hmode h3
      (fun e he => hev e (List.mem_append_left _ he)) (by omega)
    have hlast := hev last (List.mem_append_right _ (List.mem_singleton_self last))
    have hsplit : handleFrames (front ++ [last]) s =
        IRcommandHandler (some last) (handleFrames front s) := by
      simp [handleFrames, List.foldl_append]
    have h3f : ((handleFrames front s).g_timers 3).Over = false := by
      rw [hfront.2.2]; exact h3
    have hten : toByte ((handleFrames front s).g_countOK + 1) = 10 := by
      rw [hfront.2.1, hcount, hfl]; rfl
    obtain ⟨r1, r2, r3⟩ := IRcommandHandler_repeatOK_tenth (handleFrames front s) last
      hfront.1 h3f hlast.1 hlast.2 hten
    rw [hsplit]
    refine ⟨r1, r2, ?_, ?_, ?_⟩
    · rw [r3]
    · rw [r3]
    · rw [r3]

theorem held_OK_enters_cmd_witness :
    (handleFrames (List.replicate 9 okRepeatFrame) bootState).g_runMode = RUN ∧
    ((handleFrames (List.replicate 10 okRepeatFrame) bootState).g_runMode = CMD ∧
      (handleFrames (List.replicate 10 okRepeatFrame) bootState).g_digitCount = 0 ∧
      ((handleFrames (List.replicate 10 okRepeatFrame) bootState).g_timers 3).Start = true ∧
      ((handleFrames (List.replicate 10 okRepeatFrame) bootState).g_timers 3).Over = false ∧
      ((handleFrames (List.replicate 10 okRepeatFrame) bootState).g_timers 3).Count =
        ((handleFrames (List.replicate 10 okRepeatFrame) bootState).g_timers 3).InitialValue) :=
  ⟨(held_OK_enters_cmd bootState (List.replicate 9 okRepeatFrame) (by decide) (by decide)
      (by decide) (by decide)).1 (by decide),
   (held_OK_enters_cmd bootState (List.replicate 10 okRepeatFrame) (by decide) (by decide)
      (by decide) (by decide)).2 (by decide)⟩

/-! ## C5: what resets the OK-repeat counter -/

theorem runTime_countOK (c : Nat) (s : State) :
    (runTimeCommandProcessing c s).g_countOK = s.g_countOK := by
  unfold runTimeCommandProcessing
  split_ifs <;>
    simp [State.onStrip, startTimer, State.setStart, State.setOver, State.setCount,
      State.setTimer]

theorem runTime_runMode (c : Nat) (s : State) :
    (runTimeCommandProcessing c s).g_runMode = s.g_runMode := by
  unfold runTimeCommandProcessing
  split_ifs <;>
    simp [State.onStrip, startTimer, State.setStart, State.setOver, State.setCount,
      State.setTimer]

theorem cmdDigitSwitch_countOK (c : Nat) (s : State) :
    (cmdDigitSwitch c s).g_countOK = s.g_countOK := by
  rcases digitCount_cases s.g_digitCount with h | h | h | h | h | h | h | h | h | h | h
  · rw [cmdDigitSwitch_pos0 c s h]; split_ifs <;> simp [showEntry, State.onStrip]
  · rw [cmdDigitSwitch_pos1 c s h]
  · rw [cmdDigitSwitch_pos2 c s h]; split_ifs <;> simp [showEntry, State.onStrip]
  · rw [cmdDigitSwitch_pos3 c s h]
  · rw [cmdDigitSwitch_pos4 c s h]
  · rw [cmdDigitSwitch_pos5 c s h]
  · rw [cmdDigitSwitch_pos6 c s h]; split_ifs <;> simp [showEntry, State.onStrip]
  · rw [cmdDigitSwitch_pos7 c s h]; split_ifs <;> simp [showEntry, State.onStrip]
  · rw [cmdDigitSwitch_pos8 c s h]; split_ifs <;> simp [showEntry, State.onStrip]
  · rw [cmdDigitSwitch_pos9 c s h]
  · rw [cmdDigitSwitch_overflow c s h]
    simp [startTimer, State.setStart, State.setOver, State.setCount, State.setTimer]

theorem cmd_countOK (c : Nat) (s : State) :
    (cmdTimeCommandProcessing c s).g_countOK = s.g_countOK := by
  have h1 : (cmdDigits c s).g_countOK = s.g_countOK := by
    unfold cmdDigits
    split_ifs
    · rw [cmdDigitSwitch_countOK]
      simp [showEntry, State.onStrip, startTimer, State.setStart, State.setOver,
        State.setCount, State.setTimer]
    · rfl
  have h2 : ∀ t : State, (cmdOk c t).g_countOK = t.g_countOK := by
    intro t
    unfold cmdOk
    split_ifs <;> simp [State.setStart, State.setOver, State.setTimer]
  unfold cmdTimeCommandProcessing
  rw [h2, h1]

/-- A frame without repeat flag resets the OK-repeat counter, whatever the
mode and the key. -/
theorem IRcommandHandler_press_countOK (s : State) (d : IRData)
    (h3 : (s.g_timers 3).Over = false) (hrep : isRepeat d = false) :
    (IRcommandHandler (some d) s).g_countOK = 0 := by
  unfold IRcommandHandler
  rw [if_neg (by simp [h3])]
  have hr : receiveIR (some d) s = (decodeKey (toByte d.command), { s with g_countOK := 0 }) := by
    simp [receiveIR, hrep]
  simp only [hr]
  split_ifs <;> simp [cmd_countOK, runTime_countOK]

/-- The refuted reading of C5: after five repeat frames of OK, a repeat frame
of another key (raw code 0x45) is not a repeated OK, yet the counter stays
at 5 instead of going back to 0. -/
theorem repeat_of_other_key_keeps_count :
    (handleFrames (List.replicate 5 okRepeatFrame) bootState).g_runMode = RUN ∧
    isRepeat { command := 0x45, flags := IRDATA_FLAGS_IS_REPEAT } = true ∧
    toByte (0x45 : Nat) ≠ 0x1C ∧
    (receiveIR (some { command := 0x45, flags := IRDATA_FLAGS_IS_REPEAT })
      (handleFrames (List.replicate 5 okRepeatFrame) bootState)).2.g_countOK = 5 ∧
    (receiveIR (some { command := 0x45, flags := IRDATA_FLAGS_IS_REPEAT })
      (handleFrames (List.replicate 5 okRepeatFrame) bootState)).2.g_countOK ≠ 0 ∧
    (IRcommandHandler (some { command := 0x45, flags := IRDATA_FLAGS_IS_REPEAT })
      (handleFrames (List.replicate 5 okRepeatFrame) bootState)).g_countOK ≠ 0 := by
  decide

/-- C5 (amended): every frame without repeat flag, whatever its raw code, sets
the OK-repeat counter to 0, both in `receiveIR` and after the whole
`IRcommandHandler` call; a repeat frame whose raw code is not the OK code leaves
the counter as it is. -/
theorem countOK_after_frame (s : State) (d : IRData) :
    (isRepeat d = false → (receiveIR (some d) s).2.g_countOK = 0) ∧
    (isRepeat d = false → (s.g_timers 3).Over = false →
      (IRcommandHandler (some d) s).g_countOK = 0) ∧
    (isRepeat d = true → toByte d.command ≠ 0x1C →
      (receiveIR (some d) s).2.g_countOK = s.g_countOK ∧
      ((s.g_timers 3).Over = false →
        (IRcommandHandler (some d) s).g_countOK = s.g_countOK)) := by
  refine ⟨?_, ?_, ?_⟩
  · intro hrep
    simp [receiveIR, hrep]
  · intro hrep h3
    exact IRcommandHandler_press_countOK s d h3 hrep
  · intro hrep hcmd
    have hr : receiveIR (some d) s = (NO_CMD, s) := by
      simp [receiveIR, hrep, hcmd]
    refine ⟨by rw [hr], ?_⟩
    intro h3
    simp [IRcommandHandler, h3, hr]

theorem countOK_after_frame_witness :
    (receiveIR (some { command := 0x45, flags := 0 })
      (handleFrames (List.replicate 5 okRepeatFrame) bootState)).2.g_countOK = 0 ∧
    (IRcommandHandler (some { command := 0x45, flags := 0 })
      (handleFrames (List.replicate 5 okRepeatFrame) bootState)).g_countOK = 0 ∧
    (receiveIR (some { command := 0x45, flags := IRDATA_FLAGS_IS_REPEAT })
      (handleFrames (List.replicate 5 okRepeatFrame) bootState)).2.g_countOK =
      (handleFrames (List.replicate 5 okRepeatFrame) bootState).g_countOK ∧
    (IRcommandHandler (some { command := 0x45, flags := IRDATA_FLAGS_IS_REPEAT })
      (handleFrames (List.replicate 5 okRepeatFrame) bootState)).g_countOK =
      (handleFrames (List.replicate 5 okRepeatFrame) bootState).g_countOK :=
  ⟨(countOK_after_frame (handleFrames (List.replicate 5 okRepeatFrame) bootState)
      { command := 0x45, flags := 0 }).1 (by decide),
   (countOK_after_frame (handleFrames (List.replicate 5 okRepeatFrame) bootState)
      { command := 0x45, flags := 0 }).2.1 (by decide) (by decide),
   ((countOK_after_frame (handleFrames (List.replicate 5 okRepeatFrame) bootState)
      { command := 0x45, flags := IRDATA_FLAGS_IS_REPEAT }).2.2 (by decide) (by decide)).1,
   ((countOK_after_frame (handleFrames (List.replicate 5 okRepeatFrame) bootState)
      { command := 0x45, flags := IRDATA_FLAGS_IS_REPEAT }).2.2 (by decide) (by decide)).2
      (by decide)⟩

/-! ## C6 and C7: validation of the digits, position by position -/

theorem cmd_digit_eq (d : Nat) (s : State) (hd : d ≤ 9) :
    cmdTimeCommandProcessing d s = cmdDigitSwitch d (entryState d s) := by
  have h1 : d < KEY_UP := by unfold KEY_UP; omega
  have h2 : d ≠ KEY_OK := by unfold KEY_OK; omega
  simp only [cmdTimeCommandProcessing, cmdOk, cmdDigits, entryState, if_pos h1, if_neg h2]

theorem entryState_digitCount (d : Nat) (s : State) :
    (entryState d s).g_digitCount = s.g_digitCount := by
  simp [entryState, showEntry, State.onStrip, startTimer, State.setStart, State.setOver,
    State.setCount, State.setTimer]

theorem entryState_newHour (d : Nat) (s : State) :
    (entryState d s).g_newHour = s.g_newHour := by
  simp [entryState, showEntry, State.onStrip, startTimer, State.setStart, State.setOver,
    State.setCount, State.setTimer]

/-- The digit count after a digit at one of the ten positions: advanced by
one when the acceptance rule holds, unchanged otherwise. -/
theorem cmd_digit_digitCount (s : State) (d : Nat) (hp : s.g_digitCount ≤ 9) (hd : d ≤ 9) :
    (cmdTimeCommandProcessing d s).g_digitCount =
      if digitAccepted s.g_digitCount d s.g_newHour then s.g_digitCount + 1
      else s.g_digitCount := by
  rw [cmd_digit_eq d s hd]
  have hc := entryState_digitCount d s
  have hh := entryState_newHour d s
  rcases digitCount_cases s.g_digitCount with h | h | h | h | h | h | h | h | h | h | h
  · rw [cmdDigitSwitch_pos0 d _ (hc.trans h)]
    by_cases hv : d > 3
    · rw [if_pos hv, if_neg (by unfold digitAccepted; omega)]
      simpa [showEntry, State.onStrip] using hc
    · rw [if_neg hv, if_pos (by unfold digitAccepted; omega), h]
  · rw [cmdDigitSwitch_pos1 d _ (hc.trans h), if_pos (by unfold digitAccepted; omega), h]
  · rw [cmdDigitSwitch_pos2 d _ (hc.trans h)]
    by_cases hv : d > 1
    · rw [if_pos hv, if_neg (by unfold digitAccepted; omega)]
      simpa [showEntry, State.onStrip] using hc
    · rw [if_neg hv, if_pos (by unfold digitAccepted; omega), h]
  · rw [cmdDigitSwitch_pos3 d _ (hc.trans h), if_pos (by unfold digitAccepted; omega), h]
  · rw [cmdDigitSwitch_pos4 d _ (hc.trans h), if_pos (by unfold digitAccepted; omega), h]
  · rw [cmdDigitSwitch_pos5 d _ (hc.trans h), if_pos (by unfold digitAccepted; omega), h]
  · rw [cmdDigitSwitch_pos6 d _ (hc.trans h)]
    by_cases hv : d > 2
    · rw [if_pos hv, if_neg (by unfold digitAccepted; omega)]
      simpa [showEntry, State.onStrip] using hc
    · rw [if_neg hv, if_pos (by unfold digitAccepted; omega), h]
  · rw [cmdDigitSwitch_pos7 d _ (hc.trans h), hh]
    by_cases hv : s.g_newHour * 10 + d > 23
    · rw [if_pos hv, if_neg (by unfold digitAccepted; omega)]
      simpa [showEntry, State.onStrip] using hc
    · rw [if_neg hv, if_pos (by unfold digitAccepted; omega), h]
  · rw [cmdDigitSwitch_pos8 d _ (hc.trans h)]
    by_cases hv : d > 5
    · rw [if_pos hv, if_neg (by unfold digitAccepted; omega)]
      simpa [showEntry, State.onStrip] using hc
    · rw [if_neg hv, if_pos (by unfold digitAccepted; omega), h]
  · rw [cmdDigitSwitch_pos9 d _ (hc.trans h), if_pos (by unfold digitAccepted; omega), h]
  · omega

/-- C6: in command mode with `p ≤ 9` digits entered, a digit `d ≤ 9` advances
the digit count to `p + 1` if and only if `p = 0` and `d ≤ 3`, `p = 2` and
`d ≤ 1`, `p = 6` and `d ≤ 2`, `p = 7` and ten times the hour tens plus `d` is at
most 23, `p = 8` and `d ≤ 5`, or `p` is one of 1, 3, 4, 5, 9; otherwise the
digit count stays `p`. -/
theorem digit_accepted_iff (s : State) (d : Nat) (hp : s.g_digitCount ≤ 9) (hd : d ≤ 9) :
    ((cmdTimeCommandProcessing d s).g_digitCount = s.g_digitCount + 1 ↔
      digitAccepted s.g_digitCount d s.g_newHour) ∧
    (¬ digitAccepted s.g_digitCount d s.g_newHour →
      (cmdTimeCommandProcessing d s).g_digitCount = s.g_digitCount) := by
  rw [cmd_digit_digitCount s d hp hd]
  by_cases ha : digitAccepted s.g_digitCount d s.g_newHour
  · simp [ha]
  · simp [ha]

theorem digit_accepted_iff_witness :
    (cmdTimeCommandProcessing 2 cmdEntryState).g_digitCount =
      cmdEntryState.g_digitCount + 1 ∧
    (cmdTimeCommandProcessing 4 cmdEntryState).g_digitCount = cmdEntryState.g_digitCount :=
  ⟨(digit_accepted_iff cmdEntryState 2 (by decide) (by decide)).1.2 (by decide),
   (digit_accepted_iff cmdEntryState 4 (by decide) (by decide)).2 (by decide)⟩

/-- A rejected digit only restarts timer 3, stops timer 2 and draws on the
strip. -/
theorem cmd_rejected_eq (s : State) (d : Nat) (hp : s.g_digitCount ≤ 9) (hd : d ≤ 9)
    (hrej : ¬ digitAccepted s.g_digitCount d s.g_newHour) :
    cmdTimeCommandProcessing d s = showEntry 255 s.g_digitCount (entryState d s) := by
  rw [cmd_digit_eq d s hd]
  have hc := entryState_digitCount d s
  have hh := entryState_newHour d s
  unfold digitAccepted at hrej
  rcases digitCount_cases s.g_digitCount with h | h | h | h | h | h | h | h | h | h | h
  · rw [cmdDigitSwitch_pos0 d _ (hc.trans h), if_pos (by omega), h]
  · omega
  · rw [cmdDigitSwitch_pos2 d _ (hc.trans h), if_pos (by omega), h]
  · omega
  · omega
  · omega
  · rw [cmdDigitSwitch_pos6 d _ (hc.trans h), if_pos (by omega), h]
  · rw [cmdDigitSwitch_pos7 d _ (hc.trans h), hh, if_pos (by omega), h]
  · rw [cmdDigitSwitch_pos8 d _ (hc.trans h), if_pos (by omega), h]
  · omega
  · omega

/-- C7: a digit rejected at one of the ten positions leaves the mode, the
digit count, every pending field (day, month, year, hour, minute) and the RTC
unchanged, so that a following digit that passes the validation of the same
position is accepted there. -/
theorem rejected_digit_keeps_entry (s : State) (d : Nat) (hp : s.g_digitCount ≤ 9)
    (hd : d ≤ 9) (hrej : ¬ digitAccepted s.g_digitCount d s.g_newHour) :
    (cmdTimeCommandProcessing d s).g_runMode = s.g_runMode ∧
    (cmdTimeCommandProcessing d s).g_digitCount = s.g_digitCount ∧
    (cmdTimeCommandProcessing d s).g_newDay = s.g_newDay ∧
    (cmdTimeCommandProcessing d s).g_newMonth = s.g_newMonth ∧
    (cmdTimeCommandProcessing d s).g_newYear = s.g_newYear ∧
    (cmdTimeCommandProcessing d s).g_newHour = s.g_newHour ∧
    (cmdTimeCommandProcessing d s).g_newMinute = s.g_newMinute ∧
    (cmdTimeCommandProcessing d s).rtcWrites = s.rtcWrites ∧
    (∀ e : Nat, e ≤ 9 → digitAccepted s.g_digitCount e s.g_newHour →
      (cmdTimeCommandProcessing e (cmdTimeCommandProcessing d s)).g_digitCount =
        s.g_digitCount + 1) := by
  have hf : (cmdTimeCommandProcessing d s).g_runMode = s.g_runMode ∧
      (cmdTimeCommandProcessing d s).g_digitCount = s.g_digitCount ∧
      (cmdTimeCommandProcessing d s).g_newDay = s.g_newDay ∧
      (cmdTimeCommandProcessing d s).g_newMonth = s.g_newMonth ∧
      (cmdTimeCommandProcessing d s).g_newYear = s.g_newYear ∧
      (cmdTimeCommandProcessing d s).g_newHour = s.g_newHour ∧
      (cmdTimeCommandProcessing d s).g_newMinute = s.g_newMinute ∧
      (cmdTimeCommandProcessing d s).rtcWrites = s.rtcWrites := by
    rw [cmd_rejected_eq s d hp hd hrej]
    simp [entryState, showEntry, State.onStrip, startTimer, State.setStart, State.setOver,
      State.setCount, State.setTimer]
  obtain ⟨f1, f2, f3, f4, f5, f6, f7, f8⟩ := hf
  refine ⟨f1, f2, f3, f4, f5, f6, f7, f8, ?_⟩
  intro e he hacc
  rw [cmd_digit_digitCount _ e (by rw [f2]; exact hp) he, f2, f6, if_pos hacc]

theorem rejected_digit_keeps_entry_witness :
    ((cmdTimeCommandProcessing 4 cmdEntryState).g_runMode = cmdEntryState.g_runMode ∧
      (cmdTimeCommandProcessing 4 cmdEntryState).g_digitCount = cmdEntryState.g_digitCount ∧
      (cmdTimeCommandProcessing 4 cmdEntryState).g_newDay = cmdEntryState.g_newDay ∧
      (cmdTimeCommandProcessing 4 cmdEntryState).g_newMonth = cmdEntryState.g_newMonth ∧
      (cmdTimeCommandProcessing 4 cmdEntryState).g_newYear = cmdEntryState.g_newYear ∧
      (cmdTimeCommandProcessing 4 cmdEntryState).g_newHour = cmdEntryState.g_newHour ∧
      (cmdTimeCommandProcessing 4 cmdEntryState).g_newMinute = cmdEntryState.g_newMinute ∧
      (cmdTimeCommandProcessing 4 cmdEntryState).rtcWrites = cmdEntryState.rtcWrites ∧
      (∀ e : Nat, e ≤ 9 → digitAccepted cmdEntryState.g_digitCount e cmdEntryState.g_newHour →
        (cmdTimeCommandProcessing e (cmdTimeCommandProcessing 4 cmdEntryState)).g_digitCount =
          cmdEntryState.g_digitCount + 1)) ∧
    cmdEntryState.g_runMode = CMD ∧
    (cmdTimeCommandProcessing 4 cmdEntryState).g_digitCount = 0 ∧
    (cmdTimeCommandProcessing 2 (cmdTimeCommandProcessing 4 cmdEntryState)).g_digitCount = 1 ∧
    (cmdTimeCommandProcessing 2 (cmdTimeCommandProcessing 4 cmdEntryState)).g_newDay = 2 :=
  ⟨rejected_digit_keeps_entry cmdEntryState 4 (by decide) (by decide) (by decide),
   by decide, by decide, by decide, by decide⟩

/-! ## C8: a complete entry followed by OK -/

theorem Pending_entryState (d : Nat) (s : State) (p day month hour minute : Nat) (year : Int)
    (w : List DateTime) (h : Pending s p day month hour minute year w) :
    Pending (entryState d s) p day month hour minute year w := by
  simpa [Pending, entryState, showEntry, State.onStrip, startTimer, State.setStart,
    State.setOver, State.setCount, State.setTimer] using h

theorem Pending_pos0 (s : State) (d day month hour minute : Nat) (year : Int)
    (w : List DateTime) (h : Pending s 0 day month hour minute year w) (hd : d ≤ 3) :
    Pending (cmdTimeCommandProcessing d s) 1 d month hour minute year w := by
  have he := Pending_entryState d s _ _ _ _ _ _ _ h
  rw [cmd_digit_eq d s (by omega), cmdDigitSwitch_pos0 d _ he.1, if_neg (by omega)]
  obtain ⟨_, _, e3, e4, e5, e6, e7⟩ := he
  exact ⟨rfl, rfl, e3, e4, e5, e6, e7⟩

theorem Pending_pos1 (s : State) (d day month hour minute : Nat) (year : Int)
    (w : List DateTime) (h : Pending s 1 day month hour minute year w) (hd : d ≤ 9) :
    Pending (cmdTimeCommandProcessing d s) 2 (toByte (day * 10 + d)) month hour minute year w := by
  have he := Pending_entryState d s _ _ _ _ _ _ _ h
  rw [cmd_digit_eq d s hd, cmdDigitSwitch_pos1 d _ he.1]
  obtain ⟨_, e2, e3, e4, e5, e6, e7⟩ := he
  exact ⟨rfl, by simp only [e2], e3, e4, e5, e6, e7⟩

theorem Pending_pos2 (s : State) (d day month hour minute : Nat) (year : Int)
    (w : List DateTime) (h : Pending s 2 day month hour minute year w) (hd : d ≤ 1) :
    Pending (cmdTimeCommandProcessing d s) 3 day d hour minute year w := by
  have he := Pending_entryState d s _ _ _ _ _ _ _ h
  rw [cmd_digit_eq d s (by omega), cmdDigitSwitch_pos2 d _ he.1, if_neg (by omega)]
  obtain ⟨_, e2, _, e4, e5, e6, e7⟩ := he
  exact ⟨rfl, e2, rfl, e4, e5, e6, e7⟩

theorem Pending_pos3 (s : State) (d day month hour minute : Nat) (year : Int)
    (w : List DateTime) (h : Pending s 3 day month hour minute year w) (hd : d ≤ 9) :
    Pending (cmdTimeCommandProcessing d s) 4 day (toByte (month * 10 + d)) hour minute year w := by
  have he := Pending_entryState d s _ _ _ _ _ _ _ h
  rw [cmd_digit_eq d s hd, cmdDigitSwitch_pos3 d _ he.1]
  obtain ⟨_, e2, e3, e4, e5, e6, e7⟩ := he
  exact ⟨rfl, e2, by simp only [e3], e4, e5, e6, e7⟩

theorem Pending_pos4 (s : State) (d day month hour minute : Nat) (year : Int)
    (w : List DateTime) (h : Pending s 4 day month hour minute year w) (hd : d ≤ 9) :
    Pending (cmdTimeCommandProcessing d s) 5 day month hour minute (d : Int) w := by
  have he := Pending_entryState d s _ _ _ _ _ _ _ h
  rw [cmd_digit_eq d s hd, cmdDigitSwitch_pos4 d _ he.1]
  obtain ⟨_, e2, e3, e4, e5, _, e7⟩ := he
  exact ⟨rfl, e2, e3, e4, e5, rfl, e7⟩

theorem Pending_pos5 (s : State) (d day month hour minute : Nat) (year : Int)
    (w : List DateTime) (h : Pending s 5 day month hour minute year w) (hd : d ≤ 9) :
    Pending (cmdTimeCommandProcessing d s) 6 day month hour minute
      (toInt16 (2000 + (year * 10 + (d : Int)))) w := by
  have he := Pending_entryState d s _ _ _ _ _ _ _ h
  rw [cmd_digit_eq d s hd, cmdDigitSwitch_pos5 d _ he.1]
  obtain ⟨_, e2, e3, e4, e5, e6, e7⟩ := he
  exact ⟨rfl, e2, e3, e4, e5, by simp only [e6], e7⟩

theorem Pending_pos6 (s : State) (d day month hour minute : Nat) (year : Int)
    (w : List DateTime) (h : Pending s 6 day month hour minute year w) (hd : d ≤ 2) :
    Pending (cmdTimeCommandProcessing d s) 7 day month d minute year w := by
  have he := Pending_entryState d s _ _ _ _ _ _ _ h
  rw [cmd_digit_eq d s (by omega), cmdDigitSwitch_pos6 d _ he.1, if_neg (by omega)]
  obtain ⟨_, e2, e3, _, e5, e6, e7⟩ := he
  exact ⟨rfl, e2, e3, rfl, e5, e6, e7⟩

theorem Pending_pos7 (s : State) (d day month hour minute : Nat) (year : Int)
    (w : List DateTime) (h : Pending s 7 day month hour minute year w) (hd : d ≤ 9)
    (hv : hour * 10 + d ≤ 23) :
    Pending (cmdTimeCommandProcessing d s) 8 day month (toByte (hour * 10 + d)) minute year w := by
  have he := Pending_entryState d s _ _ _ _ _ _ _ h
  obtain ⟨e1, e2, e3, e4, e5, e6, e7⟩ := he
  rw [cmd_digit_eq d s hd, cmdDigitSwitch_pos7 d _ e1, if_neg (by rw [e4]; omega)]
  exact ⟨rfl, e2, e3, by simp only [e4], e5, e6, e7⟩

theorem Pending_pos8 (s : State) (d day month hour minute : Nat) (year : Int)
    (w : List DateTime) (h : Pending s 8 day month hour minute year w) (hd : d ≤ 5) :
    Pending (cmdTimeCommandProcessing d s) 9 day month hour d year w := by
  have he := Pending_entryState d s _ _ _ _ _ _ _ h
  rw [cmd_digit_eq d s (by omega), cmdDigitSwitch_pos8 d _ he.1, if_neg (by omega)]
  obtain ⟨_, e2, e3, e4, _, e6, e7⟩ := he
  exact ⟨rfl, e2, e3, e4, rfl, e6, e7⟩

theorem Pending_pos9 (s : State) (d day month hour minute : Nat) (year : Int)
    (w : List DateTime) (h : Pending s 9 day month hour minute year w) (hd : d ≤ 9) :
    Pending (cmdTimeCommandProcessing d s) 10 day month hour (toByte (minute * 10 + d))
      year w := by
  have he := Pending_entryState d s _ _ _ _ _ _ _ h
  rw [cmd_digit_eq d s hd, cmdDigitSwitch_pos9 d _ he.1]
  obtain ⟨_, e2, e3, e4, e5, e6, e7⟩ := he
  exact ⟨rfl, e2, e3, e4, by simp only [e5], e6, e7⟩

/-- The key OK in `cmdTimeCommandProcessing`: only the second block runs. -/
theorem cmd_OK_eq (s : State) :
    cmdTimeCommandProcessing KEY_OK s =
      ((({ (if s.g_digitCount = 10 then
              { s with rtcWrites := s.rtcWrites ++
                  [mkDateTime s.g_newYear s.g_newMonth s.g_newDay s.g_newHour s.g_newMinute 0] }
            else s) with g_runMode := RUN } : State).setStart 3 false).setStart 2 false).setOver
        2 true := by
  have h1 : ¬ KEY_OK < KEY_UP := by decide
  simp only [cmdTimeCommandProcessing, cmdOk, cmdDigits, if_neg h1, if_true]

/-- What OK does in `cmdTimeCommandProcessing`, field by field. -/
theorem cmd_OK_fields (s : State) :
    (cmdTimeCommandProcessing KEY_OK s).g_runMode = RUN ∧
    ((cmdTimeCommandProcessing KEY_OK s).g_timers 3).Start = false ∧
    ((cmdTimeCommandProcessing KEY_OK s).g_timers 3).Over = (s.g_timers 3).Over ∧
    ((cmdTimeCommandProcessing KEY_OK s).g_timers 2).Start = false ∧
    ((cmdTimeCommandProcessing KEY_OK s).g_timers 2).Over = true ∧
    (cmdTimeCommandProcessing KEY_OK s).rtcWrites =
      if s.g_digitCount = 10 then
        s.rtcWrites ++
          [mkDateTime s.g_newYear s.g_newMonth s.g_newDay s.g_newHour s.g_newMinute 0]
      else s.rtcWrites := by
  rw [cmd_OK_eq]
  by_cases h : s.g_digitCount = 10
  · simp [h, State.setStart, State.setOver, State.setTimer, Function.update]
  · simp [h, State.setStart, State.setOver, State.setTimer, Function.update]

/-- C8: for every digit sequence `d0 .. d9` in which each digit passes the
validation of its position, entered from digit count 0 and followed by OK,
exactly one RTC write is added to those made before, with year
`2000 + 10*d4 + d5`, month `10*d2 + d3`, day `10*d0 + d1`, hour `10*d6 + d7`,
minute `10*d8 + d9` and second 0, and the mode afterwards is RUN. -/
theorem full_entry_commits (s : State) (d0 d1 d2 d3 d4 d5 d6 d7 d8 d9 : Nat)
    (hcount : s.g_digitCount = 0)
    (h0 : d0 ≤ 3) (h1 : d1 ≤ 9) (h2 : d2 ≤ 1) (h3 : d3 ≤ 9) (h4 : d4 ≤ 9) (h5 : d5 ≤ 9)
    (h6 : d6 ≤ 2) (h7 : d7 ≤ 9) (h67 : 10 * d6 + d7 ≤ 23) (h8 : d8 ≤ 5) (h9 : d9 ≤ 9) :
    (cmdSequence [d0, d1, d2, d3, d4, d5, d6, d7, d8, d9, KEY_OK] s).rtcWrites =
      s.rtcWrites ++
        [{ year := 2000 + 10 * d4 + d5, month := 10 * d2 + d3, day := 10 * d0 + d1,
           hour := 10 * d6 + d7, minute := 10 * d8 + d9, second := 0 }] ∧
    (cmdSequence [d0, d1, d2, d3, d4, d5, d6, d7, d8, d9, KEY_OK] s).g_runMode = RUN := by
  have p0 : Pending s 0 s.g_newDay s.g_newMonth s.g_newHour s.g_newMinute s.g_newYear
      s.rtcWrites := ⟨hcount, rfl, rfl, rfl, rfl, rfl, rfl⟩
  have p1 := Pending_pos0 _ d0 _ _ _ _ _ _ p0 h0
  have p2 := Pending_pos1 _ d1 _ _ _ _ _ _ p1 h1
  have p3 := Pending_pos2 _ d2 _ _ _ _ _ _ p2 h2
  have p4 := Pending_pos3 _ d3 _ _ _ _ _ _ p3 h3
  have p5 := Pending_pos4 _ d4 _ _ _ _ _ _ p4 h4
  have p6 := Pending_pos5 _ d5 _ _ _ _ _ _ p5 h5
  have p7 := Pending_pos6 _ d6 _ _ _ _ _ _ p6 h6
  have p8 := Pending_pos7 _ d7 _ _ _ _ _ _ p7 h7 (by omega)
  have p9 := Pending_pos8 _ d8 _ _ _ _ _ _ p8 h8
  have p10 := Pending_pos9 _ d9 _ _ _ _ _ _ p9 h9
  obtain ⟨e1, e2, e3, e4, e5, e6, e7⟩ := p10
  have hok := cmd_OK_fields (cmdSequence [d0, d1, d2, d3, d4, d5, d6, d7, d8, d9] s)
  have hseq : cmdSequence [d0, d1, d2, d3, d4, d5, d6, d7, d8, d9, KEY_OK] s =
      cmdTimeCommandProcessing KEY_OK (cmdSequence [d0, d1, d2, d3, d4, d5, d6, d7, d8, d9] s) :=
    rfl
  have hun : cmdSequence [d0, d1, d2, d3, d4, d5, d6, d7, d8, d9] s =
      cmdTimeCommandProcessing d9 (cmdTimeCommandProcessing d8 (cmdTimeCommandProcessing d7
        (cmdTimeCommandProcessing d6 (cmdTimeCommandProcessing d5 (cmdTimeCommandProcessing d4
          (cmdTimeCommandProcessing d3 (cmdTimeCommandProcessing d2 (cmdTimeCommandProcessing d1
            (cmdTimeCommandProcessing d0 s))))))))) := rfl
  rw [hseq]
  refine ⟨?_, hok.1⟩
  rw [hok.2.2.2.2.2, hun, e1, if_pos rfl, e2, e3, e4, e5, e6, e7]
  have a1 : toByte (d0 * 10 + d1) = 10 * d0 + d1 := by unfold toByte; omega
  have a2 : toByte (d2 * 10 + d3) = 10 * d2 + d3 := by unfold toByte; omega
  have a3 : toByte (d6 * 10 + d7) = 10 * d6 + d7 := by unfold toByte; omega
  have a4 : toByte (d8 * 10 + d9) = 10 * d8 + d9 := by unfold toByte; omega
  have a5 : toInt16 (2000 + ((d4 : Int) * 10 + (d5 : Int))) = ((2000 + 10 * d4 + d5 : Nat) : Int) := by
    unfold toInt16; omega
  rw [a1, a2, a3, a4, a5]
  have b1 : toByte (10 * d0 + d1) = 10 * d0 + d1 := by unfold toByte; omega
  have b2 : toByte (10 * d2 + d3) = 10 * d2 + d3 := by unfold toByte; omega
  have b3 : toByte (10 * d6 + d7) = 10 * d6 + d7 := by unfold toByte; omega
  have b4 : toByte (10 * d8 + d9) = 10 * d8 + d9 := by unfold toByte; omega
  have b5 : (((2000 + 10 * d4 + d5 : Nat) : Int) % 65536).toNat = 2000 + 10 * d4 + d5 := by
    omega
  have b6 : toByte 0 = 0 := rfl
  simp only [mkDateTime, b1, b2, b3, b4, b5, b6]

theorem full_entry_commits_witness :
    (cmdSequence [0, 1, 0, 1, 2, 4, 1, 0, 3, 0, KEY_OK] cmdEntryState).rtcWrites =
      cmdEntryState.rtcWrites ++
        [{ year := 2000 + 10 * 2 + 4, month := 10 * 0 + 1, day := 10 * 0 + 1,
           hour := 10 * 1 + 0, minute := 10 * 3 + 0, second := 0 }] ∧
    (cmdSequence [0, 1, 0, 1, 2, 4, 1, 0, 3, 0, KEY_OK] cmdEntryState).g_runMode = RUN :=
  full_entry_commits cmdEntryState 0 1 0 1 2 4 1 0 3 0 (by decide) (by decide) (by decide)
    (by decide) (by decide) (by decide) (by decide) (by decide) (by decide) (by decide)
    (by decide) (by decide)

/-! ## C9: OK in command mode -/

/-- C9: for every digit count, OK in `cmdTimeCommandProcessing` sets the mode to
RUN, leaves timer 3 stopped and leaves timer 2 stopped with `Over` set; the RTC
is written (once, with the pending fields) when the digit count is 10 and is
not written otherwise. -/
theorem OK_in_cmd (s : State) :
    (cmdTimeCommandProcessing KEY_OK s).g_runMode = RUN ∧
    ((cmdTimeCommandProcessing KEY_OK s).g_timers 3).Start = false ∧
    ((cmdTimeCommandProcessing KEY_OK s).g_timers 2).Start = false ∧
    ((cmdTimeCommandProcessing KEY_OK s).g_timers 2).Over = true ∧
    (s.g_digitCount = 10 →
      (cmdTimeCommandProcessing KEY_OK s).rtcWrites =
        s.rtcWrites ++
          [mkDateTime s.g_newYear s.g_newMonth s.g_newDay s.g_newHour s.g_newMinute 0]) ∧
    (s.g_digitCount ≠ 10 → (cmdTimeCommandProcessing KEY_OK s).rtcWrites = s.rtcWrites) := by
  obtain ⟨f1, f2, _, f4, f5, f6⟩ := cmd_OK_fields s
  refine ⟨f1, f2, f4, f5, ?_, ?_⟩
  · intro h
    rw [f6, if_pos h]
  · intro h
    rw [f6, if_neg h]

theorem OK_in_cmd_witness :
    ((cmdTimeCommandProcessing KEY_OK (cmdSequence [0, 1, 0, 1] cmdEntryState)).g_runMode = RUN ∧
      (cmdTimeCommandProcessing KEY_OK (cmdSequence [0, 1, 0, 1] cmdEntryState)).rtcWrites =
        (cmdSequence [0, 1, 0, 1] cmdEntryState).rtcWrites) ∧
    (cmdSequence [0, 1, 0, 1] cmdEntryState).g_digitCount = 4 ∧
    (cmdSequence [0, 1, 0, 1] cmdEntryState).rtcWrites = [] :=
  ⟨⟨(OK_in_cmd (cmdSequence [0, 1, 0, 1] cmdEntryState)).1,
    (OK_in_cmd (cmdSequence [0, 1, 0, 1] cmdEntryState)).2.2.2.2.2 (by decide)⟩,
   by decide, by decide⟩

/-! ## C10: a digit after the tenth -/

/-- C10: with ten digits entered, any digit 0..9 sets the mode to RUN, writes
nothing to the RTC and leaves timer 3 stopped and not over. -/
theorem digit_overflow_aborts (s : State) (d : Nat) (hcount : s.g_digitCount = 10)
    (hd : d ≤ 9) :
    (cmdTimeCommandProcessing d s).g_runMode = RUN ∧
    (cmdTimeCommandProcessing d s).rtcWrites = s.rtcWrites ∧
    ((cmdTimeCommandProcessing d s).g_timers 3).Start = false ∧
    ((cmdTimeCommandProcessing d s).g_timers 3).Over = false := by
  have hc : 10 ≤ (entryState d s).g_digitCount := by
    rw [entryState_digitCount, hcount]
  rw [cmd_digit_eq d s hd, cmdDigitSwitch_overflow d _ hc]
  simp [entryState, showEntry, State.onStrip, startTimer, State.setStart, State.setOver,
    State.setCount, State.setTimer, Function.update]

theorem digit_overflow_aborts_witness :
    (cmdTimeCommandProcessing 5
      (cmdSequence [0, 1, 0, 1, 2, 4, 1, 0, 3, 0] cmdEntryState)).g_runMode = RUN ∧
    (cmdTimeCommandProcessing 5
      (cmdSequence [0, 1, 0, 1, 2, 4, 1, 0, 3, 0] cmdEntryState)).rtcWrites =
      (cmdSequence [0, 1, 0, 1, 2, 4, 1, 0, 3, 0] cmdEntryState).rtcWrites ∧
    ((cmdTimeCommandProcessing 5
      (cmdSequence [0, 1, 0, 1, 2, 4, 1, 0, 3, 0] cmdEntryState)).g_timers 3).Start = false ∧
    ((cmdTimeCommandProcessing 5
      (cmdSequence [0, 1, 0, 1, 2, 4, 1, 0, 3, 0] cmdEntryState)).g_timers 3).Over = false :=
  digit_overflow_aborts (cmdSequence [0, 1, 0, 1, 2, 4, 1, 0, 3, 0] cmdEntryState) 5
    (by decide) (by decide)

/-! ## How `IRcommandHandler` reaches the two command processors -/

/-- In CMD mode, with the command timeout not over, a frame without repeat
flag whose key is known is handed to `cmdTimeCommandProcessing`. -/
theorem IRcommandHandler_in_cmd (s : State) (d : IRData) (hmode : s.g_runMode = CMD)
    (h3 : (s.g_timers 3).Over = false) (hrep : isRepeat d = false)
    (hkey : decodeKey (toByte d.command) ≠ NO_CMD) :
    IRcommandHandler (some d) s =
      { cmdTimeCommandProcessing (decodeKey (toByte d.command))
          { s with g_countOK := 0, g_command := decodeKey (toByte d.command) } with
        g_command := NO_CMD } := by
  have hne : ¬ CMD = RUN := by decide
  simp [IRcommandHandler, receiveIR, hmode, h3, hrep, hkey, hne]

/-- In RUN mode, with the command timeout not over, a frame without repeat
flag whose key is known is handed to `runTimeCommandProcessing` only. -/
theorem IRcommandHandler_in_run (s : State) (d : IRData) (hmode : s.g_runMode = RUN)
    (h3 : (s.g_timers 3).Over = false) (hrep : isRepeat d = false)
    (hkey : decodeKey (toByte d.command) ≠ NO_CMD) :
    IRcommandHandler (some d) s =
      { runTimeCommandProcessing (decodeKey (toByte d.command))
          { s with g_countOK := 0, g_command := decodeKey (toByte d.command) } with
        g_command := NO_CMD } := by
  have hne : ¬ RUN = CMD := by decide
  have hrun := runTime_runMode (decodeKey (toByte d.command))
    { s with g_countOK := 0, g_runMode := RUN, g_command := decodeKey (toByte d.command) }
  simp only [] at hrun
  simp [IRcommandHandler, receiveIR, hmode, h3, hrep, hkey, hne, hrun]

/-! ## C11: the only RTC write after setup -/

theorem ISR_iterate_eq (n : Nat) (s : State) :
    ISR^[n] s = { s with g_timers := fun i => tickTimer^[n] (s.g_timers i) } := by
  induction n generalizing s with
  | zero => rfl
  | succ k ih =>
    rw [Function.iterate_succ_apply, ih, ISR_eq]
    rfl

theorem ISR_iterate_rtcWrites (n : Nat) (s : State) :
    (ISR^[n] s).rtcWrites = s.rtcWrites := by
  rw [ISR_iterate_eq]

theorem startTimer_eq (i : Fin 4) (s : State) :
    startTimer i s =
      { s with g_timers := (Function.update s.g_timers i
          (Timer.mk true (s.g_timers i).InitialValue false (s.g_timers i).InitialValue)) } := by
  simp [startTimer, State.setStart, State.setOver, State.setCount, State.setTimer]

theorem updateClock_rtcWrites (now : DateTime) (s : State) :
    (updateClock now s).rtcWrites = s.rtcWrites := by
  by_cases h2 : (s.g_timers 2).Over = true
  · by_cases hd : s.g_showDisplay = true
    · simp [updateClock, h2, hd, startTimer_eq, State.onStrip]
    · simp [updateClock, h2, hd, startTimer_eq, State.onStrip]
  · simp [updateClock, h2]

theorem checkDoor_rtcWrites (doorOpen : Bool) (ticks : Nat) (s : State) :
    (checkDoor doorOpen ticks s).rtcWrites = s.rtcWrites := by
  unfold checkDoor
  split_ifs
  · simp [setErrorCode, State.onStrip, ISR_iterate_eq]
  · rfl

theorem updateBrightness_rtcWrites (ldrValue : Nat) (s : State) :
    (updateBrightness ldrValue s).rtcWrites = s.rtcWrites := by
  unfold updateBrightness
  split_ifs <;> simp [State.onStrip]

theorem setColorLevel_rtcWrites (a : Int) (s : State) :
    (setColorLevel a s).rtcWrites = s.rtcWrites := by
  unfold setColorLevel
  split_ifs <;> rfl

theorem waitCO2_rtcWrites (polls : List Poll) (s t : State) (e : waitCO2 polls s = some t) :
    t.rtcWrites = s.rtcWrites := by
  induction polls generalizing s with
  | nil => simp [waitCO2] at e
  | cons p ps ih =>
    simp only [waitCO2] at e
    split_ifs at e with h0 h9
    · simp only [Option.some.injEq] at e
      rw [← e, setColorLevel_rtcWrites]
      simp [State.setStart, State.setTimer, ISR_iterate_eq]
    · rw [ih _ e, ISR_iterate_rtcWrites]
    · simp only [Option.some.injEq] at e
      rw [← e, ISR_iterate_rtcWrites]

theorem getCO2_rtcWrites (polls : List Poll) (s t : State) (e : getCO2 polls s = some t) :
    t.rtcWrites = s.rtcWrites := by
  rw [getCO2_eq] at e
  split_ifs at e with h1
  · rw [Option.bind_eq_some] at e
    obtain ⟨s4, hw, e4⟩ := e
    have h4 := waitCO2_rtcWrites polls _ _ hw
    simp only [startTimer_eq] at h4
    split_ifs at e4
    · simp only [Option.some.injEq] at e4
      rw [← e4]
      simpa [setErrorCode, State.onStrip] using h4
    · simp only [Option.some.injEq] at e4
      rw [← e4]
      exact h4
  · simp only [Option.some.injEq] at e
    rw [← e]

theorem receiveIR_rtcWrites (ev : Option IRData) (s : State) :
    (receiveIR ev s).2.rtcWrites = s.rtcWrites := by
  unfold receiveIR
  cases ev with
  | none => rfl
  | some d =>
    simp only []
    split_ifs <;> simp [startTimer_eq, State.onStrip]

theorem runTime_rtcWrites (c : Nat) (s : State) :
    (runTimeCommandProcessing c s).rtcWrites = s.rtcWrites := by
  unfold runTimeCommandProcessing
  split_ifs <;>
    simp [State.onStrip, startTimer_eq, State.setStart, State.setOver, State.setTimer]

theorem cmdDigitSwitch_rtcWrites (c : Nat) (s : State) :
    (cmdDigitSwitch c s).rtcWrites = s.rtcWrites := by
  rcases digitCount_cases s.g_digitCount with h | h | h | h | h | h | h | h | h | h | h
  · rw [cmdDigitSwitch_pos0 c s h]; split_ifs <;> simp [showEntry, State.onStrip]
  · rw [cmdDigitSwitch_pos1 c s h]
  · rw [cmdDigitSwitch_pos2 c s h]; split_ifs <;> simp [showEntry, State.onStrip]
  · rw [cmdDigitSwitch_pos3 c s h]
  · rw [cmdDigitSwitch_pos4 c s h]
  · rw [cmdDigitSwitch_pos5 c s h]
  · rw [cmdDigitSwitch_pos6 c s h]; split_ifs <;> simp [showEntry, State.onStrip]
  · rw [cmdDigitSwitch_pos7 c s h]; split_ifs <;> simp [showEntry, State.onStrip]
  · rw [cmdDigitSwitch_pos8 c s h]; split_ifs <;> simp [showEntry, State.onStrip]
  · rw [cmdDigitSwitch_pos9 c s h]
  · rw [cmdDigitSwitch_overflow c s h]
    simp [startTimer_eq, State.setStart, State.setTimer]

theorem cmdDigits_rtcWrites (c : Nat) (s : State) :
    (cmdDigits c s).rtcWrites = s.rtcWrites := by
  unfold cmdDigits
  split_ifs
  · rw [cmdDigitSwitch_rtcWrites]
    simp [showEntry, State.onStrip, startTimer_eq, State.setStart, State.setTimer]
  · rfl

theorem cmdDigits_of_not_digit (c : Nat) (s : State) (h : ¬ c < KEY_UP) :
    cmdDigits c s = s := by
  unfold cmdDigits
  rw [if_neg h]

/-- The RTC log after `cmdTimeCommandProcessing`: one entry more when the
command is OK and ten digits are entered, unchanged otherwise. -/
theorem cmd_rtcWrites (c : Nat) (s : State) :
    (cmdTimeCommandProcessing c s).rtcWrites =
      if c = KEY_OK ∧ s.g_digitCount = 10 then
        s.rtcWrites ++
          [mkDateTime s.g_newYear s.g_newMonth s.g_newDay s.g_newHour s.g_newMinute 0]
      else s.rtcWrites := by
  by_cases hc : c = KEY_OK
  · subst hc
    rw [(cmd_OK_fields s).2.2.2.2.2]
    by_cases h : s.g_digitCount = 10
    · simp [h]
    · simp [h]
  · have h1 : ¬ (c = KEY_OK ∧ s.g_digitCount = 10) := fun h => hc h.1
    rw [if_neg h1]
    unfold cmdTimeCommandProcessing cmdOk
    rw [if_neg hc, cmdDigits_rtcWrites]

theorem receiveIR_of_repeat (d : IRData) (s : State) (hrep : isRepeat d = true) :
    (receiveIR (some d) s).1 = NO_CMD := by
  have hne : ¬ (true = false) := by decide
  simp only [receiveIR, hrep, if_neg hne]
  split_ifs <;> rfl

theorem receiveIR_of_press (d : IRData) (s : State) (hrep : isRepeat d = false) :
    receiveIR (some d) s = (decodeKey (toByte d.command), { s with g_countOK := 0 }) := by
  simp [receiveIR, hrep]

/-- When `receiveIR` returns no command, `IRcommandHandler` only stores what
`receiveIR` did. -/
theorem IRcommandHandler_of_no_cmd (ev : Option IRData) (s : State)
    (h3 : (s.g_timers 3).Over = false) (hcmd : (receiveIR ev s).1 = NO_CMD) :
    IRcommandHandler ev s = { (receiveIR ev s).2 with g_command := NO_CMD } := by
  unfold IRcommandHandler
  rw [if_neg (by simp [h3])]
  simp [hcmd]

/-- The command timeout branch of `IRcommandHandler`. -/
theorem IRcommandHandler_of_timeout (ev : Option IRData) (s : State)
    (h3 : (s.g_timers 3).Over = true) :
    IRcommandHandler ev s =
      startTimer 2 (({ s.onStrip Strip.clear with
        g_showDisplay := true, g_runMode := RUN } : State).setOver 3 false) := by
  unfold IRcommandHandler
  rw [if_pos h3]

/-- A key pressed in a mode that is neither RUN nor CMD is dropped. -/
theorem IRcommandHandler_in_other_mode (s : State) (d : IRData) (hrun : s.g_runMode ≠ RUN)
    (hcmd : s.g_runMode ≠ CMD) (h3 : (s.g_timers 3).Over = false)
    (hrep : isRepeat d = false) :
    IRcommandHandler (some d) s =
      { s with g_countOK := 0, g_command := decodeKey (toByte d.command) } := by
  simp [IRcommandHandler, receiveIR, h3, hrep, hrun, hcmd]

/-- The RTC log after one `IRcommandHandler` call. -/
theorem IRcommandHandler_rtcWrites (ev : Option IRData) (s : State) :
    (IRcommandHandler ev s).rtcWrites =
      if commitsEntry (Action.IRcommandHandler ev) s then
        s.rtcWrites ++
          [mkDateTime s.g_newYear s.g_newMonth s.g_newDay s.g_newHour s.g_newMinute 0]
      else s.rtcWrites := by
  by_cases h3 : (s.g_timers 3).Over = true
  · have hn : ¬ commitsEntry (Action.IRcommandHandler ev) s := by
      cases ev with
      | none => simp [commitsEntry]
      | some d => simp [commitsEntry, h3]
    rw [if_neg hn, IRcommandHandler_of_timeout ev s h3]
    simp [startTimer_eq, State.setOver, State.setTimer, State.onStrip]
  · have h3f : (s.g_timers 3).Over = false := by simpa using h3
    cases ev with
    | none =>
      rw [if_neg (by simp [commitsEntry]), IRcommandHandler_of_no_cmd none s h3f rfl]
      rfl
    | some d =>
      by_cases hrep : isRepeat d = true
      · rw [if_neg (by simp [commitsEntry, hrep]),
          IRcommandHandler_of_no_cmd _ s h3f (receiveIR_of_repeat d s hrep)]
        exact receiveIR_rtcWrites (some d) s
      · have hrepf : isRepeat d = false := by simpa using hrep
        by_cases hk : decodeKey (toByte d.command) = NO_CMD
        · have hno : (receiveIR (some d) s).1 = NO_CMD := by
            rw [receiveIR_of_press d s hrepf]; exact hk
          have hok : decodeKey (toByte d.command) ≠ KEY_OK := by
            rw [hk]; decide
          rw [if_neg (by simp [commitsEntry, hok]), IRcommandHandler_of_no_cmd _ s h3f hno]
          exact receiveIR_rtcWrites (some d) s
        · by_cases hrun : s.g_runMode = RUN
          · have hne : s.g_runMode ≠ CMD := by rw [hrun]; decide
            rw [if_neg (by simp [commitsEntry, hne]), IRcommandHandler_in_run s d hrun h3f hrepf hk]
            exact runTime_rtcWrites _ _
          · by_cases hcmd : s.g_runMode = CMD
            · rw [IRcommandHandler_in_cmd s d hcmd h3f hrepf hk]
              have := cmd_rtcWrites (decodeKey (toByte d.command))
                { s with g_countOK := 0, g_command := decodeKey (toByte d.command) }
              simp only [] at this ⊢
              rw [this]
              simp only [commitsEntry, h3f, hrepf, hcmd, true_and, and_true]
            · rw [if_neg (by simp [commitsEntry, hcmd]),
                IRcommandHandler_in_other_mode s d hrun hcmd h3f hrepf]

/-- C11: a tick or a main-loop call writes the RTC in one situation only,
`IRcommandHandler` receiving a non-repeated OK while the mode is CMD, ten
digits are entered and the command timeout is not over; it then adds exactly
one write of the pending entry.  Every other step (ticks, `updateClock`,
`checkDoor`, `getCO2`, `updateBrightness`, the command timeout handling, every
RUN-mode command, every digit in CMD, OK with another digit count) leaves the
RTC log unchanged. -/
theorem rtc_write_only_on_commit (a : Action) (s t : State) (h : step a s = some t) :
    (commitsEntry a s →
      t.rtcWrites = s.rtcWrites ++
        [mkDateTime s.g_newYear s.g_newMonth s.g_newDay s.g_newHour s.g_newMinute 0]) ∧
    (¬ commitsEntry a s → t.rtcWrites = s.rtcWrites) := by
  cases a with
  | tick =>
    simp only [step, Option.some.injEq] at h
    rw [← h]
    exact ⟨fun hc => hc.elim, fun _ => ISR_iterate_rtcWrites 1 s⟩
  | updateClock now =>
    simp only [step, Option.some.injEq] at h
    rw [← h]
    exact ⟨fun hc => hc.elim, fun _ => updateClock_rtcWrites now s⟩
  | checkDoor doorOpen ticks =>
    simp only [step, Option.some.injEq] at h
    rw [← h]
    exact ⟨fun hc => hc.elim, fun _ => checkDoor_rtcWrites doorOpen ticks s⟩
  | getCO2 polls =>
    exact ⟨fun hc => hc.elim, fun _ => getCO2_rtcWrites polls s t h⟩
  | updateBrightness ldrValue =>
    simp only [step, Option.some.injEq] at h
    rw [← h]
    exact ⟨fun hc => hc.elim, fun _ => updateBrightness_rtcWrites ldrValue s⟩
  | IRcommandHandler ev =>
    simp only [step, Option.some.injEq] at h
    rw [← h, IRcommandHandler_rtcWrites]
    constructor
    · intro hc
      rw [if_pos hc]
    · intro hc
      rw [if_neg hc]

theorem rtc_write_only_on_commit_witness :
    (IRcommandHandler (some (pressFrame 0x1C))
        (cmdSequence [0, 1, 0, 1, 2, 4, 1, 0, 3, 0] cmdEntryState)).rtcWrites =
      (cmdSequence [0, 1, 0, 1, 2, 4, 1, 0, 3, 0] cmdEntryState).rtcWrites ++
        [mkDateTime (cmdSequence [0, 1, 0, 1, 2, 4, 1, 0, 3, 0] cmdEntryState).g_newYear
          (cmdSequence [0, 1, 0, 1, 2, 4, 1, 0, 3, 0] cmdEntryState).g_newMonth
          (cmdSequence [0, 1, 0, 1, 2, 4, 1, 0, 3, 0] cmdEntryState).g_newDay
          (cmdSequence [0, 1, 0, 1, 2, 4, 1, 0, 3, 0] cmdEntryState).g_newHour
          (cmdSequence [0, 1, 0, 1, 2, 4, 1, 0, 3, 0] cmdEntryState).g_newMinute 0] ∧
    (IRcommandHandler (some (pressFrame 0x1C))
        (cmdSequence [0, 1, 0, 1] cmdEntryState)).rtcWrites =
      (cmdSequence [0, 1, 0, 1] cmdEntryState).rtcWrites ∧
    (ISR cmdEntryState).rtcWrites = cmdEntryState.rtcWrites :=
  ⟨(rtc_write_only_on_commit (Action.IRcommandHandler (some (pressFrame 0x1C)))
      (cmdSequence [0, 1, 0, 1, 2, 4, 1, 0, 3, 0] cmdEntryState) _ rfl).1 (by decide),
   (rtc_write_only_on_commit (Action.IRcommandHandler (some (pressFrame 0x1C)))
      (cmdSequence [0, 1, 0, 1] cmdEntryState) _ rfl).2 (by decide),
   (rtc_write_only_on_commit Action.tick cmdEntryState _ rfl).2 (by decide)⟩

/-! ## C12: which commands restart the command timeout in CMD mode -/

theorem cmdDigitSwitch_timers_of_le (c : Nat) (s : State) (hp : s.g_digitCount ≤ 9) :
    (cmdDigitSwitch c s).g_timers = s.g_timers ∧
    (cmdDigitSwitch c s).g_runMode = s.g_runMode := by
  rcases digitCount_cases s.g_digitCount with h | h | h | h | h | h | h | h | h | h | h
  · rw [cmdDigitSwitch_pos0 c s h]; split_ifs <;> simp [showEntry, State.onStrip]
  · rw [cmdDigitSwitch_pos1 c s h]; simp
  · rw [cmdDigitSwitch_pos2 c s h]; split_ifs <;> simp [showEntry, State.onStrip]
  · rw [cmdDigitSwitch_pos3 c s h]; simp
  · rw [cmdDigitSwitch_pos4 c s h]; simp
  · rw [cmdDigitSwitch_pos5 c s h]; simp
  · rw [cmdDigitSwitch_pos6 c s h]; split_ifs <;> simp [showEntry, State.onStrip]
  · rw [cmdDigitSwitch_pos7 c s h]; split_ifs <;> simp [showEntry, State.onStrip]
  · rw [cmdDigitSwitch_pos8 c s h]; split_ifs <;> simp [showEntry, State.onStrip]
  · rw [cmdDigitSwitch_pos9 c s h]; simp
  · omega

/-- Timers and mode after a digit at one of the ten positions: timer 3 is
restarted, timer 2 is stopped, the mode is kept. -/
theorem cmd_digit_timers (s : State) (d : Nat) (hp : s.g_digitCount ≤ 9) (hd : d ≤ 9) :
    (cmdTimeCommandProcessing d s).g_runMode = s.g_runMode ∧
    (cmdTimeCommandProcessing d s).g_timers 3 =
      Timer.mk true (s.g_timers 3).InitialValue false (s.g_timers 3).InitialValue ∧
    (cmdTimeCommandProcessing d s).g_timers 2 = { s.g_timers 2 with Start := false } := by
  have hc : (entryState d s).g_digitCount ≤ 9 := by
    rw [entryState_digitCount]; exact hp
  obtain ⟨e1, e2⟩ := cmdDigitSwitch_timers_of_le d (entryState d s) hc
  rw [cmd_digit_eq d s hd, e1, e2]
  simp [entryState, showEntry, State.onStrip, startTimer_eq, State.setStart, State.setTimer,
    Function.update]

/-- A command that is neither a digit nor OK is ignored by
`cmdTimeCommandProcessing`. -/
theorem cmd_other_key (c : Nat) (s : State) (h1 : ¬ c < KEY_UP) (h2 : c ≠ KEY_OK) :
    cmdTimeCommandProcessing c s = s := by
  simp only [cmdTimeCommandProcessing, cmdOk, cmdDigits, if_neg h1, if_neg h2]

/-- The refuted reading of C12: one tick after command mode is entered the key
UP is pressed.  The machine stays in CMD, but timer 3 is not restarted (11
ticks left of 12) and timer 2 is still running. -/
theorem up_in_cmd_keeps_timers :
    (ISR cmdEntryState).g_runMode = CMD ∧
    decodeKey (toByte (pressFrame 0x18).command) = KEY_UP ∧
    (IRcommandHandler (some (pressFrame 0x18)) (ISR cmdEntryState)).g_runMode = CMD ∧
    ((IRcommandHandler (some (pressFrame 0x18)) (ISR cmdEntryState)).g_timers 3).Count = 11 ∧
    ((IRcommandHandler (some (pressFrame 0x18)) (ISR cmdEntryState)).g_timers 3).InitialValue
      = 12 ∧
    ((IRcommandHandler (some (pressFrame 0x18)) (ISR cmdEntryState)).g_timers 2).Start
      = true := by
  decide

/-- C12 (amended): in CMD mode every digit processed at one of the positions
0..9 keeps the mode and leaves timer 3 started with its count equal to its
initial value and not over, and timer 2 stopped.  The commands UP, DOWN, LEFT,
RIGHT, STAR and HASH are ignored by `cmdTimeCommandProcessing`: the state,
and so the mode and all timers, stays as it is. -/
theorem cmd_keys_and_timers (s : State) (c : Nat) :
    (c ≤ 9 → s.g_digitCount ≤ 9 →
      (cmdTimeCommandProcessing c s).g_runMode = s.g_runMode ∧
      ((cmdTimeCommandProcessing c s).g_timers 3).Start = true ∧
      ((cmdTimeCommandProcessing c s).g_timers 3).Count =
        ((cmdTimeCommandProcessing c s).g_timers 3).InitialValue ∧
      ((cmdTimeCommandProcessing c s).g_timers 3).Over = false ∧
      ((cmdTimeCommandProcessing c s).g_timers 2).Start = false) ∧
    ((c = KEY_UP ∨ c = KEY_DOWN ∨ c = KEY_LEFT ∨ c = KEY_RIGHT ∨ c = KEY_AST ∨ c = KEY_HASH) →
      cmdTimeCommandProcessing c s = s) := by
  constructor
  · intro hd hp
    obtain ⟨e1, e2, e3⟩ := cmd_digit_timers s c hp hd
    rw [e1, e2, e3]
    simp
  · intro hc
    apply cmd_other_key
    · rcases hc with h | h | h | h | h | h <;> rw [h] <;> decide
    · rcases hc with h | h | h | h | h | h <;> rw [h] <;> decide

theorem cmd_keys_and_timers_witness :
    ((cmdTimeCommandProcessing 2 (ISR cmdEntryState)).g_runMode = (ISR cmdEntryState).g_runMode ∧
      ((cmdTimeCommandProcessing 2 (ISR cmdEntryState)).g_timers 3).Start = true ∧
      ((cmdTimeCommandProcessing 2 (ISR cmdEntryState)).g_timers 3).Count =
        ((cmdTimeCommandProcessing 2 (ISR cmdEntryState)).g_timers 3).InitialValue ∧
      ((cmdTimeCommandProcessing 2 (ISR cmdEntryState)).g_timers 3).Over = false ∧
      ((cmdTimeCommandProcessing 2 (ISR cmdEntryState)).g_timers 2).Start = false) ∧
    cmdTimeCommandProcessing KEY_UP (ISR cmdEntryState) = ISR cmdEntryState :=
  ⟨(cmd_keys_and_timers (ISR cmdEntryState) 2).1 (by decide) (by decide),
   (cmd_keys_and_timers (ISR cmdEntryState) KEY_UP).2 (Or.inl rfl)⟩

/-! ## C13: the command timeout -/

theorem runTime_other_key (c : Nat) (s : State) (h1 : c ≠ KEY_AST) (h2 : c ≠ KEY_HASH)
    (h3 : c ≠ KEY_UP) (h4 : c ≠ KEY_LEFT) : runTimeCommandProcessing c s = s := by
  simp only [runTimeCommandProcessing, if_neg h1, if_neg h2, if_neg h3, if_neg h4]

/-- C14: `runTimeCommandProcessing` never changes the mode, and for every
command other than STAR, HASH, UP and LEFT (the digits, DOWN, RIGHT, OK) it
returns the state unchanged.  Seen through `IRcommandHandler` in RUN mode, such
a key press keeps the mode RUN and changes nothing but the repeat counter and
the command register: rendering flag, timers, pending entry, digit count, CO2
reading, colour, strip, RTC and serial logs are as before. -/
theorem run_mode_commands (s : State) (c : Nat) (d : IRData) :
    (runTimeCommandProcessing c s).g_runMode = s.g_runMode ∧
    (c ≠ KEY_AST → c ≠ KEY_HASH → c ≠ KEY_UP → c ≠ KEY_LEFT →
      runTimeCommandProcessing c s = s) ∧
    (s.g_runMode = RUN → (s.g_timers 3).Over = false → isRepeat d = false →
      decodeKey (toByte d.command) ≠ NO_CMD →
      (IRcommandHandler (some d) s).g_runMode = RUN ∧
      (decodeKey (toByte d.command) ≠ KEY_AST → decodeKey (toByte d.command) ≠ KEY_HASH →
        decodeKey (toByte d.command) ≠ KEY_UP → decodeKey (toByte d.command) ≠ KEY_LEFT →
        IRcommandHandler (some d) s = { s with g_countOK := 0, g_command := NO_CMD })) := by
  refine ⟨runTime_runMode c s, runTime_other_key c s, ?_⟩
  intro hmode h3 hrep hk
  rw [IRcommandHandler_in_run s d hmode h3 hrep hk]
  constructor
  · have := runTime_runMode (decodeKey (toByte d.command))
      { s with g_countOK := 0, g_command := decodeKey (toByte d.command) }
    simp only [] at this ⊢
    rw [this, hmode]
  · intro k1 k2 k3 k4
    rw [runTime_other_key _ _ k1 k2 k3 k4]

theorem run_mode_commands_witness :
    (runTimeCommandProcessing KEY_DOWN bootState).g_runMode = bootState.g_runMode ∧
    runTimeCommandProcessing KEY_DOWN bootState = bootState ∧
    (IRcommandHandler (some (pressFrame 0x52)) bootState).g_runMode = RUN ∧
    IRcommandHandler (some (pressFrame 0x52)) bootState =
      { bootState with g_countOK := 0, g_command := NO_CMD } :=
  ⟨(run_mode_commands bootState KEY_DOWN (pressFrame 0x52)).1,
   (run_mode_commands bootState KEY_DOWN (pressFrame 0x52)).2.1
     (by decide) (by decide) (by decide) (by decide),
   ((run_mode_commands bootState KEY_DOWN (pressFrame 0x52)).2.2
     (by decide) (by decide) (by decide) (by decide)).1,
   ((run_mode_commands bootState KEY_DOWN (pressFrame 0x52)).2.2
     (by decide) (by decide) (by decide) (by decide)).2
     (by decide) (by decide) (by decide) (by decide)⟩

/-! ## The HASH command -/

theorem runTime_hash_eq (s : State) :
    runTimeCommandProcessing KEY_HASH s =
      (({ s with g_showDisplay := true } : State).setStart 2 false).setOver 2 true := by
  have h1 : KEY_HASH ≠ KEY_AST := by decide
  simp only [runTimeCommandProcessing, if_neg h1, if_true]

/-! ## The reply wait of `getCO2` -/

theorem pollTicks_cons (q : Poll) (qs : List Poll) :
    pollTicks (q :: qs) = q.ticks + pollTicks qs := by
  simp [pollTicks]

theorem pollTicks_nil : pollTicks [] = 0 := rfl

/-- A stopped timer is not changed by ticks. -/
theorem tickTimer_iterate_stopped (n : Nat) (t : Timer) (h : t.Start = false) :
    tickTimer^[n] t = t := by
  induction n with
  | zero => rfl
  | succ k ih =>
    rw [Function.iterate_succ_apply', ih]
    simp [tickTimer, h]

/-- A running timer with `c` ticks left is stopped and over after `c` ticks
or more. -/
theorem tickTimer_iterate_ge (n c v : Nat) (h1 : 1 ≤ c) (hc : c ≤ 255) (hn : c ≤ n) :
    tickTimer^[n] { Start := true, Count := c, Over := false, InitialValue := v } =
      { Start := false, Count := 0, Over := true, InitialValue := v } := by
  obtain ⟨m, rfl⟩ : ∃ m, n = m + c := ⟨n - c, by omega⟩
  rw [Function.iterate_add_apply, tickTimer_iterate_eq c v h1 hc]
  exact tickTimer_iterate_stopped m _ rfl

theorem ISR_iterate_add (a b : Nat) (s : State) :
    ISR^[a] (ISR^[b] s) = ISR^[b + a] s := by
  rw [Nat.add_comm, Function.iterate_add_apply]

/-- The state in which `getCO2` starts to wait: timer 1 restarted, the
request written, timer 0 started. -/
theorem getCO2_request_state (s : State) :
    startTimer 0 { startTimer 1 s with
        serialWrites := (startTimer 1 s).serialWrites ++ [INIT_CO2.take INIT_CO2_LENGTH] } =
      { s with
        g_timers := (Function.update (Function.update s.g_timers 1
            (Timer.mk true (s.g_timers 1).InitialValue false (s.g_timers 1).InitialValue)) 0
            (Timer.mk true (s.g_timers 0).InitialValue false (s.g_timers 0).InitialValue)),
        serialWrites := (s.serialWrites ++ [INIT_CO2.take INIT_CO2_LENGTH]) } := by
  simp [startTimer_eq, Function.update]

/-- The wait ends with a reply: no poll before `p` sees nine bytes, `p` does,
and timer 0 is still running when `p` is made. -/
theorem waitCO2_reply (pre : List Poll) (p : Poll) (rest : List Poll) (u : State)
    (c v : Nat) (hu : u.g_timers 0 = Timer.mk true c false v) (hc : c ≤ 255)
    (hpre : ∀ q ∈ pre, q.available ≠ 9) (h9 : p.available = 9)
    (hticks : pollTicks pre + p.ticks < c) :
    waitCO2 (pre ++ p :: rest) u =
      some (setColorLevel
        (toInt16 (toUInt16 (toByte (p.frame.getD 2 0) * 256 + toByte (p.frame.getD 3 0))))
        (({ ISR^[pollTicks pre + p.ticks] u with
            g_co2Level :=
              toUInt16 (toByte (p.frame.getD 2 0) * 256 + toByte (p.frame.getD 3 0)) }
          : State).setStart 0 false)) := by
  induction pre generalizing u c with
  | nil =>
    simp only [pollTicks_nil, Nat.zero_add] at hticks ⊢
    have h0 : ((ISR^[p.ticks] u).g_timers 0).Over = false := by
      rw [ISR_iterate_timers, hu, tickTimer_iterate_lt p.ticks c v hc hticks]
    simp only [List.nil_append, waitCO2, h0, h9, if_true]
    rfl
  | cons q qs ih =>
    rw [pollTicks_cons] at hticks
    have hq : q.available ≠ 9 := hpre q (List.mem_cons_self q qs)
    have hlt : q.ticks < c := by omega
    have hu1 : (ISR^[q.ticks] u).g_timers 0 = Timer.mk true (c - q.ticks) false v := by
      rw [ISR_iterate_timers, hu, tickTimer_iterate_lt q.ticks c v hc hlt]
    have h0 : ((ISR^[q.ticks] u).g_timers 0).Over = false := by rw [hu1]
    have hrec := ih (ISR^[q.ticks] u) (c - q.ticks) hu1 (by omega)
      (fun r hr => hpre r (List.mem_cons_of_mem q hr)) (by omega)
    rw [ISR_iterate_add] at hrec
    simp only [List.cons_append, waitCO2, h0, hq, if_true, if_false]
    refine hrec.trans ?_
    rw [pollTicks_cons, Nat.add_assoc]

theorem setColorLevel_co2Level (a : Int) (s : State) :
    (setColorLevel a s).g_co2Level = s.g_co2Level := by
  unfold setColorLevel
  split_ifs <;> rfl

theorem setColorLevel_strip (a : Int) (s : State) :
    (setColorLevel a s).strip = s.strip := by
  unfold setColorLevel
  split_ifs <;> rfl

theorem setColorLevel_serialWrites (a : Int) (s : State) :
    (setColorLevel a s).serialWrites = s.serialWrites := by
  unfold setColorLevel
  split_ifs <;> rfl

/-- The timers of the state in which `getCO2` starts to wait. -/
theorem getCO2_request_timers (s : State) :
    (startTimer 0 { startTimer 1 s with
        serialWrites := (startTimer 1 s).serialWrites ++ [INIT_CO2.take INIT_CO2_LENGTH] }).g_timers 0
      = Timer.mk true (s.g_timers 0).InitialValue false (s.g_timers 0).InitialValue ∧
    (startTimer 0 { startTimer 1 s with
        serialWrites := (startTimer 1 s).serialWrites ++ [INIT_CO2.take INIT_CO2_LENGTH] }).g_timers 1
      = Timer.mk true (s.g_timers 1).InitialValue false (s.g_timers 1).InitialValue := by
  rw [getCO2_request_state]
  simp [Function.update]

/-! ## A reply is decoded from bytes 2 and 3 (no tick in the loop body) -/

/-- With no tick between the loop test and `g_timers[0].Start = false`: in a
`getCO2` call made with timer 1 over, when the first poll that sees exactly
nine bytes comes while timer 0 is still running, the call returns with the
reading `bytes[2] * 256 + bytes[3]` of that frame (a value of at most 65535
that no other byte enters), timer 0 stopped and not over, the strip untouched
(no error indicator) and the reading not reset. -/
theorem getCO2_reply_decoded (s : State) (pre : List Poll) (p : Poll) (rest : List Poll)
    (h1 : (s.g_timers 1).Over = true) (hI : (s.g_timers 0).InitialValue ≤ 255)
    (hpre : ∀ q ∈ pre, q.available ≠ 9) (h9 : p.available = 9)
    (hticks : pollTicks pre + p.ticks < (s.g_timers 0).InitialValue) :
    ∃ t, getCO2 (pre ++ p :: rest) s = some t ∧
      t.g_co2Level = toByte (p.frame.getD 2 0) * 256 + toByte (p.frame.getD 3 0) ∧
      t.g_co2Level ≤ 65535 ∧
      (t.g_timers 0).Start = false ∧ (t.g_timers 0).Over = false ∧
      t.strip = s.strip := by
  have hw := waitCO2_reply pre p rest _ _ _ (getCO2_request_timers s).1 hI hpre h9 hticks
  have hlvl : toUInt16 (toByte (p.frame.getD 2 0) * 256 + toByte (p.frame.getD 3 0)) =
      toByte (p.frame.getD 2 0) * 256 + toByte (p.frame.getD 3 0) := by
    unfold toUInt16 toByte; omega
  have hle : toByte (p.frame.getD 2 0) * 256 + toByte (p.frame.getD 3 0) ≤ 65535 := by
    unfold toByte; omega
  have ht0 : (ISR^[pollTicks pre + p.ticks] (startTimer 0 { startTimer 1 s with
      serialWrites := (startTimer 1 s).serialWrites ++
        [INIT_CO2.take INIT_CO2_LENGTH] })).g_timers 0 =
      Timer.mk true ((s.g_timers 0).InitialValue - (pollTicks pre + p.ticks)) false
        (s.g_timers 0).InitialValue := by
    rw [ISR_iterate_timers, (getCO2_request_timers s).1,
      tickTimer_iterate_lt _ _ _ hI hticks]
  have hnover : ¬ ((setColorLevel
      (toInt16 (toUInt16 (toByte (p.frame.getD 2 0) * 256 + toByte (p.frame.getD 3 0))))
      (({ ISR^[pollTicks pre + p.ticks] (startTimer 0 { startTimer 1 s with
            serialWrites := (startTimer 1 s).serialWrites ++
              [INIT_CO2.take INIT_CO2_LENGTH] }) with
          g_co2Level :=
            toUInt16 (toByte (p.frame.getD 2 0) * 256 + toByte (p.frame.getD 3 0)) }
        : State).setStart 0 false)).g_timers 0).Over = true := by
    rw [setColorLevel_timers]
    simp [State.setStart, State.setTimer, ht0]
  rw [getCO2_eq, if_pos h1, hw, Option.some_bind, if_neg hnover]
  refine ⟨_, rfl, ?_, ?_, ?_, ?_, ?_⟩
  · rw [setColorLevel_co2Level, hlvl]
    rfl
  · rw [setColorLevel_co2Level]
    show toUInt16 _ ≤ 65535
    rw [hlvl]
    exact hle
  · rw [setColorLevel_timers]
    simp [State.setStart, State.setTimer]
  · rw [setColorLevel_timers]
    simp [State.setStart, State.setTimer, ht0]
  · rw [setColorLevel_strip]
    show (ISR^[pollTicks pre + p.ticks] _).strip = s.strip
    rw [ISR_iterate_eq, getCO2_request_state]

theorem getCO2_reply_decoded_witness :
    ∃ t, getCO2 ([{ ticks := 1, available := 4, frame := [] }] ++
        { ticks := 1, available := 9,
          frame := [0xFF, 0x86, 0x01, 0x90, 0x00, 0x00, 0x00, 0x00, 0xE9] } :: [])
        darkPollState = some t ∧
      t.g_co2Level = toByte ([0xFF, 0x86, 0x01, 0x90, 0x00, 0x00, 0x00, 0x00, 0xE9].getD 2 0) * 256
        + toByte ([0xFF, 0x86, 0x01, 0x90, 0x00, 0x00, 0x00, 0x00, 0xE9].getD 3 0) ∧
      t.g_co2Level ≤ 65535 ∧
      (t.g_timers 0).Start = false ∧ (t.g_timers 0).Over = false ∧
      t.strip = darkPollState.strip :=
  getCO2_reply_decoded darkPollState [{ ticks := 1, available := 4, frame := [] }]
    { ticks := 1, available := 9,
      frame := [0xFF, 0x86, 0x01, 0x90, 0x00, 0x00, 0x00, 0x00, 0xE9] } []
    (by decide) (by decide) (by decide) (by decide) (by decide)

/-! ## C19: no reply before the timeout -/

/-- The wait returns when a poll sees nine bytes or enough ticks pass, and
timer 1, started before the wait, is still running afterwards when no poll is
preceded by more ticks than timer 1 has over timer 0. -/
theorem waitCO2_returns (polls : List Poll) (u : State) (c0 v0 c1 v1 : Nat)
    (hu0 : u.g_timers 0 = Timer.mk true c0 false v0)
    (hu1 : u.g_timers 1 = Timer.mk true c1 false v1)
    (h0 : 1 ≤ c0) (hc1 : c1 ≤ 255)
    (hticks : ∀ q ∈ polls, q.ticks + c0 ≤ c1)
    (hend : (∃ q ∈ polls, q.available = 9) ∨ c0 ≤ pollTicks polls) :
    ∃ t k, waitCO2 polls u = some t ∧ t.serialWrites = u.serialWrites ∧ k < c1 ∧
      t.g_timers 1 = Timer.mk true (c1 - k) false v1 := by
  induction polls generalizing u c0 c1 with
  | nil =>
    rcases hend with ⟨q, hq, _⟩ | hz
    · simp at hq
    · rw [pollTicks_nil] at hz; omega
  | cons q qs ih =>
    have hq := hticks q (List.mem_cons_self q qs)
    have hc0 : c0 ≤ 255 := by omega
    have ht1 : (ISR^[q.ticks] u).g_timers 1 = Timer.mk true (c1 - q.ticks) false v1 := by
      rw [ISR_iterate_timers, hu1, tickTimer_iterate_lt q.ticks c1 v1 hc1 (by omega)]
    have hsw : (ISR^[q.ticks] u).serialWrites = u.serialWrites := by
      rw [ISR_iterate_eq]
    by_cases hn : c0 ≤ q.ticks
    · have hover : ((ISR^[q.ticks] u).g_timers 0).Over = true := by
        rw [ISR_iterate_timers, hu0, tickTimer_iterate_ge q.ticks c0 v0 h0 hc0 hn]
      have hne : ¬ (true = false) := by decide
      refine ⟨ISR^[q.ticks] u, q.ticks, ?_, hsw, by omega, ht1⟩
      simp only [waitCO2, hover, if_neg hne]
    · have hlt : q.ticks < c0 := by omega
      have ht0 : (ISR^[q.ticks] u).g_timers 0 = Timer.mk true (c0 - q.ticks) false v0 := by
        rw [ISR_iterate_timers, hu0, tickTimer_iterate_lt q.ticks c0 v0 hc0 hlt]
      have hnover : ((ISR^[q.ticks] u).g_timers 0).Over = false := by rw [ht0]
      by_cases h9 : q.available = 9
      · simp only [waitCO2, hnover, h9, if_true]
        refine ⟨_, q.ticks, rfl, ?_, by omega, ?_⟩
        · rw [setColorLevel_serialWrites]
          simpa [State.setStart, State.setTimer] using hsw
        · rw [setColorLevel_timers]
          simpa [State.setStart, State.setTimer, Function.update] using ht1
      · have hend1 : (∃ r ∈ qs, r.available = 9) ∨ c0 - q.ticks ≤ pollTicks qs := by
          rcases hend with ⟨r, hr, hr9⟩ | hz
          · rcases List.mem_cons.mp hr with hrq | hrqs
            · rw [hrq] at hr9; exact absurd hr9 h9
            · exact Or.inl ⟨r, hrqs, hr9⟩
          · rw [pollTicks_cons] at hz
            exact Or.inr (by omega)
        obtain ⟨t, k, e1, e2, e3, e4⟩ := ih (ISR^[q.ticks] u) (c0 - q.ticks) (c1 - q.ticks)
          ht0 ht1 (by omega) (by omega)
          (fun r hr => by have := hticks r (List.mem_cons_of_mem q hr); omega) hend1
        refine ⟨t, q.ticks + k, ?_, by rw [e2, hsw], by omega, ?_⟩
        · simp only [waitCO2, hnover, h9, if_true, if_false]
          exact e1
        · rw [e4]
          congr 1
          omega

/-- Whatever the polls, a wait that returns has written nothing to the serial
link and has ticked timer 1 some number of times, at most the ticks of the
polls. -/
theorem waitCO2_ticks_timer1 (polls : List Poll) (u t : State)
    (e : waitCO2 polls u = some t) :
    t.serialWrites = u.serialWrites ∧
    ∃ k, k ≤ pollTicks polls ∧ t.g_timers 1 = tickTimer^[k] (u.g_timers 1) := by
  induction polls generalizing u with
  | nil => simp [waitCO2] at e
  | cons q qs ih =>
    have hsw : (ISR^[q.ticks] u).serialWrites = u.serialWrites := by
      rw [ISR_iterate_eq]
    have ht1 := ISR_iterate_timers q.ticks u 1
    simp only [waitCO2] at e
    split_ifs at e with h0 h9
    · simp only [Option.some.injEq] at e
      rw [← e, setColorLevel_serialWrites, setColorLevel_timers]
      refine ⟨by simpa [State.setStart, State.setTimer] using hsw, q.ticks, ?_, ?_⟩
      · rw [pollTicks_cons]; omega
      · simpa [State.setStart, State.setTimer, Function.update] using ht1
    · obtain ⟨f1, k, f2, f3⟩ := ih _ e
      refine ⟨by rw [f1, hsw], q.ticks + k, ?_, ?_⟩
      · rw [pollTicks_cons]; omega
      · rw [f3, ht1, Nat.add_comm, Function.iterate_add_apply]
    · simp only [Option.some.injEq] at e
      rw [← e]
      refine ⟨hsw, q.ticks, ?_, ht1⟩
      rw [pollTicks_cons]; omega

/-- C20: a `getCO2` call made with timer 1 not over returns the state
unchanged.  A call made with timer 1 over that returns has written the request
frame FF 01 86 00 00 00 00 00 79 exactly once and leaves timer 1 as restarted
from its initial value and ticked by the interrupts of the wait, whether the
wait ended with a reply or with the timeout.  Such a call does return when a
poll sees nine bytes or enough ticks pass for the timeout, and timer 1 is then
started, not over, with its count equal to the initial value minus the ticks
of the wait, provided no poll is preceded by more ticks than timer 1 outlasts
timer 0 (the wait loop polls faster than that). -/
theorem getCO2_request (s : State) (polls : List Poll) :
    ((s.g_timers 1).Over = false → getCO2 polls s = some s) ∧
    ((s.g_timers 1).Over = true → ∀ t, getCO2 polls s = some t →
      t.serialWrites =
        s.serialWrites ++ [[0xFF, 0x01, 0x86, 0x00, 0x00, 0x00, 0x00, 0x00, 0x79]] ∧
      ∃ k, k ≤ pollTicks polls ∧
        t.g_timers 1 = tickTimer^[k]
          (Timer.mk true (s.g_timers 1).InitialValue false (s.g_timers 1).InitialValue)) ∧
    ((s.g_timers 1).Over = true → 1 ≤ (s.g_timers 0).InitialValue →
      (s.g_timers 1).InitialValue ≤ 255 →
      (∀ q ∈ polls, q.ticks + (s.g_timers 0).InitialValue ≤ (s.g_timers 1).InitialValue) →
      ((∃ q ∈ polls, q.available = 9) ∨ (s.g_timers 0).InitialValue ≤ pollTicks polls) →
      ∃ t k, getCO2 polls s = some t ∧
        t.serialWrites =
          s.serialWrites ++ [[0xFF, 0x01, 0x86, 0x00, 0x00, 0x00, 0x00, 0x00, 0x79]] ∧
        (t.g_timers 1).Start = true ∧ (t.g_timers 1).Over = false ∧
        k < (s.g_timers 1).InitialValue ∧
        (t.g_timers 1).Count = (s.g_timers 1).InitialValue - k ∧
        (t.g_timers 1).InitialValue = (s.g_timers 1).InitialValue) := by
  refine ⟨?_, ?_, ?_⟩
  · intro h
    rw [getCO2_eq, if_neg (by simp [h])]
  · intro h1 t e
    rw [getCO2_eq, if_pos h1, Option.bind_eq_some] at e
    obtain ⟨w, hw, e4⟩ := e
    obtain ⟨f1, k, f2, f3⟩ := waitCO2_ticks_timer1 polls _ _ hw
    rw [(getCO2_request_timers s).2] at f3
    have hsw : w.serialWrites =
        s.serialWrites ++ [[0xFF, 0x01, 0x86, 0x00, 0x00, 0x00, 0x00, 0x00, 0x79]] := by
      rw [f1, getCO2_request_state]
      rfl
    split_ifs at e4
    · simp only [Option.some.injEq] at e4
      rw [← e4]
      refine ⟨by simpa [setErrorCode, State.onStrip] using hsw, k, f2, ?_⟩
      simpa [setErrorCode, State.onStrip] using f3
    · simp only [Option.some.injEq] at e4
      rw [← e4]
      exact ⟨hsw, k, f2, f3⟩
  · intro h1 hI0 hI1 hticks hend
    obtain ⟨w, k, e1, e2, e3, e4⟩ := waitCO2_returns polls _ _ _ _ _
      (getCO2_request_timers s).1 (getCO2_request_timers s).2 hI0 hI1 hticks hend
    have hsw : w.serialWrites =
        s.serialWrites ++ [[0xFF, 0x01, 0x86, 0x00, 0x00, 0x00, 0x00, 0x00, 0x79]] := by
      rw [e2, getCO2_request_state]
      rfl
    rw [getCO2_eq, if_pos h1, e1, Option.some_bind]
    by_cases hover : (w.g_timers 0).Over = true
    · rw [if_pos hover]
      refine ⟨_, k, rfl, ?_, ?_, ?_, e3, ?_, ?_⟩
      · simpa [setErrorCode, State.onStrip] using hsw
      · simp [setErrorCode, State.onStrip, e4]
      · simp [setErrorCode, State.onStrip, e4]
      · simp [setErrorCode, State.onStrip, e4]
      · simp [setErrorCode, State.onStrip, e4]
    · rw [if_neg hover]
      refine ⟨w, k, rfl, hsw, ?_, ?_, e3, ?_, ?_⟩
      · rw [e4]
      · rw [e4]
      · rw [e4]
      · rw [e4]

theorem getCO2_request_witness :
    getCO2 [{ ticks := 1, available := 9, frame := [1, 2, 3, 4, 5, 6, 7, 8, 9] }] bootState =
      some bootState ∧
    (∃ t k, getCO2 [{ ticks := 1, available := 0, frame := [] },
          { ticks := 1, available := 9, frame := [1, 2, 3, 4, 5, 6, 7, 8, 9] }]
        darkPollState = some t ∧
      t.serialWrites = darkPollState.serialWrites ++
        [[0xFF, 0x01, 0x86, 0x00, 0x00, 0x00, 0x00, 0x00, 0x79]] ∧
      (t.g_timers 1).Start = true ∧ (t.g_timers 1).Over = false ∧
      k < (darkPollState.g_timers 1).InitialValue ∧
      (t.g_timers 1).Count = (darkPollState.g_timers 1).InitialValue - k ∧
      (t.g_timers 1).InitialValue = (darkPollState.g_timers 1).InitialValue) ∧
    (∃ t k, getCO2 [{ ticks := 1, available := 0, frame := [] },
          { ticks := 1, available := 0, frame := [] }, { ticks := 1, available := 0, frame := [] },
          { ticks := 1, available := 0, frame := [] }]
        darkPollState = some t ∧
      t.serialWrites = darkPollState.serialWrites ++
        [[0xFF, 0x01, 0x86, 0x00, 0x00, 0x00, 0x00, 0x00, 0x79]] ∧
      (t.g_timers 1).Start = true ∧ (t.g_timers 1).Over = false ∧
      k < (darkPollState.g_timers 1).InitialValue ∧
      (t.g_timers 1).Count = (darkPollState.g_timers 1).InitialValue - k ∧
      (t.g_timers 1).InitialValue = (darkPollState.g_timers 1).InitialValue) :=
  ⟨(getCO2_request bootState
      [{ ticks := 1, available := 9, frame := [1, 2, 3, 4, 5, 6, 7, 8, 9] }]).1 (by decide),
   (getCO2_request darkPollState [{ ticks := 1, available := 0, frame := [] },
      { ticks := 1, available := 9, frame := [1, 2, 3, 4, 5, 6, 7, 8, 9] }]).2.2
      (by decide) (by decide) (by decide) (by decide) (by decide),
   (getCO2_request darkPollState [{ ticks := 1, available := 0, frame := [] },
      { ticks := 1, available := 0, frame := [] }, { ticks := 1, available := 0, frame := [] },
      { ticks := 1, available := 0, frame := [] }]).2.2
      (by decide) (by decide) (by decide) (by decide) (by decide)⟩

/-! ## C16: a tick in the loop body of getCO2 -/

theorem waitCO2Interrupted_zero (polls : List Poll) (s : State) :
    waitCO2Interrupted 0 polls s = waitCO2 polls s := by
  induction polls generalizing s with
  | nil => rfl
  | cons p ps ih =>
    simp only [waitCO2Interrupted, waitCO2, ih, Function.iterate_zero, id_eq]

/-- With no tick in the loop body `getCO2Interrupted` is `getCO2`. -/
theorem getCO2Interrupted_zero (polls : List Poll) (s : State) :
    getCO2Interrupted 0 polls s = getCO2 polls s := by
  have e : waitCO2Interrupted 0 = waitCO2 :=
    funext (fun polls => funext (fun s => waitCO2Interrupted_zero polls s))
  unfold getCO2Interrupted getCO2
  rw [e]

/-- The wait `waitCO2Interrupted` ends with a reply: no poll before `p` sees
nine bytes, `p` does, and timer 0 is still running when the loop condition is
evaluated for `p`. -/
theorem waitCO2Interrupted_reply (b : Nat) (pre : List Poll) (p : Poll) (rest : List Poll)
    (u : State) (c v : Nat) (hu : u.g_timers 0 = Timer.mk true c false v) (hc : c ≤ 255)
    (hpre : ∀ q ∈ pre, q.available ≠ 9) (h9 : p.available = 9)
    (hticks : pollTicks pre + p.ticks < c) :
    waitCO2Interrupted b (pre ++ p :: rest) u =
      some (setColorLevel
        (toInt16 (toUInt16 (toByte (p.frame.getD 2 0) * 256 + toByte (p.frame.getD 3 0))))
        ((ISR^[b] ({ ISR^[pollTicks pre + p.ticks] u with
            g_co2Level :=
              toUInt16 (toByte (p.frame.getD 2 0) * 256 + toByte (p.frame.getD 3 0)) }
          : State)).setStart 0 false)) := by
  induction pre generalizing u c with
  | nil =>
    simp only [pollTicks_nil, Nat.zero_add] at hticks ⊢
    have h0 : ((ISR^[p.ticks] u).g_timers 0).Over = false := by
      rw [ISR_iterate_timers, hu, tickTimer_iterate_lt p.ticks c v hc hticks]
    simp only [List.nil_append, waitCO2Interrupted, h0, h9, if_true]
    have e : (((ISR^[b] ({ ISR^[p.ticks] u with
        g_co2Level :=
          toUInt16 (toByte (p.frame.getD 2 0) * 256 + toByte (p.frame.getD 3 0)) }
        : State)).setStart 0 false).g_co2Level) =
        toUInt16 (toByte (p.frame.getD 2 0) * 256 + toByte (p.frame.getD 3 0)) := by
      rw [ISR_iterate_eq]
      rfl
    rw [e]
  | cons q qs ih =>
    rw [pollTicks_cons] at hticks
    have hq : q.available ≠ 9 := hpre q (List.mem_cons_self q qs)
    have hlt : q.ticks < c := by omega
    have hu1 : (ISR^[q.ticks] u).g_timers 0 = Timer.mk true (c - q.ticks) false v := by
      rw [ISR_iterate_timers, hu, tickTimer_iterate_lt q.ticks c v hc hlt]
    have h0 : ((ISR^[q.ticks] u).g_timers 0).Over = false := by rw [hu1]
    have hrec := ih (ISR^[q.ticks] u) (c - q.ticks) hu1 (by omega)
      (fun r hr => hpre r (List.mem_cons_of_mem q hr)) (by omega)
    rw [ISR_iterate_add] at hrec
    simp only [List.cons_append, waitCO2Interrupted, h0, hq, if_true, if_false]
    refine hrec.trans ?_
    rw [pollTicks_cons, Nat.add_assoc]

theorem getCO2Interrupted_eq (b : Nat) (polls : List Poll) (s : State) :
    getCO2Interrupted b polls s =
      if (s.g_timers 1).Over = true then
        (waitCO2Interrupted b polls (startTimer 0 { startTimer 1 s with
            serialWrites := (startTimer 1 s).serialWrites ++ [INIT_CO2.take INIT_CO2_LENGTH] })).bind
          (fun s4 => if (s4.g_timers 0).Over = true then
              some { setErrorCode ERROR_TIMEOUT_CO2 s4 with g_co2Level := 0 }
            else some s4)
      else some s := by
  unfold getCO2Interrupted
  split_ifs
  · simp only []
    cases waitCO2Interrupted b polls (startTimer 0 { startTimer 1 s with
        serialWrites := (startTimer 1 s).serialWrites ++ [INIT_CO2.take INIT_CO2_LENGTH] }) <;> rfl
  · rfl

theorem reply_state_timer0 (a : Int) (w : State) :
    (setColorLevel a (w.setStart 0 false)).g_timers 0 =
      Timer.mk false (w.g_timers 0).Count (w.g_timers 0).Over (w.g_timers 0).InitialValue := by
  rw [setColorLevel_timers]
  simp [State.setStart, State.setTimer]

theorem reply_state_strip (a : Int) (w : State) :
    (setColorLevel a (w.setStart 0 false)).strip = w.strip := by
  rw [setColorLevel_strip]
  rfl

theorem reply_state_co2Level (a : Int) (w : State) :
    (setColorLevel a (w.setStart 0 false)).g_co2Level = w.g_co2Level := by
  rw [setColorLevel_co2Level]
  rfl

/-- The state of `waitCO2Interrupted` in which the reply is decoded: after the
ticks before the poll and the ticks in the loop body. -/
theorem waitCO2Interrupted_reply_state (b : Nat) (s : State) (pre : List Poll) (p : Poll)
    (rest : List Poll) (hI : (s.g_timers 0).InitialValue ≤ 255)
    (hpre : ∀ q ∈ pre, q.available ≠ 9) (h9 : p.available = 9)
    (hticks : pollTicks pre + p.ticks < (s.g_timers 0).InitialValue) :
    ∃ w : State,
      waitCO2Interrupted b (pre ++ p :: rest) (startTimer 0 { startTimer 1 s with
          serialWrites := (startTimer 1 s).serialWrites ++ [INIT_CO2.take INIT_CO2_LENGTH] }) =
        some (setColorLevel
          (toInt16 (toUInt16 (toByte (p.frame.getD 2 0) * 256 + toByte (p.frame.getD 3 0))))
          (w.setStart 0 false)) ∧
      w.g_timers 0 = tickTimer^[b] (Timer.mk true
        ((s.g_timers 0).InitialValue - (pollTicks pre + p.ticks)) false
        (s.g_timers 0).InitialValue) ∧
      w.strip = s.strip ∧
      w.g_co2Level = toByte (p.frame.getD 2 0) * 256 + toByte (p.frame.getD 3 0) := by
  have hlvl : toUInt16 (toByte (p.frame.getD 2 0) * 256 + toByte (p.frame.getD 3 0)) =
      toByte (p.frame.getD 2 0) * 256 + toByte (p.frame.getD 3 0) := by
    unfold toUInt16 toByte; omega
  refine ⟨_, waitCO2Interrupted_reply b pre p rest _ _ _ (getCO2_request_timers s).1 hI hpre h9
    hticks, ?_, ?_, ?_⟩
  · rw [ISR_iterate_timers]
    show tickTimer^[b] ((ISR^[pollTicks pre + p.ticks] _).g_timers 0) = _
    rw [ISR_iterate_timers, (getCO2_request_timers s).1,
      tickTimer_iterate_lt _ _ _ hI hticks]
  · rw [ISR_iterate_eq, ISR_iterate_eq, getCO2_request_state]
  · rw [ISR_iterate_eq]
    exact hlvl

/-- A reply in `getCO2Interrupted`: the first poll with nine bytes is
made while timer 0 is running, and `b` ticks fire in the loop body before
timer 0 is stopped.  When timer 0 outlasts these ticks, the reading is
`bytes[2] * 256 + bytes[3]`, timer 0 is stopped and not over and the strip is
untouched.  When timer 0 expires during these ticks, the frame is read all the
same, but the call ends with timer 0 over, the reading reset to 0 and the
error code `ERROR_TIMEOUT_CO2` drawn on the strip. -/
theorem getCO2Interrupted_reply (b : Nat) (s : State) (pre : List Poll) (p : Poll)
    (rest : List Poll) (h1 : (s.g_timers 1).Over = true)
    (hI : (s.g_timers 0).InitialValue ≤ 255)
    (hpre : ∀ q ∈ pre, q.available ≠ 9) (h9 : p.available = 9)
    (hticks : pollTicks pre + p.ticks < (s.g_timers 0).InitialValue) :
    (pollTicks pre + p.ticks + b < (s.g_timers 0).InitialValue →
      ∃ t, getCO2Interrupted b (pre ++ p :: rest) s = some t ∧
        t.g_co2Level = toByte (p.frame.getD 2 0) * 256 + toByte (p.frame.getD 3 0) ∧
        (t.g_timers 0).Start = false ∧ (t.g_timers 0).Over = false ∧
        t.strip = s.strip) ∧
    ((s.g_timers 0).InitialValue ≤ pollTicks pre + p.ticks + b →
      ∃ t, getCO2Interrupted b (pre ++ p :: rest) s = some t ∧
        t.g_co2Level = 0 ∧
        (t.g_timers 0).Start = false ∧ (t.g_timers 0).Over = true ∧
        t.strip = setErrorCodeStrip ERROR_TIMEOUT_CO2 s.strip) := by
  obtain ⟨w, hw, ht0, hstrip, hco2⟩ := waitCO2Interrupted_reply_state b s pre p rest hI hpre h9
    hticks
  constructor
  · intro hb
    rw [tickTimer_iterate_lt _ _ _ (by omega) (by omega)] at ht0
    have hov : ¬ ((setColorLevel
        (toInt16 (toUInt16 (toByte (p.frame.getD 2 0) * 256 + toByte (p.frame.getD 3 0))))
        (w.setStart 0 false)).g_timers 0).Over = true := by
      rw [reply_state_timer0, ht0]
      simp
    rw [getCO2Interrupted_eq, if_pos h1, hw, Option.some_bind, if_neg hov]
    refine ⟨_, rfl, ?_, ?_, ?_, ?_⟩
    · rw [reply_state_co2Level, hco2]
    · rw [reply_state_timer0]
    · rw [reply_state_timer0, ht0]
    · rw [reply_state_strip, hstrip]
  · intro hb
    rw [tickTimer_iterate_ge _ _ _ (by omega) (by omega) (by omega)] at ht0
    have hov : ((setColorLevel
        (toInt16 (toUInt16 (toByte (p.frame.getD 2 0) * 256 + toByte (p.frame.getD 3 0))))
        (w.setStart 0 false)).g_timers 0).Over = true := by
      rw [reply_state_timer0, ht0]
    rw [getCO2Interrupted_eq, if_pos h1, hw, Option.some_bind, if_pos hov]
    have e1 : ∀ x : State,
        ({ setErrorCode ERROR_TIMEOUT_CO2 x with g_co2Level := 0 } : State).g_timers =
          x.g_timers := by
      intro x
      simp only [setErrorCode, State.onStrip]
    have e2 : ∀ x : State,
        ({ setErrorCode ERROR_TIMEOUT_CO2 x with g_co2Level := 0 } : State).strip =
          setErrorCodeStrip ERROR_TIMEOUT_CO2 x.strip := by
      intro x
      simp only [setErrorCode, State.onStrip]
    refine ⟨_, rfl, rfl, ?_, ?_, ?_⟩
    · rw [e1, reply_state_timer0]
    · rw [e1]
      exact hov
    · rw [e2, reply_state_strip, hstrip]

/-- C16: a reply that was read in time is lost when a tick lands in the loop
body of `getCO2`.  With ticks inside the loop body, let the first poll with
nine bytes be made while timer 0 is running and let `b` ticks fire before
`g_timers[0].Start = false`.  As long as timer 0 outlasts these ticks the
call stores `bytes[2] * 256 + bytes[3]`, leaves timer 0 stopped and not over
and draws no error.  When timer 0 expires during these ticks the frame is
read all the same, but the call ends with timer 0 over, the reading reset to 0
and the error code `ERROR_TIMEOUT_CO2` drawn on the strip. -/
theorem reply_lost_to_tick_in_loop_body (b : Nat) (s : State) (pre : List Poll) (p : Poll)
    (rest : List Poll) (h1 : (s.g_timers 1).Over = true)
    (hI : (s.g_timers 0).InitialValue ≤ 255)
    (hpre : ∀ q ∈ pre, q.available ≠ 9) (h9 : p.available = 9)
    (hticks : pollTicks pre + p.ticks < (s.g_timers 0).InitialValue) :
    (pollTicks pre + p.ticks + b < (s.g_timers 0).InitialValue →
      ∃ t, getCO2Interrupted b (pre ++ p :: rest) s = some t ∧
        t.g_co2Level = toByte (p.frame.getD 2 0) * 256 + toByte (p.frame.getD 3 0) ∧
        (t.g_timers 0).Start = false ∧ (t.g_timers 0).Over = false ∧
        t.strip = s.strip) ∧
    ((s.g_timers 0).InitialValue ≤ pollTicks pre + p.ticks + b →
      ∃ t, getCO2Interrupted b (pre ++ p :: rest) s = some t ∧
        t.g_co2Level = 0 ∧
        (t.g_timers 0).Start = false ∧ (t.g_timers 0).Over = true ∧
        t.strip = setErrorCodeStrip ERROR_TIMEOUT_CO2 s.strip) ∧
    getCO2Interrupted 0 (pre ++ p :: rest) s = getCO2 (pre ++ p :: rest) s :=
  ⟨(getCO2Interrupted_reply b s pre p rest h1 hI hpre h9 hticks).1,
   (getCO2Interrupted_reply b s pre p rest h1 hI hpre h9 hticks).2,
   getCO2Interrupted_zero _ s⟩

theorem reply_lost_to_tick_in_loop_body_witness :
    (∃ t, getCO2Interrupted 1 ([] ++ replyPoll :: []) darkPollState = some t ∧
      t.g_co2Level = 0 ∧
      (t.g_timers 0).Start = false ∧ (t.g_timers 0).Over = true ∧
      t.strip = setErrorCodeStrip ERROR_TIMEOUT_CO2 darkPollState.strip) ∧
    (darkPollState.g_timers 0).InitialValue = 4 ∧ replyPoll.ticks = 3 ∧
    (getCO2Interrupted 0 [replyPoll] darkPollState).map
      (fun t => [t.g_co2Level, t.strip.shown.getD 24 0, t.strip.shown.getD 25 0,
        t.strip.shown.getD 60 0]) = some [400, 0, 0, 0] ∧
    (getCO2Interrupted 1 [replyPoll] darkPollState).map
      (fun t => [t.g_co2Level, t.strip.shown.getD 24 0, t.strip.shown.getD 25 0,
        t.strip.shown.getD 60 0]) = some [0, COLOUR_BLUE, COLOUR_BLUE, COLOUR_RED] ∧
    (getCO2Interrupted 0 [replyPoll] darkPollState).map
      (fun t => ((t.g_timers 0).Start, (t.g_timers 0).Over)) = some (false, false) ∧
    (getCO2Interrupted 1 [replyPoll] darkPollState).map
      (fun t => ((t.g_timers 0).Start, (t.g_timers 0).Over)) = some (false, true) :=
  ⟨(reply_lost_to_tick_in_loop_body 1 darkPollState [] replyPoll [] (by decide) (by decide)
      (by decide) (by decide) (by decide)).2.1 (by decide), by decide⟩

/-! ## C17: the colour bands below 2048 ppm -/

theorem channels_pack (r g b : Nat) (hr : r ≤ 255) (hg : g ≤ 255) (hb : b ≤ 255) :
    channels (r * 65536 + g * 256 + b) = (r, g, b) := by
  unfold channels
  refine Prod.ext ?_ (Prod.ext ?_ ?_)
  · show (r * 65536 + g * 256 + b) / 65536 % 256 = r
    omega
  · show (r * 65536 + g * 256 + b) / 256 % 256 = g
    omega
  · show (r * 65536 + g * 256 + b) % 256 = b
    omega

/-- The colour word and the rendering flag after `setColorLevel` for levels
below 2048. -/
theorem setColorLevel_below_2048 (s : State) (ppm : Nat) (h : ppm < 2048) :
    (setColorLevel (ppm : Int) s).g_ringColour =
      (if ppm < 256 then 0 * 65536 + ppm * 256 + (255 - ppm)
       else if ppm < 1024 then ppm / 4 * 65536 + 255 * 256 + 0
       else 255 * 65536 + (128 - ppm / 16) * 256 + 0) ∧
    (setColorLevel (ppm : Int) s).g_showDisplay =
      (if ppm < 1024 then s.g_showDisplay else true) := by
  have hd4 : Int.tdiv (ppm : Int) 4 = ((ppm / 4 : Nat) : Int) := by
    rw [Int.tdiv_eq_ediv (by omega) (by omega)]; omega
  have hd16 : Int.tdiv (ppm : Int) 16 = ((ppm / 16 : Nat) : Int) := by
    rw [Int.tdiv_eq_ediv (by omega) (by omega)]; omega
  by_cases h1 : ppm < 256
  · have c1 : (ppm : Int) < 256 := by omega
    have b1 : intToByte (255 - (ppm : Int)) = 255 - ppm := by unfold intToByte; omega
    have b2 : intToByte (ppm : Int) = ppm := by unfold intToByte; omega
    have b3 : toByte ppm = ppm := by unfold toByte; omega
    have b4 : toByte (255 - ppm) = 255 - ppm := by unfold toByte; omega
    have b5 : toByte 0 = 0 := rfl
    have h2 : ppm < 1024 := by omega
    simp only [setColorLevel, if_pos c1, if_pos h1, if_pos h2, Color, b1, b2, b3, b4, b5]
    simp
  · by_cases h2 : ppm < 1024
    · have c1 : ¬ (ppm : Int) < 256 := by omega
      have c2 : (ppm : Int) < 1024 := by omega
      have b1 : intToByte ((ppm / 4 : Nat) : Int) = ppm / 4 := by unfold intToByte; omega
      have b3 : toByte (ppm / 4) = ppm / 4 := by unfold toByte; omega
      have b4 : toByte 255 = 255 := rfl
      have b5 : toByte 0 = 0 := rfl
      simp only [setColorLevel, if_neg c1, if_pos c2, if_neg h1, if_pos h2, Color, hd4, b1, b3,
        b4, b5]
      simp
    · have c1 : ¬ (ppm : Int) < 256 := by omega
      have c2 : ¬ (ppm : Int) < 1024 := by omega
      have c3 : (ppm : Int) < 2048 := by omega
      have b1 : intToByte (128 - ((ppm / 16 : Nat) : Int)) = 128 - ppm / 16 := by
        unfold intToByte; omega
      have b3 : toByte (128 - ppm / 16) = 128 - ppm / 16 := by unfold toByte; omega
      have b4 : toByte 255 = 255 := rfl
      have b5 : toByte 0 = 0 := rfl
      simp only [setColorLevel, if_neg c1, if_neg c2, if_pos c3, if_neg h1, if_neg h2, Color,
        hd16, b1, b3, b4, b5]
      simp

/-- C17: for every level below 2048 the colour set by `setColorLevel` has the
channels (red, green, blue) = (0, ppm, 255 - ppm) below 256, (ppm / 4, 255, 0)
from 256 to 1023 and (255, 128 - ppm / 16, 0) from 1024 to 2047; the channel
values are in 0..255 as computed, so nothing is cut off by the byte type; below
1024 the rendering flag is left as it is.  A level below 2048 reaches
`setColorLevel` unchanged by the conversion to `int`. -/
theorem colour_bands (s : State) (ppm : Nat) (h : ppm < 2048) :
    toInt16 (ppm : Int) = (ppm : Int) ∧
    (ppm < 256 →
      channels (setColorLevel (ppm : Int) s).g_ringColour = (0, ppm, 255 - ppm) ∧
      (setColorLevel (ppm : Int) s).g_showDisplay = s.g_showDisplay) ∧
    (256 ≤ ppm → ppm < 1024 →
      channels (setColorLevel (ppm : Int) s).g_ringColour = (ppm / 4, 255, 0) ∧
      ppm / 4 ≤ 255 ∧
      (setColorLevel (ppm : Int) s).g_showDisplay = s.g_showDisplay) ∧
    (1024 ≤ ppm →
      channels (setColorLevel (ppm : Int) s).g_ringColour = (255, 128 - ppm / 16, 0) ∧
      ppm / 16 ≤ 128 ∧ 128 - ppm / 16 ≤ 255) := by
  obtain ⟨e1, e2⟩ := setColorLevel_below_2048 s ppm h
  refine ⟨by unfold toInt16; omega, ?_, ?_, ?_⟩
  · intro h1
    rw [e1, e2, if_pos h1, if_pos (by omega)]
    exact ⟨channels_pack 0 ppm (255 - ppm) (by omega) (by omega) (by omega), rfl⟩
  · intro h1 h2
    rw [e1, e2, if_neg (by omega), if_pos h2, if_pos h2]
    exact ⟨channels_pack (ppm / 4) 255 0 (by omega) (by omega) (by omega), by omega, rfl⟩
  · intro h1
    rw [e1, if_neg (by omega), if_neg (by omega)]
    exact ⟨channels_pack 255 (128 - ppm / 16) 0 (by omega) (by omega) (by omega), by omega,
      by omega⟩

theorem colour_bands_witness :
    (channels (setColorLevel ((255 : Nat) : Int) bootState).g_ringColour = (0, 255, 255 - 255) ∧
      (setColorLevel ((255 : Nat) : Int) bootState).g_showDisplay = bootState.g_showDisplay) ∧
    (channels (setColorLevel ((256 : Nat) : Int) bootState).g_ringColour = (256 / 4, 255, 0) ∧
      256 / 4 ≤ 255 ∧
      (setColorLevel ((256 : Nat) : Int) bootState).g_showDisplay = bootState.g_showDisplay) ∧
    (channels (setColorLevel ((1024 : Nat) : Int) bootState).g_ringColour =
        (255, 128 - 1024 / 16, 0) ∧
      1024 / 16 ≤ 128 ∧ 128 - 1024 / 16 ≤ 255) :=
  ⟨(colour_bands bootState 255 (by decide)).2.1 (by decide),
   (colour_bands bootState 256 (by decide)).2.2.1 (by decide) (by decide),
   (colour_bands bootState 1024 (by decide)).2.2.2 (by decide)⟩

/-! ## C18: high readings -/

/-- For readings from 1024 up to 32767 the rendering flag is forced on, and
from 2048 on the colour is pure red. -/
theorem setColorLevel_high (s : State) (ppm : Nat) (h1 : 1024 ≤ ppm) (h2 : ppm ≤ 32767) :
    (setColorLevel (toInt16 (ppm : Int)) s).g_showDisplay = true ∧
    (2048 ≤ ppm →
      channels (setColorLevel (toInt16 (ppm : Int)) s).g_ringColour = (255, 0, 0)) := by
  have e : toInt16 (ppm : Int) = (ppm : Int) := by unfold toInt16; omega
  have c1 : ¬ (ppm : Int) < 256 := by omega
  have c2 : ¬ (ppm : Int) < 1024 := by omega
  rw [e]
  constructor
  · by_cases c3 : (ppm : Int) < 2048
    · simp only [setColorLevel, if_neg c1, if_neg c2, if_pos c3]
    · simp only [setColorLevel, if_neg c1, if_neg c2, if_neg c3]
  · intro h3
    have c3 : ¬ (ppm : Int) < 2048 := by omega
    simp only [setColorLevel, if_neg c1, if_neg c2, if_neg c3]
    decide

/-- A reading from 32768 on is negative as an `int`: `setColorLevel` takes its
first branch, leaves the rendering flag as it is and sets a colour without
red. -/
theorem setColorLevel_wrapped (s : State) (ppm : Nat) (h1 : 32768 ≤ ppm) (h2 : ppm ≤ 65535) :
    toInt16 (ppm : Int) = (ppm : Int) - 65536 ∧
    (setColorLevel (toInt16 (ppm : Int)) s).g_showDisplay = s.g_showDisplay ∧
    (channels (setColorLevel (toInt16 (ppm : Int)) s).g_ringColour).1 = 0 := by
  have e : toInt16 (ppm : Int) = (ppm : Int) - 65536 := by unfold toInt16; omega
  have c1 : (ppm : Int) - 65536 < 256 := by omega
  rw [e]
  refine ⟨rfl, ?_, ?_⟩
  · simp only [setColorLevel, if_pos c1]
  · simp only [setColorLevel, if_pos c1, Color, channels]
    have b0 : toByte 0 = 0 := rfl
    have hg : toByte (intToByte ((ppm : Int) - 65536)) ≤ 255 := by unfold toByte; omega
    have hb : toByte (intToByte (255 - ((ppm : Int) - 65536))) ≤ 255 := by unfold toByte; omega
    rw [b0]
    omega

/-- C18 (the code at the failing input): with the display switched off and
the poll timer over, a reply frame with bytes 2 and 3 equal to 0x80 0x00 is
decoded to 32768 ppm; `setColorLevel` receives it as the `int` -32768, so the
rendering flag stays off and the colour is pure blue instead of pure red. -/
theorem reading_32768_not_forced :
    darkPollState.g_showDisplay = false ∧
    toInt16 (32768 : Int) = -32768 ∧
    (getCO2 [{ ticks := 0, available := 9,
               frame := [0xFF, 0x86, 0x80, 0x00, 0x00, 0x00, 0x00, 0x00, 0xFA] }]
        darkPollState).map
      (fun t => (t.g_co2Level, t.g_showDisplay, channels t.g_ringColour)) =
      some (32768, false, (0, 0, 255)) := by
  decide

/-! ## The key table (C21) -/

theorem decodeKey_in_table : ∀ r, r < 256 →
    (∀ p ∈ keyTable, (decodeKey r = p.2 ↔ r = p.1)) ∧
    ((∀ p ∈ keyTable, r ≠ p.1) → decodeKey r = NO_CMD) := by
  decide

theorem toByte_lt (n : Nat) : toByte n < 256 := Nat.mod_lt _ (by decide)

theorem isRepeat_iff (d : IRData) : isRepeat d = true ↔ d.flags % 4 ≠ 0 := by
  have h : d.flags &&& 3 = d.flags % 4 := Nat.and_pow_two_sub_one_eq_mod d.flags 2
  simp only [isRepeat, IRDATA_FLAGS_IS_AUTO_REPEAT, IRDATA_FLAGS_IS_REPEAT]
  have h3 : (2 ||| 1 : Nat) = 3 := by decide
  rw [h3, h]
  simp

/-- C21: the translation of a frame depends on the frame alone.  A frame with
a repeat or auto-repeat flag (bit 0 or bit 1 of the flags) gives NO_CMD.  For a
frame without these flags, each command of the key table is returned exactly
for its raw code (the 8 bit value `receivedIR`), every raw code outside the
table gives NO_CMD, and the commands of the table are the 17 codes 0..16. -/
theorem key_translation (d : IRData) (s : State) :
    (d.flags % 4 ≠ 0 → (receiveIR (some d) s).1 = NO_CMD) ∧
    (d.flags % 4 = 0 →
      (∀ p ∈ keyTable, ((receiveIR (some d) s).1 = p.2 ↔ toByte d.command = p.1)) ∧
      ((∀ p ∈ keyTable, toByte d.command ≠ p.1) → (receiveIR (some d) s).1 = NO_CMD)) ∧
    keyTable.map Prod.snd = List.range 17 ∧ (keyTable.map Prod.fst).Nodup := by
  refine ⟨fun h => receiveIR_of_repeat d s ((isRepeat_iff d).2 h), fun h => ?_, by decide, by decide⟩
  have hrep : isRepeat d = false := by
    cases hr : isRepeat d
    · rfl
    · exact absurd h ((isRepeat_iff d).1 hr)
  rw [receiveIR_of_press d s hrep]
  exact decodeKey_in_table (toByte d.command) (toByte_lt _)

theorem key_translation_witness :
    ((receiveIR (some (pressFrame 0x1C)) bootState).1 = KEY_OK ↔ toByte (pressFrame 0x1C).command = 0x1C) ∧
    (receiveIR (some okRepeatFrame) bootState).1 = NO_CMD :=
  ⟨((key_translation (pressFrame 0x1C) bootState).2.1 (by decide)).1 (0x1C, KEY_OK) (by decide),
   (key_translation okRepeatFrame bootState).1 (by decide)⟩

/-! ## Atomicity of startTimer (C24) -/

theorem startTimer_as_writes (i : Fin 4) (s : State) :
    runWrites (startTimerWrites i) s = startTimer i s := rfl

theorem tickTimer_initialValue (t : Timer) : (tickTimer t).InitialValue = t.InitialValue := by
  unfold tickTimer
  split_ifs <;> rfl

theorem tickTimer_mk_stopped (c : Nat) (o : Bool) (v : Nat) :
    tickTimer (Timer.mk false c o v) = Timer.mk false c o v := by
  simp [tickTimer]

theorem startTimerInterrupted_eq (k : Nat) (hk : k ≤ 3) (i : Fin 4) (s : State) :
    startTimerInterrupted k i s = startTimer i (ISR s) := by
  have hcases : k = 0 ∨ k = 1 ∨ k = 2 ∨ k = 3 := by omega
  rcases hcases with h | h | h | h <;> subst h
  · rfl
  all_goals
    simp only [startTimerInterrupted, startTimerWrites, runWrites, List.take, List.drop,
      List.foldl, ISR_eq, startTimer_eq, State.setStart, State.setOver, State.setCount,
      State.setTimer]
    congr 1
    funext j
    by_cases hj : j = i
    · subst hj
      simp [tickTimer_initialValue, tickTimer_mk_stopped]
    · simp [Function.update, hj]

/-- C24: one execution of the tick handler between any two of the four field
writes of `startTimer` (after `k` of them, `k` at most 3) gives the same
state as the tick followed by the whole of `startTimer`; the timer ends
started, not over, with its count at the initial value.  The four writes run
without a tick are `startTimer`, and a tick after none of the writes or after
all four is the tick before or after `startTimer`. -/
theorem startTimer_tick_between_writes (k : Nat) (i : Fin 4) (s : State) (h3 : k ≤ 3) :
    startTimerInterrupted k i s = startTimer i (ISR s) ∧
    (startTimerInterrupted k i s).g_timers i =
      Timer.mk true (s.g_timers i).InitialValue false (s.g_timers i).InitialValue ∧
    runWrites (startTimerWrites i) s = startTimer i s ∧
    startTimerInterrupted 0 i s = startTimer i (ISR s) ∧
    startTimerInterrupted 4 i s = ISR (startTimer i s) := by
  refine ⟨startTimerInterrupted_eq k h3 i s, ?_, rfl, rfl, rfl⟩
  rw [startTimerInterrupted_eq k h3 i s, startTimer_timers_same, ISR_timers, tickTimer_initialValue]

theorem startTimer_tick_between_writes_witness :
    startTimerInterrupted 2 3 (ISR^[11] cmdEntryState) = startTimer 3 (ISR (ISR^[11] cmdEntryState)) ∧
    (startTimerInterrupted 2 3 (ISR^[11] cmdEntryState)).g_timers 3 = Timer.mk true 12 false 12 ∧
    ((ISR^[11] cmdEntryState).g_timers 3) = Timer.mk true 1 false 12 :=
  ⟨(startTimer_tick_between_writes 2 3 (ISR^[11] cmdEntryState) (by decide)).1,
   (startTimer_tick_between_writes 2 3 (ISR^[11] cmdEntryState) (by decide)).2.1,
   by decide⟩

/-! ## Pixel painting and the entry display (C23) -/

theorem forLoop_zero {α : Type} (body : Nat → α → α) (init : α) : forLoop 0 body init = init := rfl

theorem forLoop_succ {α : Type} (n : Nat) (body : Nat → α → α) (init : α) :
    forLoop (n + 1) body init = body n (forLoop n body init) := by
  simp [forLoop, List.range_succ, List.foldl_append]

theorem forLoop_setPixelColor (off n c : Nat) (st : Strip) :
    forLoop n (fun i a => a.setPixelColor (i + off) c) st =
      { st with pixels := paint off n c st.pixels } := by
  induction n with
  | zero => rfl
  | succ n ih =>
    rw [forLoop_succ, ih]
    unfold paint
    rw [forLoop_succ]
    simp only [Strip.setPixelColor]
    split_ifs <;> rfl

theorem showEntryStrip_shown (e p : Nat) (st : Strip) :
    (showEntryStrip e p st).shown =
      if e > 9 then paint RING3 p COLOUR_RED darkPixels
      else paint RING2 p COLOUR_ORANGE (paint RING3 e COLOUR_ORANGE darkPixels) := by
  unfold showEntryStrip
  simp only [forLoop_setPixelColor, Strip.showPixels, Strip.clear]
  split_ifs <;> rfl

theorem paint_error_vs_entry : ∀ p, p < 10 → ∀ a, a < 10 →
    (paint RING3 p COLOUR_RED darkPixels =
        paint RING2 p COLOUR_ORANGE (paint RING3 a COLOUR_ORANGE darkPixels) ↔ p = 0 ∧ a = 0) := by
  decide

theorem showEntry_shown (e p : Nat) (s : State) :
    (showEntry e p s).strip.shown = (showEntryStrip e p s.strip).shown := rfl

theorem cmd_accepted_strip (s : State) (d : Nat) (hp : s.g_digitCount ≤ 9) (hd : d ≤ 9)
    (hacc : digitAccepted s.g_digitCount d s.g_newHour) :
    (cmdTimeCommandProcessing d s).strip = (entryState d s).strip := by
  rw [cmd_digit_eq d s hd]
  have hdc := entryState_digitCount d s
  have hh := entryState_newHour d s
  unfold digitAccepted at hacc
  rcases digitCount_cases s.g_digitCount with h | h | h | h | h | h | h | h | h | h | h
  · rw [cmdDigitSwitch_pos0 _ _ (hdc.trans h), if_neg (by omega)]
  · rw [cmdDigitSwitch_pos1 _ _ (hdc.trans h)]
  · rw [cmdDigitSwitch_pos2 _ _ (hdc.trans h), if_neg (by omega)]
  · rw [cmdDigitSwitch_pos3 _ _ (hdc.trans h)]
  · rw [cmdDigitSwitch_pos4 _ _ (hdc.trans h)]
  · rw [cmdDigitSwitch_pos5 _ _ (hdc.trans h)]
  · rw [cmdDigitSwitch_pos6 _ _ (hdc.trans h), if_neg (by omega)]
  · rw [cmdDigitSwitch_pos7 _ _ (hdc.trans h), if_neg (by rw [hh]; omega)]
  · rw [cmdDigitSwitch_pos8 _ _ (hdc.trans h), if_neg (by omega)]
  · rw [cmdDigitSwitch_pos9 _ _ (hdc.trans h)]
  · omega

theorem entryState_shown (d : Nat) (s : State) :
    (entryState d s).strip.shown = (showEntryStrip d s.g_digitCount s.strip).shown := rfl

/-- C23 (failing input): at position 0 the rejected digit 4 and the accepted
digit 0 leave the same display, the cleared one: `showEntry` lights no pixel
for the value 0 and none for the error value at position 0.  The first frame
is rejected (the digit count stays 0), the second accepted (the digit count
becomes 1). -/
theorem rejected_at_position0_same_display :
    cmdEntryState.g_runMode = CMD ∧ cmdEntryState.g_digitCount = 0 ∧
    decodeKey (toByte (pressFrame 0x44).command) = 4 ∧
    decodeKey (toByte (pressFrame 0x19).command) = 0 ∧
    ¬ digitAccepted 0 4 cmdEntryState.g_newHour ∧ digitAccepted 0 0 cmdEntryState.g_newHour ∧
    (IRcommandHandler (some (pressFrame 0x44)) cmdEntryState).g_digitCount = 0 ∧
    (IRcommandHandler (some (pressFrame 0x19)) cmdEntryState).g_digitCount = 1 ∧
    (IRcommandHandler (some (pressFrame 0x44)) cmdEntryState).strip.shown = darkPixels ∧
    (IRcommandHandler (some (pressFrame 0x19)) cmdEntryState).strip.shown = darkPixels ∧
    (IRcommandHandler (some (pressFrame 0x44)) cmdEntryState).strip.shown =
      (IRcommandHandler (some (pressFrame 0x19)) cmdEntryState).strip.shown := by
  decide

/-- C23: the reach of the defect.  A rejected digit draws `p` red pixels on
ring 3, an accepted digit `a` draws `a` orange pixels on ring 3 and `p` orange
pixels on ring 2, `p` being the position; the two displays are equal exactly
at position 0 with the accepted digit 0, where both are the cleared display. -/
theorem rejected_rendering_distinct (s t : State) (r a : Nat) (hr : r ≤ 9) (ha : a ≤ 9)
    (hp : s.g_digitCount ≤ 9) (hst : t.g_digitCount = s.g_digitCount)
    (hrej : ¬ digitAccepted s.g_digitCount r s.g_newHour)
    (hacc : digitAccepted t.g_digitCount a t.g_newHour) :
    ((cmdTimeCommandProcessing r s).strip.shown = (cmdTimeCommandProcessing a t).strip.shown ↔
      s.g_digitCount = 0 ∧ a = 0) ∧
    (cmdTimeCommandProcessing r s).strip.shown = paint RING3 s.g_digitCount COLOUR_RED darkPixels ∧
    (cmdTimeCommandProcessing a t).strip.shown =
      paint RING2 s.g_digitCount COLOUR_ORANGE (paint RING3 a COLOUR_ORANGE darkPixels) := by
  have h1 : (cmdTimeCommandProcessing r s).strip.shown =
      paint RING3 s.g_digitCount COLOUR_RED darkPixels := by
    rw [cmd_rejected_eq s r hp hr hrej, showEntry_shown, showEntryStrip_shown, if_pos (by decide)]
  have h2 : (cmdTimeCommandProcessing a t).strip.shown =
      paint RING2 s.g_digitCount COLOUR_ORANGE (paint RING3 a COLOUR_ORANGE darkPixels) := by
    rw [cmd_accepted_strip t a (hst ▸ hp) ha hacc, entryState_shown, showEntryStrip_shown,
      if_neg (by omega), hst]
  refine ⟨?_, h1, h2⟩
  rw [h1, h2]
  exact paint_error_vs_entry s.g_digitCount (by omega) a (by omega)

theorem rejected_rendering_distinct_witness :
    ((cmdTimeCommandProcessing 2 (cmdSequence [1, 2] cmdEntryState)).strip.shown =
      (cmdTimeCommandProcessing 1 (cmdSequence [1, 2] cmdEntryState)).strip.shown ↔
        (cmdSequence [1, 2] cmdEntryState).g_digitCount = 0 ∧ 1 = 0) ∧
    (cmdSequence [1, 2] cmdEntryState).g_digitCount = 2 :=
  ⟨(rejected_rendering_distinct (cmdSequence [1, 2] cmdEntryState) (cmdSequence [1, 2] cmdEntryState)
      2 1 (by decide) (by decide) (by decide) rfl (by decide) (by decide)).1, by decide⟩

/-! ## C15: HASH forces a clock refresh -/

theorem forLoop_setPixelColorWith (off n : Nat) (f : Nat → Nat) (st : Strip) :
    forLoop n (fun i a => a.setPixelColor (i + off) (f i)) st =
      { st with pixels := paintWith off n f st.pixels } := by
  induction n with
  | zero => rfl
  | succ n ih =>
    rw [forLoop_succ, ih]
    unfold paintWith
    rw [forLoop_succ]
    simp only [Strip.setPixelColor]
    split_ifs <;> rfl

theorem paintWith_length (off n : Nat) (f : Nat → Nat) (px : List Nat) :
    (paintWith off n f px).length = px.length := by
  induction n with
  | zero => rfl
  | succ n ih =>
    unfold paintWith at ih ⊢
    rw [forLoop_succ]
    split_ifs
    · rw [List.length_set, ih]
    · exact ih

theorem paintWith_getD (off n : Nat) (f : Nat → Nat) (px : List Nat) (j : Nat)
    (hl : px.length = NUM_PIXELS) :
    (paintWith off n f px).getD j 0 =
      if off ≤ j ∧ j < off + n ∧ j < NUM_PIXELS then f (j - off) else px.getD j 0 := by
  induction n with
  | zero =>
    have : ¬ (off ≤ j ∧ j < off + 0 ∧ j < NUM_PIXELS) := by omega
    rw [if_neg this]
    rfl
  | succ n ih =>
    have hlen := paintWith_length off n f px
    unfold paintWith at ih hlen ⊢
    rw [forLoop_succ]
    by_cases hb : n + off < NUM_PIXELS
    · rw [if_pos hb, List.getD_eq_getElem?_getD, List.getElem?_set]
      by_cases hj : n + off = j
      · subst hj
        rw [if_pos rfl, if_pos (by rw [hlen, hl]; exact hb)]
        rw [if_pos ⟨by omega, by omega, hb⟩, Nat.add_sub_cancel]
        rfl
      · rw [if_neg hj, ← List.getD_eq_getElem?_getD, ih]
        by_cases hc : off ≤ j ∧ j < off + n ∧ j < NUM_PIXELS
        · rw [if_pos hc, if_pos ⟨hc.1, by omega, hc.2.2⟩]
        · rw [if_neg hc, if_neg (by omega)]
    · rw [if_neg hb, ih]
      by_cases hc : off ≤ j ∧ j < off + n ∧ j < NUM_PIXELS
      · rw [if_pos hc, if_pos ⟨hc.1, by omega, hc.2.2⟩]
      · rw [if_neg hc, if_neg (by omega)]

theorem setPixelColor_length (n c : Nat) (st : Strip) :
    (st.setPixelColor n c).pixels.length = st.pixels.length := by
  unfold Strip.setPixelColor
  split_ifs
  · exact List.length_set _ _ _
  · rfl

theorem setPixelColor_getD (n c : Nat) (st : Strip) (j : Nat) (hl : st.pixels.length = NUM_PIXELS) :
    (st.setPixelColor n c).pixels.getD j 0 =
      if j = n ∧ n < NUM_PIXELS then c else st.pixels.getD j 0 := by
  unfold Strip.setPixelColor
  by_cases hn : n < NUM_PIXELS
  · rw [if_pos hn, List.getD_eq_getElem?_getD, List.getElem?_set]
    by_cases hj : n = j
    · subst hj
      rw [if_pos rfl, if_pos (by rw [hl]; exact hn), if_pos ⟨rfl, hn⟩]
      rfl
    · rw [if_neg hj, if_neg (by intro h; exact hj h.1.symm), ← List.getD_eq_getElem?_getD]
  · rw [if_neg hn, if_neg (by intro h; exact hn h.2)]

theorem forLoop_pointwise (off n : Nat) (f : Nat → Nat) (body : Nat → Strip → Strip)
    (h : ∀ i a, body i a = a.setPixelColor (i + off) (f i)) (st : Strip) :
    forLoop n body st = { st with pixels := paintWith off n f st.pixels } := by
  have e : body = fun i a => a.setPixelColor (i + off) (f i) :=
    funext fun i => funext fun a => h i a
  rw [e]
  exact forLoop_setPixelColorWith off n f st

theorem renderClock_pixels (lt : LocalTime) (minutesMod c : Nat) (st : Strip) :
    (renderClock lt minutesMod c st).shown =
      paintWith RING4 8
        (fun i => if intToByte (2 * ((lt.minute : Int) - 5 * (minutesMod : Int))) > i
          then c else 0)
        (paintWith RING3 12 (fun i => if i < minutesMod + 1 then c else 0)
          (paintWith 0 24
            (fun i => if i ≤ 2 * (if lt.hour > 12 then toByte (lt.hour - 12) else lt.hour)
              then c else 0)
            (paintWith RING2 16 (fun _ => 0)
              ((st.setPixelColor 0 c).setPixelColor RING5 0).pixels))) := by
  have e0 := forLoop_pointwise RING2 16 (fun _ => 0)
    (fun i a => a.setPixelColor (i + RING2) 0) (fun _ _ => rfl)
  have e1 := forLoop_pointwise 0 24
    (fun i => if i ≤ 2 * (if lt.hour > 12 then toByte (lt.hour - 12) else lt.hour)
      then c else 0)
    (fun i a =>
      let twelveHour := if lt.hour > 12 then toByte (lt.hour - 12) else lt.hour
      if i ≤ 2 * twelveHour then a.setPixelColor i c else a.setPixelColor i 0)
    (by
      intro i a
      simp only [Nat.add_zero]
      split_ifs <;> rfl)
  have e2 := forLoop_pointwise RING3 12 (fun i => if i < minutesMod + 1 then c else 0)
    (fun i a =>
      if i < minutesMod + 1 then a.setPixelColor (i + RING3) c
      else a.setPixelColor (i + RING3) 0)
    (by
      intro i a
      simp only []
      split_ifs <;> rfl)
  have e3 := forLoop_pointwise RING4 8
    (fun i => if intToByte (2 * ((lt.minute : Int) - 5 * (minutesMod : Int))) > i
      then c else 0)
    (fun i a =>
      let minutesAdd := intToByte (2 * ((lt.minute : Int) - 5 * (minutesMod : Int)))
      if minutesAdd > i then a.setPixelColor (i + RING4) c
      else a.setPixelColor (i + RING4) 0)
    (by
      intro i a
      simp only []
      split_ifs <;> rfl)
  unfold renderClock
  simp only [e0, e1, e2, e3, Strip.showPixels]

/-- The pixels committed by `renderClock`, position by position: the hour
ring, the cleared error ring, the five-minute ring, the minute ring and the
cleared centre pixel. -/
theorem renderClock_shown (lt : LocalTime) (minutesMod c : Nat) (st : Strip) (j : Nat)
    (hl : st.pixels.length = NUM_PIXELS) (hj : j < NUM_PIXELS) :
    (renderClock lt minutesMod c st).shown.getD j 0 =
      if j < RING2 then
        (if j ≤ 2 * (if lt.hour > 12 then toByte (lt.hour - 12) else lt.hour) then c else 0)
      else if j < RING3 then 0
      else if j < RING4 then (if j - RING3 < minutesMod + 1 then c else 0)
      else if j < RING5 then
        (if intToByte (2 * ((lt.minute : Int) - 5 * (minutesMod : Int))) > j - RING4 then c else 0)
      else 0 := by
  have l1 : (st.setPixelColor 0 c).pixels.length = NUM_PIXELS :=
    (setPixelColor_length 0 c st).trans hl
  have l2 : ((st.setPixelColor 0 c).setPixelColor RING5 0).pixels.length = NUM_PIXELS :=
    (setPixelColor_length RING5 0 (st.setPixelColor 0 c)).trans l1
  have l3 : (paintWith RING2 16 (fun _ => 0)
      ((st.setPixelColor 0 c).setPixelColor RING5 0).pixels).length = NUM_PIXELS :=
    (paintWith_length RING2 16 (fun _ => 0)
      ((st.setPixelColor 0 c).setPixelColor RING5 0).pixels).trans l2
  have l4 : (paintWith 0 24
      (fun i => if i ≤ 2 * (if lt.hour > 12 then toByte (lt.hour - 12) else lt.hour)
        then c else 0)
      (paintWith RING2 16 (fun _ => 0)
        ((st.setPixelColor 0 c).setPixelColor RING5 0).pixels)).length = NUM_PIXELS :=
    (paintWith_length 0 24 _ _).trans l3
  have l5 : (paintWith RING3 12 (fun i => if i < minutesMod + 1 then c else 0) (paintWith 0 24
      (fun i => if i ≤ 2 * (if lt.hour > 12 then toByte (lt.hour - 12) else lt.hour)
        then c else 0)
      (paintWith RING2 16 (fun _ => 0)
        ((st.setPixelColor 0 c).setPixelColor RING5 0).pixels))).length = NUM_PIXELS :=
    (paintWith_length RING3 12 _ _).trans l4
  rw [renderClock_pixels, paintWith_getD _ _ _ _ _ l5, paintWith_getD _ _ _ _ _ l4,
    paintWith_getD _ _ _ _ _ l3, paintWith_getD _ _ _ _ _ l2, setPixelColor_getD _ _ _ _ l1,
    setPixelColor_getD _ _ _ _ hl]
  simp only [NUM_PIXELS, RING2, RING3, RING4, RING5] at hj ⊢
  by_cases h1 : j < 24
  · rw [if_neg (by omega), if_neg (by omega), if_pos (by omega), if_pos h1, Nat.sub_zero]
  · rw [if_neg h1]
    by_cases h2 : j < 40
    · rw [if_neg (by omega), if_neg (by omega), if_neg (by omega), if_pos (by omega), if_pos h2]
    · rw [if_neg h2]
      by_cases h3 : j < 52
      · rw [if_neg (by omega), if_pos (by omega), if_pos h3]
      · rw [if_neg h3]
        by_cases h4 : j < 60
        · rw [if_pos (by omega), if_pos h4]
        · rw [if_neg (by omega), if_neg (by omega), if_neg (by omega), if_neg (by omega),
            if_pos (by omega), if_neg h4]

/-- C15: for every state, after HASH is processed by
`runTimeCommandProcessing` the rendering flag is set and timer 2 is stopped
and over; after any number of ticks the next `updateClock` call then takes the
RTC read-out into `g_localTime`, renders the clock rings from it and restarts
timer 2 (started, not over, count equal to the initial value).  The rendering
is stated pixel by pixel for a strip of `NUM_PIXELS` pixels: with `h` and `m`
the hour and minute read from the RTC, the committed pixel `j` carries the ring
colour exactly when it lies on the hour ring (`j < RING2`) at a position up to
twice the twelve-hour value of `h`, or on the five-minute ring (`RING3` up to
`RING4`) at an offset up to `m / 5`, or on the minute ring (`RING4` up to
`RING5`) at an offset below `2 * (m % 5)`; every other pixel, the error ring
and the centre pixel included, is dark. -/
theorem hash_forces_refresh (s : State) (n : Nat) (now : DateTime) :
    (runTimeCommandProcessing KEY_HASH s).g_showDisplay = true ∧
    ((runTimeCommandProcessing KEY_HASH s).g_timers 2).Start = false ∧
    ((runTimeCommandProcessing KEY_HASH s).g_timers 2).Over = true ∧
    (updateClock now (ISR^[n] (runTimeCommandProcessing KEY_HASH s))).g_localTime =
      { hour := toByte now.hour, minute := toByte now.minute, year := toInt16 now.year,
        month := toByte now.month, day := toByte now.day } ∧
    (updateClock now (ISR^[n] (runTimeCommandProcessing KEY_HASH s))).strip =
      renderClock
        { hour := toByte now.hour, minute := toByte now.minute, year := toInt16 now.year,
          month := toByte now.month, day := toByte now.day }
        (toByte (toByte now.minute / 5)) s.g_ringColour s.strip ∧
    ((updateClock now (ISR^[n] (runTimeCommandProcessing KEY_HASH s))).g_timers 2).Start
      = true ∧
    ((updateClock now (ISR^[n] (runTimeCommandProcessing KEY_HASH s))).g_timers 2).Over
      = false ∧
    ((updateClock now (ISR^[n] (runTimeCommandProcessing KEY_HASH s))).g_timers 2).Count =
      ((updateClock now (ISR^[n] (runTimeCommandProcessing KEY_HASH s))).g_timers 2).InitialValue ∧
    (s.strip.pixels.length = NUM_PIXELS → ∀ j, j < NUM_PIXELS →
      (updateClock now (ISR^[n] (runTimeCommandProcessing KEY_HASH s))).strip.shown.getD j 0 =
        if j < RING2 then
          (if j ≤ 2 * (if toByte now.hour > 12 then toByte now.hour - 12 else toByte now.hour)
            then s.g_ringColour else 0)
        else if j < RING3 then 0
        else if j < RING4 then
          (if j - RING3 ≤ toByte now.minute / 5 then s.g_ringColour else 0)
        else if j < RING5 then
          (if j - RING4 < 2 * (toByte now.minute % 5) then s.g_ringColour else 0)
        else 0) := by
  have ht : ∀ k : Nat, tickTimer^[k]
      ({ Start := false, Count := (s.g_timers 2).Count, Over := true,
         InitialValue := (s.g_timers 2).InitialValue } : Timer) =
      { Start := false, Count := (s.g_timers 2).Count, Over := true,
        InitialValue := (s.g_timers 2).InitialValue } := by
    intro k
    induction k with
    | zero => rfl
    | succ j ih => rw [Function.iterate_succ_apply', ih]; rfl
  have h2 : (ISR^[n] (runTimeCommandProcessing KEY_HASH s)).g_timers 2 =
      { Start := false, Count := (s.g_timers 2).Count, Over := true,
        InitialValue := (s.g_timers 2).InitialValue } := by
    rw [ISR_iterate_timers, runTime_hash_eq]
    simp only [State.setStart, State.setOver, State.setTimer, Function.update_same]
    exact ht n
  have hover : ((ISR^[n] (runTimeCommandProcessing KEY_HASH s)).g_timers 2).Over = true := by
    rw [h2]
  have hshow : (ISR^[n] (runTimeCommandProcessing KEY_HASH s)).g_showDisplay = true := by
    rw [ISR_iterate_eq, runTime_hash_eq]; rfl
  have hstrip : (ISR^[n] (runTimeCommandProcessing KEY_HASH s)).strip = s.strip := by
    rw [ISR_iterate_eq, runTime_hash_eq]; rfl
  have hcol : (ISR^[n] (runTimeCommandProcessing KEY_HASH s)).g_ringColour = s.g_ringColour := by
    rw [ISR_iterate_eq, runTime_hash_eq]; rfl
  have hrender : (updateClock now (ISR^[n] (runTimeCommandProcessing KEY_HASH s))).strip =
      renderClock
        { hour := toByte now.hour, minute := toByte now.minute, year := toInt16 now.year,
          month := toByte now.month, day := toByte now.day }
        (toByte (toByte now.minute / 5)) s.g_ringColour s.strip := by
    simp [updateClock, hover, hshow, startTimer_eq, State.onStrip, hstrip, hcol]
  refine ⟨by rw [runTime_hash_eq]; rfl, ?_, ?_, ?_, hrender, ?_, ?_, ?_, ?_⟩
  · rw [runTime_hash_eq]; simp [State.setStart, State.setOver, State.setTimer]
  · rw [runTime_hash_eq]; simp [State.setStart, State.setOver, State.setTimer]
  · simp [updateClock, hover, hshow, startTimer_eq, State.onStrip]
  · simp [updateClock, hover, hshow, startTimer_eq, State.onStrip]
  · simp [updateClock, hover, hshow, startTimer_eq, State.onStrip]
  · simp [updateClock, hover, hshow, startTimer_eq, State.onStrip]
  · intro hl j hj
    rw [hrender, renderClock_shown _ _ _ _ _ hl hj]
    have hh : toByte now.hour < 256 := Nat.mod_lt _ (by decide)
    have hm : toByte now.minute < 256 := Nat.mod_lt _ (by decide)
    have e1 : toByte (toByte now.hour - 12) = toByte now.hour - 12 := by
      generalize toByte now.hour = h at hh
      unfold toByte
      omega
    have e2 : toByte (toByte now.minute / 5) = toByte now.minute / 5 := by
      generalize toByte now.minute = m at hm
      unfold toByte
      omega
    have e3 : intToByte (2 * ((toByte now.minute : Int) - 5 * ((toByte now.minute / 5 : Nat) : Int)))
        = 2 * (toByte now.minute % 5) := by
      generalize toByte now.minute = m at hm
      unfold intToByte
      omega
    simp only [e1, e2, e3, Nat.lt_succ_iff, gt_iff_lt]

theorem hash_forces_refresh_witness :
    darkPollState.g_showDisplay = false ∧
    (darkPollState.g_timers 2).Start = true ∧
    (darkPollState.g_timers 2).Over = false ∧
    (updateClock sampleTime (ISR^[3] darkPollState)).strip.shown = List.replicate 61 0 ∧
    darkPollState.strip.pixels.length = NUM_PIXELS ∧
    (runTimeCommandProcessing KEY_HASH darkPollState).g_showDisplay = true ∧
    ((runTimeCommandProcessing KEY_HASH darkPollState).g_timers 2).Over = true ∧
    ((updateClock sampleTime
      (ISR^[3] (runTimeCommandProcessing KEY_HASH darkPollState))).g_timers 2).Start = true ∧
    (updateClock sampleTime
      (ISR^[3] (runTimeCommandProcessing KEY_HASH darkPollState))).strip.shown.getD 20 0 = 255 ∧
    (updateClock sampleTime
      (ISR^[3] (runTimeCommandProcessing KEY_HASH darkPollState))).strip.shown.getD 21 0 = 0 ∧
    (updateClock sampleTime
      (ISR^[3] (runTimeCommandProcessing KEY_HASH darkPollState))).strip.shown.getD 44 0 = 255 ∧
    (updateClock sampleTime
      (ISR^[3] (runTimeCommandProcessing KEY_HASH darkPollState))).strip.shown.getD 45 0 = 0 ∧
    (updateClock sampleTime
      (ISR^[3] (runTimeCommandProcessing KEY_HASH darkPollState))).strip.shown.getD 59 0 = 255 ∧
    (updateClock sampleTime
      (ISR^[3] (runTimeCommandProcessing KEY_HASH darkPollState))).strip.shown.getD 60 0 = 0 ∧
    (updateClock sampleTime
      (ISR^[3] (runTimeCommandProcessing KEY_HASH darkPollState))).strip.shown =
      List.replicate 21 255 ++ List.replicate 19 0 ++ List.replicate 5 255 ++
        List.replicate 7 0 ++ List.replicate 8 255 ++ [0] :=
  ⟨by decide, by decide, by decide, by decide, by decide,
   (hash_forces_refresh darkPollState 3 sampleTime).1,
   (hash_forces_refresh darkPollState 3 sampleTime).2.2.1,
   (hash_forces_refresh darkPollState 3 sampleTime).2.2.2.2.2.1,
   ((hash_forces_refresh darkPollState 3 sampleTime).2.2.2.2.2.2.2.2
     (by decide) 20 (by decide)).trans (by decide),
   ((hash_forces_refresh darkPollState 3 sampleTime).2.2.2.2.2.2.2.2
     (by decide) 21 (by decide)).trans (by decide),
   ((hash_forces_refresh darkPollState 3 sampleTime).2.2.2.2.2.2.2.2
     (by decide) 44 (by decide)).trans (by decide),
   ((hash_forces_refresh darkPollState 3 sampleTime).2.2.2.2.2.2.2.2
     (by decide) 45 (by decide)).trans (by decide),
   ((hash_forces_refresh darkPollState 3 sampleTime).2.2.2.2.2.2.2.2
     (by decide) 59 (by decide)).trans (by decide),
   ((hash_forces_refresh darkPollState 3 sampleTime).2.2.2.2.2.2.2.2
     (by decide) 60 (by decide)).trans (by decide),
   by decide⟩

/-! ## The LEFT overlay (C22) -/

theorem machineFields_ISR_iterate (n : Nat) (s : State) :
    machineFields (ISR^[n] s) = machineFields s := by
  rw [ISR_iterate_eq]
  rfl

theorem machineFields_ISR (s : State) : machineFields (ISR s) = machineFields s :=
  machineFields_ISR_iterate 1 s

theorem machineFields_onStrip (f : Strip → Strip) (s : State) :
    machineFields (s.onStrip f) = machineFields s := rfl

theorem machineFields_startTimer (i : Fin 4) (s : State) :
    machineFields (startTimer i s) = machineFields s := by
  rw [startTimer_eq]
  rfl

theorem machineFields_updateClock (now : DateTime) (s : State) :
    machineFields (updateClock now s) = machineFields s := by
  unfold updateClock
  split_ifs
  · simp only [machineFields_startTimer]
    split_ifs <;> rfl
  · rfl

theorem machineFields_checkDoor (doorOpen : Bool) (ticks : Nat) (s : State) :
    machineFields (checkDoor doorOpen ticks s) = machineFields s := by
  unfold checkDoor
  split_ifs
  · simp only [setErrorCode, machineFields_onStrip, machineFields_ISR_iterate]
  · rfl

theorem machineFields_updateBrightness (ldrValue : Nat) (s : State) :
    machineFields (updateBrightness ldrValue s) = machineFields s := by
  unfold updateBrightness
  split_ifs <;> rfl

theorem machineFields_setColorLevel (a : Int) (s : State) :
    machineFields (setColorLevel a s) = machineFields s := by
  unfold setColorLevel
  split_ifs <;> rfl

theorem machineFields_waitCO2 (polls : List Poll) (s t : State) (e : waitCO2 polls s = some t) :
    machineFields t = machineFields s := by
  induction polls generalizing s with
  | nil => simp [waitCO2] at e
  | cons p ps ih =>
    simp only [waitCO2] at e
    split_ifs at e with h0 h9
    · simp only [Option.some.injEq] at e
      rw [← e, machineFields_setColorLevel, ← machineFields_ISR_iterate p.ticks s]
      rfl
    · rw [ih _ e, machineFields_ISR_iterate]
    · simp only [Option.some.injEq] at e
      rw [← e, machineFields_ISR_iterate]

theorem machineFields_getCO2 (polls : List Poll) (s t : State) (e : getCO2 polls s = some t) :
    machineFields t = machineFields s := by
  rw [getCO2_eq] at e
  split_ifs at e with h1
  · rw [Option.bind_eq_some] at e
    obtain ⟨s4, hw, e4⟩ := e
    have h4 := machineFields_waitCO2 polls _ _ hw
    rw [machineFields_startTimer] at h4
    have h5 : machineFields s4 = machineFields s := by
      rw [h4, ← machineFields_startTimer 1 s]
      simp only [machineFields]
    split_ifs at e4
    · simp only [Option.some.injEq] at e4
      rw [← e4, ← h5]
      simp only [machineFields, setErrorCode, State.onStrip]
    · simp only [Option.some.injEq] at e4
      rw [← e4]
      exact h5
  · simp only [Option.some.injEq] at e
    rw [← e]

theorem Alive_tickTimer (t : Timer) (hok : TimerOK t) (h : Alive t) : Alive (tickTimer t) := by
  unfold Alive at h ⊢
  unfold tickTimer
  by_cases hs : t.Start = true
  · rw [if_pos hs]
    have hc := hok.2.2 hs
    by_cases hz : toByte (t.Count + 255) = 0
    · rw [if_pos hz]
      exact Or.inr rfl
    · rw [if_neg hz]
      refine Or.inl ⟨hs, ?_⟩
      exact Nat.pos_of_ne_zero hz
  · rw [if_neg hs]
    exact h

theorem tickTimer_iterate_ok (k : Nat) (t : Timer) (hok : TimerOK t) : TimerOK (tickTimer^[k] t) := by
  induction k generalizing t with
  | zero => exact hok
  | succ n ih =>
    rw [Function.iterate_succ_apply]
    exact ih _ (tickTimer_ok t hok)

theorem Alive_tickTimer_iterate (k : Nat) (t : Timer) (hok : TimerOK t) (h : Alive t) :
    Alive (tickTimer^[k] t) := by
  induction k generalizing t with
  | zero => exact h
  | succ n ih =>
    rw [Function.iterate_succ_apply]
    exact ih _ (tickTimer_ok t hok) (Alive_tickTimer t hok h)

theorem Alive_fresh (v : Nat) (h : 1 ≤ v) : Alive (Timer.mk true v false v) :=
  Or.inl ⟨rfl, h⟩

theorem Alive_startTimer (i : Fin 4) (s : State) (hok : TimersOK s) :
    Alive ((startTimer i s).g_timers i) := by
  rw [startTimer_timers_same]
  exact Alive_fresh _ (hok i).1

theorem waitCO2_timers_ne (polls : List Poll) (u t : State) (i : Fin 4) (hi : i ≠ 0)
    (e : waitCO2 polls u = some t) :
    ∃ k, t.g_timers i = tickTimer^[k] (u.g_timers i) := by
  induction polls generalizing u with
  | nil => simp [waitCO2] at e
  | cons q qs ih =>
    have ht1 := ISR_iterate_timers q.ticks u i
    simp only [waitCO2] at e
    split_ifs at e with h0 h9
    · simp only [Option.some.injEq] at e
      rw [← e, setColorLevel_timers]
      refine ⟨q.ticks, ?_⟩
      simpa [State.setStart, State.setTimer, Function.update, hi] using ht1
    · obtain ⟨k, f3⟩ := ih _ e
      refine ⟨q.ticks + k, ?_⟩
      rw [f3, ht1, Nat.add_comm, Function.iterate_add_apply]
    · simp only [Option.some.injEq] at e
      rw [← e]
      exact ⟨q.ticks, ht1⟩

theorem getCO2_timers_ne (polls : List Poll) (s t : State) (i : Fin 4) (h0 : i ≠ 0) (h1 : i ≠ 1)
    (e : getCO2 polls s = some t) :
    ∃ k, t.g_timers i = tickTimer^[k] (s.g_timers i) := by
  rw [getCO2_eq] at e
  split_ifs at e with hov
  · rw [Option.bind_eq_some] at e
    obtain ⟨s4, hw, e4⟩ := e
    obtain ⟨k, hk⟩ := waitCO2_timers_ne polls _ _ i h0 hw
    have hs : (startTimer 0 { startTimer 1 s with
        serialWrites := (startTimer 1 s).serialWrites ++ [INIT_CO2.take INIT_CO2_LENGTH] }).g_timers i
        = s.g_timers i := by
      rw [startTimer_timers_ne _ _ _ h0]
      exact startTimer_timers_ne s 1 i h1
    rw [hs] at hk
    split_ifs at e4
    · simp only [Option.some.injEq] at e4
      rw [← e4]
      exact ⟨k, hk⟩
    · simp only [Option.some.injEq] at e4
      rw [← e4]
      exact ⟨k, hk⟩
  · simp only [Option.some.injEq] at e
    rw [← e]
    exact ⟨0, rfl⟩

theorem updateClock_timers (now : DateTime) (s : State) :
    (updateClock now s).g_timers =
      if (s.g_timers 2).Over = true then (startTimer 2 s).g_timers else s.g_timers := by
  by_cases h2 : (s.g_timers 2).Over = true
  · by_cases hd : s.g_showDisplay = true
    · simp [updateClock, h2, hd, startTimer_eq, State.onStrip]
    · simp [updateClock, h2, hd, startTimer_eq, State.onStrip]
  · simp [updateClock, h2]

theorem checkDoor_timers (doorOpen : Bool) (ticks : Nat) (s : State) (i : Fin 4) :
    ∃ k, (checkDoor doorOpen ticks s).g_timers i = tickTimer^[k] (s.g_timers i) := by
  unfold checkDoor
  split_ifs
  · refine ⟨ticks, ?_⟩
    simp only [setErrorCode, onStrip_timers]
    rw [ISR_iterate_timers]
    rfl
  · exact ⟨0, rfl⟩

theorem updateBrightness_timers (ldrValue : Nat) (s : State) :
    (updateBrightness ldrValue s).g_timers = s.g_timers := by
  unfold updateBrightness
  split_ifs <;> rfl

theorem decodeKey_le : ∀ r, r < 256 → decodeKey r = NO_CMD ∨ decodeKey r ≤ 16 := by
  decide

/-- The five ways an `IRcommandHandler` call can go: the command timeout; no
command (only the repeat counter and the command variable may change); the
tenth repeat of OK in RUN, which enters CMD; a command in RUN; a command in
CMD. -/
theorem IRcommandHandler_cases (ev : Option IRData) (s : State) :
    ((s.g_timers 3).Over = true ∧
      IRcommandHandler ev s =
        startTimer 2 (({ s.onStrip Strip.clear with
          g_showDisplay := true, g_runMode := RUN } : State).setOver 3 false)) ∨
    ((s.g_timers 3).Over = false ∧
      ∃ c k, (c = s.g_countOK ∨ c = 0 ∨ c = toByte (s.g_countOK + 1)) ∧
        IRcommandHandler ev s = { s with g_countOK := c, g_command := k }) ∨
    ((s.g_timers 3).Over = false ∧ s.g_runMode = RUN ∧ toByte (s.g_countOK + 1) = 10 ∧
      IRcommandHandler ev s =
        { ((({ startTimer 3 { s with g_countOK := toByte (s.g_countOK + 1) } with
              g_runMode := CMD } : State).onStrip Strip.clear).onStrip
                (Strip.setPixelColor RING5 COLOUR_ORANGE)).onStrip Strip.showPixels with
          g_digitCount := 0, g_command := NO_CMD }) ∨
    ((s.g_timers 3).Over = false ∧ s.g_runMode = RUN ∧ ∃ key, key ≠ NO_CMD ∧
      IRcommandHandler ev s =
        { runTimeCommandProcessing key { s with g_countOK := 0, g_command := key } with
          g_command := NO_CMD }) ∨
    ((s.g_timers 3).Over = false ∧ s.g_runMode = CMD ∧ ∃ key, key ≤ 16 ∧
      IRcommandHandler ev s =
        { cmdTimeCommandProcessing key { s with g_countOK := 0, g_command := key } with
          g_command := NO_CMD }) := by
  by_cases h3 : (s.g_timers 3).Over = true
  · exact Or.inl ⟨h3, IRcommandHandler_of_timeout ev s h3⟩
  have h3f : (s.g_timers 3).Over = false := by simpa using h3
  cases ev with
  | none =>
    refine Or.inr (Or.inl ⟨h3f, s.g_countOK, NO_CMD, Or.inl rfl, ?_⟩)
    rw [IRcommandHandler_of_no_cmd none s h3f rfl]
    rfl
  | some d =>
    by_cases hrep : isRepeat d = true
    · by_cases hok : s.g_runMode = RUN ∧ toByte d.command = 0x1C
      · by_cases hten : toByte (s.g_countOK + 1) = 10
        · refine Or.inr (Or.inr (Or.inl ⟨h3f, hok.1, hten, ?_⟩))
          simp [IRcommandHandler, receiveIR, hok.1, hok.2, h3f, hrep, hten, State.onStrip]
        · refine Or.inr (Or.inl ⟨h3f, toByte (s.g_countOK + 1), NO_CMD, Or.inr (Or.inr rfl), ?_⟩)
          exact IRcommandHandler_repeatOK_count s d hok.1 h3f hrep hok.2 hten
      · refine Or.inr (Or.inl ⟨h3f, s.g_countOK, NO_CMD, Or.inl rfl, ?_⟩)
        simp [IRcommandHandler, receiveIR, h3f, hrep, hok]
    · have hrepf : isRepeat d = false := by simpa using hrep
      by_cases hk : decodeKey (toByte d.command) = NO_CMD
      · refine Or.inr (Or.inl ⟨h3f, 0, NO_CMD, Or.inr (Or.inl rfl), ?_⟩)
        have hno : (receiveIR (some d) s).1 = NO_CMD := by
          rw [receiveIR_of_press d s hrepf]; exact hk
        rw [IRcommandHandler_of_no_cmd _ s h3f hno, receiveIR_of_press d s hrepf]
      · by_cases hrun : s.g_runMode = RUN
        · exact Or.inr (Or.inr (Or.inr (Or.inl ⟨h3f, hrun, _, hk,
            IRcommandHandler_in_run s d hrun h3f hrepf hk⟩)))
        · by_cases hcmd : s.g_runMode = CMD
          · refine Or.inr (Or.inr (Or.inr (Or.inr ⟨h3f, hcmd, _, ?_,
              IRcommandHandler_in_cmd s d hcmd h3f hrepf hk⟩)))
            rcases decodeKey_le (toByte d.command) (toByte_lt _) with h | h
            · exact absurd h hk
            · exact h
          · exact Or.inr (Or.inl ⟨h3f, _, _, Or.inr (Or.inl rfl),
              IRcommandHandler_in_other_mode s d hrun hcmd h3f hrepf⟩)

theorem cmd_overflow_eq (s : State) (d : Nat) (hd : d ≤ 9) (hc : 10 ≤ s.g_digitCount) :
    cmdTimeCommandProcessing d s =
      startTimer 2 (({ entryState d s with g_runMode := RUN } : State).setStart 3 false) := by
  have hc1 : 10 ≤ (entryState d s).g_digitCount := by
    rw [entryState_digitCount]; exact hc
  rw [cmd_digit_eq d s hd, cmdDigitSwitch_overflow d _ hc1]

theorem cmd_overflow_fields (s : State) (d : Nat) (hd : d ≤ 9) (hc : 10 ≤ s.g_digitCount) :
    (cmdTimeCommandProcessing d s).g_runMode = RUN ∧
    (cmdTimeCommandProcessing d s).g_timers 2 =
      Timer.mk true (s.g_timers 2).InitialValue false (s.g_timers 2).InitialValue ∧
    machineFields (cmdTimeCommandProcessing d s) = machineFields { s with g_runMode := RUN } := by
  rw [cmd_overflow_eq s d hd hc]
  refine ⟨?_, ?_, ?_⟩
  · simp [entryState, showEntry, State.onStrip, startTimer_eq, State.setStart, State.setTimer]
  · rw [startTimer_timers_same]
    simp [entryState, showEntry, State.onStrip, startTimer_eq, State.setStart, State.setTimer,
      Function.update]
  · simp [machineFields, entryState, showEntry, State.onStrip, startTimer_eq, State.setStart,
      State.setTimer]

/-- Mode and timers 2 and 3 after `cmdTimeCommandProcessing`: a digit within
the entry keeps the mode and restarts timer 3; a digit after the entry and OK
set the mode to RUN with timer 2 restarted or over; every other command changes
nothing. -/
theorem cmd_mode_timers (key : Nat) (s : State) :
    ((cmdTimeCommandProcessing key s).g_runMode = s.g_runMode ∧
      (cmdTimeCommandProcessing key s).g_timers 3 =
        Timer.mk true (s.g_timers 3).InitialValue false (s.g_timers 3).InitialValue) ∨
    ((cmdTimeCommandProcessing key s).g_runMode = RUN ∧
      ((cmdTimeCommandProcessing key s).g_timers 2 =
          Timer.mk true (s.g_timers 2).InitialValue false (s.g_timers 2).InitialValue ∨
        ((cmdTimeCommandProcessing key s).g_timers 2).Over = true)) ∨
    cmdTimeCommandProcessing key s = s := by
  by_cases hd : key < KEY_UP
  · have hd9 : key ≤ 9 := by
      have : KEY_UP = 10 := rfl
      omega
    by_cases hp : s.g_digitCount ≤ 9
    · exact Or.inl ⟨(cmd_digit_timers s key hp hd9).1, (cmd_digit_timers s key hp hd9).2.1⟩
    · have h := cmd_overflow_fields s key hd9 (by omega)
      exact Or.inr (Or.inl ⟨h.1, Or.inl h.2.1⟩)
  · by_cases hok : key = KEY_OK
    · subst hok
      exact Or.inr (Or.inl ⟨(cmd_OK_fields s).1, Or.inr (cmd_OK_fields s).2.2.2.2.1⟩)
    · exact Or.inr (Or.inr (cmd_other_key key s hd hok))

/-- Timers 2 and 3 after `runTimeCommandProcessing`: timer 3 is untouched;
timer 2 is untouched, restarted, or over. -/
theorem runTime_timers (c : Nat) (s : State) :
    (runTimeCommandProcessing c s).g_timers 3 = s.g_timers 3 ∧
    ((runTimeCommandProcessing c s).g_timers 2 = s.g_timers 2 ∨
      (runTimeCommandProcessing c s).g_timers 2 =
        Timer.mk true (s.g_timers 2).InitialValue false (s.g_timers 2).InitialValue ∨
      ((runTimeCommandProcessing c s).g_timers 2).Over = true) := by
  unfold runTimeCommandProcessing
  split_ifs
  · exact ⟨rfl, Or.inl rfl⟩
  · refine ⟨?_, Or.inr (Or.inr ?_)⟩ <;>
      simp [State.setStart, State.setOver, State.setTimer, Function.update]
  · refine ⟨?_, Or.inr (Or.inl ?_)⟩ <;>
      simp [State.onStrip, startTimer_eq, Function.update]
  · refine ⟨?_, Or.inr (Or.inl ?_)⟩ <;>
      simp [State.onStrip, startTimer_eq, Function.update]
  · exact ⟨rfl, Or.inl rfl⟩

theorem runMode_of_machineFields {s t : State} (h : machineFields t = machineFields s) :
    t.g_runMode = s.g_runMode := congrArg (fun p => p.2.1) h

/-- What a tick or a main-loop call other than `IRcommandHandler` does to the
mode state machine and to timers 2 and 3: the fields of the state machine are
unchanged, timer 3 is only ticked, timer 2 is only ticked or restarted. -/
theorem step_env (a : Action) (s t : State) (e : step a s = some t)
    (ha : ∀ ev, a ≠ Action.IRcommandHandler ev) :
    machineFields t = machineFields s ∧
    (∃ k, t.g_timers 3 = tickTimer^[k] (s.g_timers 3)) ∧
    ((∃ k, t.g_timers 2 = tickTimer^[k] (s.g_timers 2)) ∨
      t.g_timers 2 = Timer.mk true (s.g_timers 2).InitialValue false (s.g_timers 2).InitialValue) := by
  cases a with
  | tick =>
    simp only [step, Option.some.injEq] at e
    rw [← e]
    exact ⟨machineFields_ISR s, ⟨1, ISR_timers s 3⟩, Or.inl ⟨1, ISR_timers s 2⟩⟩
  | updateClock now =>
    simp only [step, Option.some.injEq] at e
    rw [← e]
    refine ⟨machineFields_updateClock now s, ⟨0, ?_⟩, ?_⟩
    · rw [updateClock_timers]
      split_ifs
      · exact startTimer_timers_ne s 2 3 (by decide)
      · rfl
    · rw [updateClock_timers]
      split_ifs
      · exact Or.inr (startTimer_timers_same s 2)
      · exact Or.inl ⟨0, rfl⟩
  | checkDoor doorOpen ticks =>
    simp only [step, Option.some.injEq] at e
    rw [← e]
    exact ⟨machineFields_checkDoor doorOpen ticks s, checkDoor_timers doorOpen ticks s 3,
      Or.inl (checkDoor_timers doorOpen ticks s 2)⟩
  | getCO2 polls =>
    exact ⟨machineFields_getCO2 polls s t e,
      getCO2_timers_ne polls s t 3 (by decide) (by decide) e,
      Or.inl (getCO2_timers_ne polls s t 2 (by decide) (by decide) e)⟩
  | updateBrightness ldrValue =>
    simp only [step, Option.some.injEq] at e
    rw [← e]
    exact ⟨machineFields_updateBrightness ldrValue s,
      ⟨0, by rw [updateBrightness_timers]; rfl⟩, Or.inl ⟨0, by rw [updateBrightness_timers]; rfl⟩⟩
  | IRcommandHandler ev => exact absurd rfl (ha ev)

theorem CmdTimeoutAlive_IRcommandHandler (ev : Option IRData) (s : State) (hok : TimersOK s)
    (h : CmdTimeoutAlive s) : CmdTimeoutAlive (IRcommandHandler ev s) := by
  have hne : RUN ≠ CMD := by decide
  rcases IRcommandHandler_cases ev s with ⟨_, e⟩ | ⟨_, c, k, _, e⟩ | ⟨_, _, _, e⟩ |
    ⟨_, hrun, key, _, e⟩ | ⟨_, hcmd, key, _, e⟩
  · intro hm
    rw [e] at hm
    simp [startTimer_eq, State.setOver, State.setTimer, State.onStrip] at hm
    exact absurd hm hne
  · rw [e]
    exact h
  · intro _
    rw [e]
    have : Alive ((startTimer 3 { s with g_countOK := toByte (s.g_countOK + 1) }).g_timers 3) := by
      rw [startTimer_timers_same]
      exact Alive_fresh _ (hok 3).1
    exact this
  · intro hm
    rw [e] at hm
    have := runTime_runMode key { s with g_countOK := 0, g_command := key }
    simp only [] at hm this
    rw [this, hrun] at hm
    exact absurd hm hne
  · rw [e]
    rcases cmd_mode_timers key { s with g_countOK := 0, g_command := key } with
      ⟨_, h3⟩ | ⟨hm, _⟩ | hs
    · intro _
      simp only [] at h3 ⊢
      rw [h3]
      exact Alive_fresh _ (hok 3).1
    · intro hm2
      simp only [] at hm hm2
      rw [hm] at hm2
      exact absurd hm2 hne
    · simp only [] at hs ⊢
      rw [hs]
      exact h

theorem CmdTimeoutAlive_step (a : Action) (s t : State) (hok : TimersOK s)
    (h : CmdTimeoutAlive s) (e : step a s = some t) : CmdTimeoutAlive t := by
  by_cases ha : ∃ ev, a = Action.IRcommandHandler ev
  · obtain ⟨ev, rfl⟩ := ha
    simp only [step, Option.some.injEq] at e
    rw [← e]
    exact CmdTimeoutAlive_IRcommandHandler ev s hok h
  · obtain ⟨hm, ⟨k, h3⟩, _⟩ := step_env a s t e (fun ev hev => ha ⟨ev, hev⟩)
    intro hc
    rw [runMode_of_machineFields hm] at hc
    rw [h3]
    exact Alive_tickTimer_iterate k _ (hok 3) (h hc)

theorem CmdTimeoutAlive_run (acts : List Action) (s t : State) (hok : TimersOK s)
    (h : CmdTimeoutAlive s) (e : run acts s = some t) : CmdTimeoutAlive t := by
  induction acts generalizing s with
  | nil =>
    simp only [run, Option.some.injEq] at e
    rw [← e]
    exact h
  | cons a as ih =>
    simp only [run] at e
    cases hs : step a s with
    | none => rw [hs] at e; simp at e
    | some s1 =>
      rw [hs] at e
      exact ih s1 (TimersOK_step a hok hs) (CmdTimeoutAlive_step a s s1 hok h hs) e

theorem postSetup_runMode (rtcRunning : Bool) (compileTime now : DateTime) :
    (postSetup rtcRunning compileTime now).g_runMode = RUN := rfl

theorem IRcommandHandler_timeout_runMode (ev : Option IRData) (s : State)
    (h3 : (s.g_timers 3).Over = true) : (IRcommandHandler ev s).g_runMode = RUN := by
  rw [IRcommandHandler_of_timeout ev s h3]
  simp [startTimer_eq, State.setOver, State.setTimer, State.onStrip]

theorem Alive_expires (t : Timer) (hok : TimerOK t) (h : Alive t) :
    ∃ n, n ≤ 255 ∧ (tickTimer^[n] t).Over = true := by
  by_cases ho : t.Over = true
  · exact ⟨0, by omega, ho⟩
  · have hof : t.Over = false := by simpa using ho
    rcases h with ⟨hs, h1⟩ | h
    · have hc := (hok.2.2 hs).2
      refine ⟨t.Count, hc, ?_⟩
      have e : t = Timer.mk true t.Count false t.InitialValue := by
        cases t
        simp only [] at hs hof
        rw [hs, hof]
      rw [e]
      exact congrArg Timer.Over (tickTimer_iterate_eq _ _ h1 hc)
    · exact absurd h ho

/-- C25: in every state reachable after `setup` in which the mode is CMD,
timer 3 is started with a count of at least one, or it is over.  From such a
state some number of ticks, at most 255, makes timer 3 over, and the next
`IRcommandHandler` call then returns to RUN whatever frame is pending. -/
theorem cmd_timeout_alive (s : State) (h : Reachable s) (hm : s.g_runMode = CMD) :
    (((s.g_timers 3).Start = true ∧ 1 ≤ (s.g_timers 3).Count) ∨ (s.g_timers 3).Over = true) ∧
    ∃ n, n ≤ 255 ∧ ((ISR^[n] s).g_timers 3).Over = true ∧
      ∀ ev, (IRcommandHandler ev (ISR^[n] s)).g_runMode = RUN := by
  have hok := TimersOK_of_reachable h
  obtain ⟨r, c, now, acts, e⟩ := h
  have hinit : CmdTimeoutAlive (postSetup r c now) := by
    intro hc
    rw [postSetup_runMode] at hc
    exact absurd hc (by decide)
  have hal : Alive (s.g_timers 3) :=
    CmdTimeoutAlive_run acts _ s (TimersOK_postSetup r c now) hinit e hm
  refine ⟨hal, ?_⟩
  obtain ⟨n, hn, hover⟩ := Alive_expires _ (hok 3) hal
  refine ⟨n, hn, ?_, fun ev => IRcommandHandler_timeout_runMode ev _ ?_⟩
  · rw [ISR_iterate_timers]; exact hover
  · rw [ISR_iterate_timers]; exact hover

theorem cmdEntryState_reachable : Reachable cmdEntryState :=
  ⟨true, sampleTime, sampleTime,
    List.replicate 10 (Action.IRcommandHandler (some okRepeatFrame)), rfl⟩

theorem cmd_timeout_alive_witness :
    (((cmdEntryState.g_timers 3).Start = true ∧ 1 ≤ (cmdEntryState.g_timers 3).Count) ∨
      (cmdEntryState.g_timers 3).Over = true) ∧
    ∃ n, n ≤ 255 ∧ ((ISR^[n] cmdEntryState).g_timers 3).Over = true ∧
      ∀ ev, (IRcommandHandler ev (ISR^[n] cmdEntryState)).g_runMode = RUN :=
  cmd_timeout_alive cmdEntryState cmdEntryState_reachable (by decide)

/-! ## Invariants of the reachable states: the clock refresh (C26) -/

theorem RunRefreshAlive_IRcommandHandler (ev : Option IRData) (s : State) (hok : TimersOK s)
    (h : RunRefreshAlive s) : RunRefreshAlive (IRcommandHandler ev s) := by
  have hne : CMD ≠ RUN := by decide
  rcases IRcommandHandler_cases ev s with ⟨_, e⟩ | ⟨_, c, k, _, e⟩ | ⟨_, _, _, e⟩ |
    ⟨_, hrun, key, _, e⟩ | ⟨_, hcmd, key, _, e⟩
  · intro _
    rw [e, startTimer_timers_same]
    refine Alive_fresh _ ?_
    have := (hok 2).1
    simpa [State.setOver, State.setTimer, State.onStrip, Function.update] using this
  · rw [e]
    exact h
  · intro hm
    rw [e] at hm
    simp [startTimer_eq, State.onStrip] at hm
    exact absurd hm hne
  · intro _
    rw [e]
    rcases (runTime_timers key { s with g_countOK := 0, g_command := key }).2 with h2 | h2 | h2
    · simp only [] at h2 ⊢
      rw [h2]
      exact h hrun
    · simp only [] at h2 ⊢
      rw [h2]
      exact Alive_fresh _ (hok 2).1
    · exact Or.inr h2
  · rw [e]
    rcases cmd_mode_timers key { s with g_countOK := 0, g_command := key } with
      ⟨hm, _⟩ | ⟨_, h2 | h2⟩ | hs
    · intro hm2
      simp only [] at hm hm2
      rw [hm, hcmd] at hm2
      exact absurd hm2 hne
    · intro _
      simp only [] at h2 ⊢
      rw [h2]
      exact Alive_fresh _ (hok 2).1
    · intro _
      exact Or.inr h2
    · simp only [] at hs ⊢
      rw [hs]
      exact h

theorem RunRefreshAlive_step (a : Action) (s t : State) (hok : TimersOK s)
    (h : RunRefreshAlive s) (e : step a s = some t) : RunRefreshAlive t := by
  by_cases ha : ∃ ev, a = Action.IRcommandHandler ev
  · obtain ⟨ev, rfl⟩ := ha
    simp only [step, Option.some.injEq] at e
    rw [← e]
    exact RunRefreshAlive_IRcommandHandler ev s hok h
  · obtain ⟨hm, _, h2⟩ := step_env a s t e (fun ev hev => ha ⟨ev, hev⟩)
    intro hc
    rw [runMode_of_machineFields hm] at hc
    rcases h2 with ⟨k, h2⟩ | h2
    · rw [h2]
      exact Alive_tickTimer_iterate k _ (hok 2) (h hc)
    · rw [h2]
      exact Alive_fresh _ (hok 2).1

theorem RunRefreshAlive_run (acts : List Action) (s t : State) (hok : TimersOK s)
    (h : RunRefreshAlive s) (e : run acts s = some t) : RunRefreshAlive t := by
  induction acts generalizing s with
  | nil =>
    simp only [run, Option.some.injEq] at e
    rw [← e]
    exact h
  | cons a as ih =>
    simp only [run] at e
    cases hs : step a s with
    | none => rw [hs] at e; simp at e
    | some s1 =>
      rw [hs] at e
      exact ih s1 (TimersOK_step a hok hs) (RunRefreshAlive_step a s s1 hok h hs) e

theorem RunRefreshAlive_postSetup (rtcRunning : Bool) (compileTime now : DateTime) :
    RunRefreshAlive (postSetup rtcRunning compileTime now) := by
  intro _
  have hok := TimersOK_postSetup rtcRunning compileTime now 2
  have hs : ((postSetup rtcRunning compileTime now).g_timers 2).Start = true := by
    simp [postSetup, setup, startTimer_eq, Function.update]
  exact Or.inl ⟨hs, (hok.2.2 hs).1⟩

/-- C26: in every state reachable after `setup` in which the mode is RUN,
timer 2 is started with a count of at least one, or it is over.  From such a
state some number of ticks, at most 255, makes timer 2 over, and `updateClock`
then reads the RTC and restarts the timer. -/
theorem run_refresh_alive (s : State) (h : Reachable s) (hm : s.g_runMode = RUN) :
    (((s.g_timers 2).Start = true ∧ 1 ≤ (s.g_timers 2).Count) ∨ (s.g_timers 2).Over = true) ∧
    ∃ n, n ≤ 255 ∧ ((ISR^[n] s).g_timers 2).Over = true ∧
      ∀ now, (updateClock now (ISR^[n] s)).g_timers 2 =
        Timer.mk true (s.g_timers 2).InitialValue false (s.g_timers 2).InitialValue := by
  have hok := TimersOK_of_reachable h
  obtain ⟨r, c, now, acts, e⟩ := h
  have hal : Alive (s.g_timers 2) :=
    RunRefreshAlive_run acts _ s (TimersOK_postSetup r c now) (RunRefreshAlive_postSetup r c now)
      e hm
  refine ⟨hal, ?_⟩
  obtain ⟨n, hn, hover⟩ := Alive_expires _ (hok 2) hal
  have ho : ((ISR^[n] s).g_timers 2).Over = true := by
    rw [ISR_iterate_timers]; exact hover
  refine ⟨n, hn, ho, fun now1 => ?_⟩
  rw [updateClock_timers, if_pos ho, startTimer_timers_same, ISR_iterate_timers]
  have hi : ∀ (k : Nat) (t : Timer), (tickTimer^[k] t).InitialValue = t.InitialValue := by
    intro k
    induction k with
    | zero => intro t; rfl
    | succ m ih =>
      intro t
      rw [Function.iterate_succ_apply, ih, tickTimer_initialValue]
  rw [hi]

theorem bootState_reachable : Reachable bootState :=
  ⟨true, sampleTime, sampleTime, [], rfl⟩

theorem run_refresh_alive_witness :
    (((bootState.g_timers 2).Start = true ∧ 1 ≤ (bootState.g_timers 2).Count) ∨
      (bootState.g_timers 2).Over = true) ∧
    ∃ n, n ≤ 255 ∧ ((ISR^[n] bootState).g_timers 2).Over = true ∧
      ∀ now, (updateClock now (ISR^[n] bootState)).g_timers 2 =
        Timer.mk true (bootState.g_timers 2).InitialValue false
          (bootState.g_timers 2).InitialValue :=
  run_refresh_alive bootState bootState_reachable (by decide)

/-! ## Invariants of the reachable states: the pending entry (C27) -/

theorem entryFields_of_machineFields {s t : State} (h : machineFields t = machineFields s) :
    entryFields t = entryFields s := by
  simp only [machineFields, Prod.mk.injEq] at h
  simp only [entryFields, Prod.mk.injEq]
  exact ⟨h.2.2.2.1, h.2.2.2.2.1, h.2.2.2.2.2.1, h.2.2.2.2.2.2.1, h.2.2.2.2.2.2.2.1,
    h.2.2.2.2.2.2.2.2.1⟩

theorem EntryOK_of_entryFields {s t : State} (h : entryFields t = entryFields s)
    (hs : EntryOK s) : EntryOK t := by
  simp only [entryFields, Prod.mk.injEq] at h
  obtain ⟨h1, h2, h3, h4, h5, h6⟩ := h
  unfold EntryOK at hs ⊢
  rw [h1, h2, h3, h4, h5, h6]
  exact hs

theorem entryFields_showEntry (a b : Nat) (s : State) :
    entryFields (showEntry a b s) = entryFields s := rfl

theorem entryFields_entryState (d : Nat) (s : State) :
    entryFields (entryState d s) = entryFields s := by
  simp [entryFields, entryState, showEntry, State.onStrip, startTimer_eq, State.setStart,
    State.setTimer]

theorem EntryOK_cmdDigitSwitch (d : Nat) (s : State) (hd : d ≤ 9) (h : EntryOK s) :
    EntryOK (cmdDigitSwitch d s) := by
  unfold EntryOK at h
  obtain ⟨b0, b1, b2, b3, b4, b5, b6, b7, b8, b9, b10⟩ := h
  rcases digitCount_cases s.g_digitCount with h | h | h | h | h | h | h | h | h | h | h
  · rw [cmdDigitSwitch_pos0 d s h]
    split_ifs
    · exact EntryOK_of_entryFields (entryFields_showEntry _ _ s)
        ⟨b0, b1, b2, b3, b4, b5, b6, b7, b8, b9, b10⟩
    · simp only [EntryOK]
      omega
  · rw [cmdDigitSwitch_pos1 d s h]
    have hb := b1 h
    have e : toByte (s.g_newDay * 10 + d) = s.g_newDay * 10 + d := by
      unfold toByte; omega
    simp only [EntryOK, e]
    omega
  · rw [cmdDigitSwitch_pos2 d s h]
    split_ifs
    · exact EntryOK_of_entryFields (entryFields_showEntry _ _ s)
        ⟨b0, b1, b2, b3, b4, b5, b6, b7, b8, b9, b10⟩
    · simp only [EntryOK]
      omega
  · rw [cmdDigitSwitch_pos3 d s h]
    have hb := b3 h
    have e : toByte (s.g_newMonth * 10 + d) = s.g_newMonth * 10 + d := by
      unfold toByte; omega
    simp only [EntryOK, e]
    omega
  · rw [cmdDigitSwitch_pos4 d s h]
    simp only [EntryOK]
    omega
  · rw [cmdDigitSwitch_pos5 d s h]
    have hb := b5 h
    have e : toInt16 (2000 + (s.g_newYear * 10 + (d : Int))) =
        2000 + (s.g_newYear * 10 + (d : Int)) := by
      unfold toInt16; omega
    simp only [EntryOK, e]
    omega
  · rw [cmdDigitSwitch_pos6 d s h]
    split_ifs
    · exact EntryOK_of_entryFields (entryFields_showEntry _ _ s)
        ⟨b0, b1, b2, b3, b4, b5, b6, b7, b8, b9, b10⟩
    · simp only [EntryOK]
      omega
  · rw [cmdDigitSwitch_pos7 d s h]
    split_ifs
    · exact EntryOK_of_entryFields (entryFields_showEntry _ _ s)
        ⟨b0, b1, b2, b3, b4, b5, b6, b7, b8, b9, b10⟩
    · have hb := b7 h
      have e : toByte (s.g_newHour * 10 + d) = s.g_newHour * 10 + d := by
        unfold toByte; omega
      simp only [EntryOK, e]
      omega
  · rw [cmdDigitSwitch_pos8 d s h]
    split_ifs
    · exact EntryOK_of_entryFields (entryFields_showEntry _ _ s)
        ⟨b0, b1, b2, b3, b4, b5, b6, b7, b8, b9, b10⟩
    · simp only [EntryOK]
      omega
  · rw [cmdDigitSwitch_pos9 d s h]
    have hb := b9 h
    have e : toByte (s.g_newMinute * 10 + d) = s.g_newMinute * 10 + d := by
      unfold toByte; omega
    simp only [EntryOK, e]
    omega
  · rw [cmdDigitSwitch_overflow d s h]
    refine EntryOK_of_entryFields ?_ ⟨b0, b1, b2, b3, b4, b5, b6, b7, b8, b9, b10⟩
    simp [entryFields, startTimer_eq, State.setStart, State.setTimer]

theorem entryFields_cmd_OK (s : State) :
    entryFields (cmdTimeCommandProcessing KEY_OK s) = entryFields s := by
  rw [cmd_OK_eq]
  by_cases h : s.g_digitCount = 10
  · simp [entryFields, h, State.setStart, State.setOver, State.setTimer]
  · simp [entryFields, h, State.setStart, State.setOver, State.setTimer]

theorem EntryOK_cmd (key : Nat) (s : State) (h : EntryOK s) :
    EntryOK (cmdTimeCommandProcessing key s) := by
  by_cases hd : key < KEY_UP
  · have hd9 : key ≤ 9 := by
      have : KEY_UP = 10 := rfl
      omega
    rw [cmd_digit_eq key s hd9]
    exact EntryOK_cmdDigitSwitch key _ hd9 (EntryOK_of_entryFields (entryFields_entryState key s) h)
  · by_cases hok : key = KEY_OK
    · subst hok
      exact EntryOK_of_entryFields (entryFields_cmd_OK s) h
    · rw [cmd_other_key key s hd hok]
      exact h

theorem entryFields_runTime (c : Nat) (s : State) :
    entryFields (runTimeCommandProcessing c s) = entryFields s := by
  unfold runTimeCommandProcessing
  split_ifs <;>
    simp [entryFields, State.onStrip, startTimer_eq, State.setStart, State.setOver,
      State.setTimer]

theorem EntryOK_IRcommandHandler (ev : Option IRData) (s : State) (h : EntryOK s) :
    EntryOK (IRcommandHandler ev s) := by
  rcases IRcommandHandler_cases ev s with ⟨_, e⟩ | ⟨_, c, k, _, e⟩ | ⟨_, _, _, e⟩ |
    ⟨_, hrun, key, _, e⟩ | ⟨_, hcmd, key, _, e⟩
  · rw [e]
    refine EntryOK_of_entryFields ?_ h
    simp [entryFields, startTimer_eq, State.setOver, State.setTimer, State.onStrip]
  · rw [e]
    exact EntryOK_of_entryFields rfl h
  · rw [e]
    simp only [EntryOK]
    omega
  · rw [e]
    have h1 : EntryOK { s with g_countOK := 0, g_command := key } :=
      EntryOK_of_entryFields rfl h
    have h2 := EntryOK_of_entryFields (entryFields_runTime key _) h1
    exact EntryOK_of_entryFields rfl h2
  · rw [e]
    have h1 : EntryOK { s with g_countOK := 0, g_command := key } :=
      EntryOK_of_entryFields rfl h
    exact EntryOK_of_entryFields rfl (EntryOK_cmd key _ h1)

theorem DateOK_of_EntryOK (s : State) (h : EntryOK s) (h10 : s.g_digitCount = 10) :
    DateOK (mkDateTime s.g_newYear s.g_newMonth s.g_newDay s.g_newHour s.g_newMinute 0) ∧
    mkDateTime s.g_newYear s.g_newMonth s.g_newDay s.g_newHour s.g_newMinute 0 =
      { year := s.g_newYear.toNat, month := s.g_newMonth, day := s.g_newDay,
        hour := s.g_newHour, minute := s.g_newMinute, second := 0 } := by
  unfold EntryOK at h
  obtain ⟨b0, b1, b2, b3, b4, b5, b6, b7, b8, b9, b10⟩ := h
  have c2 := b2 (by omega)
  have c4 := b4 (by omega)
  have c6 := b6 (by omega)
  have c8 := b8 (by omega)
  have c10 := b10 (by omega)
  have e1 : toByte s.g_newMonth = s.g_newMonth := by unfold toByte; omega
  have e2 : toByte s.g_newDay = s.g_newDay := by unfold toByte; omega
  have e3 : toByte s.g_newHour = s.g_newHour := by unfold toByte; omega
  have e4 : toByte s.g_newMinute = s.g_newMinute := by unfold toByte; omega
  have e5 : (s.g_newYear % 65536).toNat = s.g_newYear.toNat := by omega
  have e6 : toByte 0 = 0 := rfl
  simp only [mkDateTime, DateOK, e1, e2, e3, e4, e5, e6, and_true]
  omega

theorem NoWrap_of_EntryOK (s : State) (d : Nat) (hd : d ≤ 9) (h : EntryOK s) : NoWrap s d := by
  unfold EntryOK at h
  obtain ⟨b0, b1, b2, b3, b4, b5, b6, b7, b8, b9, b10⟩ := h
  unfold NoWrap
  refine ⟨fun h => ?_, fun h => ?_, fun h => ?_, fun h => ?_, fun h => ?_, fun h => ?_⟩
  · unfold toByte; omega
  · have := b1 h
    unfold toByte; omega
  · have := b3 h
    unfold toByte; omega
  · have := b5 h
    unfold toInt16; omega
  · have := b7 h
    unfold toByte; omega
  · have := b9 h
    unfold toByte; omega

theorem entryFields_postSetup (rtcRunning : Bool) (compileTime now : DateTime) :
    entryFields (postSetup rtcRunning compileTime now) = (0, 0, 0, 0, 0, 0) := by
  cases rtcRunning <;> rfl

theorem EntryOK_postSetup (rtcRunning : Bool) (compileTime now : DateTime) :
    EntryOK (postSetup rtcRunning compileTime now) := by
  have e := entryFields_postSetup rtcRunning compileTime now
  simp only [entryFields, Prod.mk.injEq] at e
  obtain ⟨h1, h2, h3, h4, h5, h6⟩ := e
  unfold EntryOK
  rw [h1, h2, h3, h4, h5, h6]
  decide

theorem commitsEntry_digitCount (ev : Option IRData) (s : State)
    (h : commitsEntry (Action.IRcommandHandler ev) s) : s.g_digitCount = 10 := by
  cases ev with
  | none => exact h.elim
  | some d => exact h.2.2.2.2

theorem rtcWrites_of_machineFields {s t : State} (h : machineFields t = machineFields s) :
    t.rtcWrites = s.rtcWrites := by
  simp only [machineFields, Prod.mk.injEq] at h
  exact h.2.2.2.2.2.2.2.2.2

/-- One step keeps the bounds of the pending entry and adds at most one write
to the RTC log, which is within the bounds of a date. -/
theorem entry_step (a : Action) (s t : State) (base : List DateTime) (h : EntryOK s)
    (hw : ∃ ws, s.rtcWrites = base ++ ws ∧ ∀ w ∈ ws, DateOK w) (e : step a s = some t) :
    EntryOK t ∧ ∃ ws, t.rtcWrites = base ++ ws ∧ ∀ w ∈ ws, DateOK w := by
  by_cases ha : ∃ ev, a = Action.IRcommandHandler ev
  · obtain ⟨ev, rfl⟩ := ha
    simp only [step, Option.some.injEq] at e
    rw [← e]
    refine ⟨EntryOK_IRcommandHandler ev s h, ?_⟩
    obtain ⟨ws, hws, hall⟩ := hw
    rw [IRcommandHandler_rtcWrites]
    split_ifs with hc
    · refine ⟨ws ++ [mkDateTime s.g_newYear s.g_newMonth s.g_newDay s.g_newHour s.g_newMinute 0],
        by rw [hws, List.append_assoc], ?_⟩
      intro w hw
      rcases List.mem_append.1 hw with hw | hw
      · exact hall w hw
      · rw [List.mem_singleton.1 hw]
        exact (DateOK_of_EntryOK s h (commitsEntry_digitCount ev s hc)).1
    · exact ⟨ws, hws, hall⟩
  · obtain ⟨hm, _, _⟩ := step_env a s t e (fun ev hev => ha ⟨ev, hev⟩)
    refine ⟨EntryOK_of_entryFields (entryFields_of_machineFields hm) h, ?_⟩
    rw [rtcWrites_of_machineFields hm]
    exact hw

theorem entry_run (acts : List Action) (s t : State) (base : List DateTime) (h : EntryOK s)
    (hw : ∃ ws, s.rtcWrites = base ++ ws ∧ ∀ w ∈ ws, DateOK w) (e : run acts s = some t) :
    EntryOK t ∧ ∃ ws, t.rtcWrites = base ++ ws ∧ ∀ w ∈ ws, DateOK w := by
  induction acts generalizing s with
  | nil =>
    simp only [run, Option.some.injEq] at e
    rw [← e]
    exact ⟨h, hw⟩
  | cons a as ih =>
    simp only [run] at e
    cases hs : step a s with
    | none => rw [hs] at e; simp at e
    | some s1 =>
      rw [hs] at e
      obtain ⟨h1, hw1⟩ := entry_step a s s1 base h hw hs
      exact ih s1 h1 hw1 e

/-- C27: in every state reached from the state after `setup` by ticks and
main-loop calls, at most ten digits are entered and the pending fields are
within the bounds of the digits entered so far; no sum built from a digit
wraps around its 8 bit (for the year 16 bit) variable; and every write to the
RTC after `setup` has hour at most 23, minute at most 59, year 2000..2099, day
at most 39 and month at most 19. -/
theorem entry_within_bounds (rtcRunning : Bool) (compileTime now : DateTime)
    (acts : List Action) (s : State)
    (e : run acts (postSetup rtcRunning compileTime now) = some s) :
    s.g_digitCount ≤ 10 ∧ EntryOK s ∧ (∀ d, d ≤ 9 → NoWrap s d) ∧
    ∃ ws, s.rtcWrites = (postSetup rtcRunning compileTime now).rtcWrites ++ ws ∧
      ∀ w ∈ ws, DateOK w := by
  obtain ⟨h1, h2⟩ := entry_run acts _ s (postSetup rtcRunning compileTime now).rtcWrites
    (EntryOK_postSetup rtcRunning compileTime now) ⟨[], by simp, by simp⟩ e
  exact ⟨h1.1, h1, fun d hd => NoWrap_of_EntryOK s d hd h1, h2⟩

theorem entry_within_bounds_witness :
    (committedState.g_digitCount ≤ 10 ∧ EntryOK committedState ∧
      (∀ d, d ≤ 9 → NoWrap committedState d) ∧
      ∃ ws, committedState.rtcWrites = (postSetup true sampleTime sampleTime).rtcWrites ++ ws ∧
        ∀ w ∈ ws, DateOK w) ∧
    committedState.rtcWrites =
      [{ year := 2024, month := 1, day := 1, hour := 10, minute := 30, second := 0 }] :=
  ⟨entry_within_bounds true sampleTime sampleTime fullEntryActs committedState rfl, by decide⟩

/-! ## The OK-repeat counter after a return to RUN (C29) -/

theorem okRepeatFrame_isRepeat : isRepeat okRepeatFrame = true := by decide

theorem okRepeatFrame_command : toByte okRepeatFrame.command = 0x1C := by decide

theorem handleFrames_append (as bs : List IRData) (s : State) :
    handleFrames (as ++ bs) s = handleFrames bs (handleFrames as s) := by
  simp [handleFrames, List.foldl_append]

/-- Repeat frames of OK in RUN that never bring the counter to 10 leave the
mode RUN and only advance the counter, as a byte. -/
theorem repeats_no_entry (n : Nat) (s : State) (hmode : s.g_runMode = RUN)
    (h3 : (s.g_timers 3).Over = false) (hc : s.g_countOK ≤ 255)
    (h : ∀ j, j < n → (s.g_countOK + j + 1) % 256 ≠ 10) :
    (handleFrames (List.replicate n okRepeatFrame) s).g_runMode = RUN ∧
    (handleFrames (List.replicate n okRepeatFrame) s).g_countOK = (s.g_countOK + n) % 256 := by
  induction n generalizing s with
  | zero =>
    refine ⟨hmode, ?_⟩
    have : handleFrames (List.replicate 0 okRepeatFrame) s = s := rfl
    rw [this]
    omega
  | succ m ih =>
    have hten : toByte (s.g_countOK + 1) ≠ 10 := by
      have := h 0 (by omega)
      unfold toByte
      omega
    have hstep := IRcommandHandler_repeatOK_count s okRepeatFrame hmode h3
      okRepeatFrame_isRepeat okRepeatFrame_command hten
    rw [List.replicate_succ, handleFrames_cons, hstep]
    have hlt : toByte (s.g_countOK + 1) ≤ 255 := by unfold toByte; omega
    have := ih { s with g_countOK := toByte (s.g_countOK + 1), g_command := NO_CMD } hmode h3 hlt
      (by
        intro j hj
        have := h (j + 1) (by omega)
        simp only [toByte]
        omega)
    refine ⟨this.1, ?_⟩
    rw [this.2]
    simp only [toByte]
    omega

theorem IRcommandHandler_repeat_in_cmd (s : State) (d : IRData) (hmode : s.g_runMode = CMD)
    (h3 : (s.g_timers 3).Over = false) (hrep : isRepeat d = true) :
    IRcommandHandler (some d) s = { s with g_command := NO_CMD } := by
  have hne : ¬ CMD = RUN := by decide
  simp [IRcommandHandler, receiveIR, hmode, h3, hrep, hne]

theorem repeats_in_cmd (n : Nat) (s : State) (hmode : s.g_runMode = CMD)
    (h3 : (s.g_timers 3).Over = false) :
    (handleFrames (List.replicate n okRepeatFrame) s).g_runMode = CMD := by
  induction n generalizing s with
  | zero => exact hmode
  | succ m ih =>
    rw [List.replicate_succ, handleFrames_cons,
      IRcommandHandler_repeat_in_cmd s okRepeatFrame hmode h3 okRepeatFrame_isRepeat]
    exact ih _ hmode h3

/-- Ten repeat frames of OK in RUN with the counter at most 9 end in CMD. -/
theorem repeats_enter (s : State) (hmode : s.g_runMode = RUN)
    (h3 : (s.g_timers 3).Over = false) (hc : s.g_countOK ≤ 9) :
    (handleFrames (List.replicate 10 okRepeatFrame) s).g_runMode = CMD := by
  have hsplit : List.replicate 10 okRepeatFrame =
      List.replicate (9 - s.g_countOK) okRepeatFrame ++
        (okRepeatFrame :: List.replicate s.g_countOK okRepeatFrame) := by
    rw [← List.replicate_succ, ← List.replicate_add]
    congr 1
    omega
  rw [hsplit, handleFrames_append, handleFrames_cons]
  obtain ⟨f1, f2, f3⟩ := handleFrames_repeatOK_lt (List.replicate (9 - s.g_countOK) okRepeatFrame)
    s hmode h3 (fun d hd => by
      rw [List.eq_of_mem_replicate hd]
      exact ⟨okRepeatFrame_isRepeat, okRepeatFrame_command⟩)
    (by rw [List.length_replicate]; omega)
  rw [List.length_replicate] at f2
  have h3a : ((handleFrames (List.replicate (9 - s.g_countOK) okRepeatFrame) s).g_timers 3).Over
      = false := by rw [f3]; exact h3
  have hten : toByte ((handleFrames (List.replicate (9 - s.g_countOK) okRepeatFrame) s).g_countOK
      + 1) = 10 := by
    rw [f2]
    unfold toByte
    omega
  obtain ⟨g1, _, g3⟩ := IRcommandHandler_repeatOK_tenth _ okRepeatFrame f1 h3a
    okRepeatFrame_isRepeat okRepeatFrame_command hten
  exact repeats_in_cmd _ _ g1 (by rw [g3])

theorem countOK_of_machineFields {s t : State} (h : machineFields t = machineFields s) :
    t.g_countOK = s.g_countOK := congrArg (fun p => p.1) h

theorem countOK_IRcommandHandler (ev : Option IRData) (s : State) (h : s.g_countOK ≤ 255) :
    (IRcommandHandler ev s).g_countOK ≤ 255 := by
  rcases IRcommandHandler_cases ev s with ⟨_, e⟩ | ⟨_, c, k, hc, e⟩ | ⟨_, _, _, e⟩ |
    ⟨_, hrun, key, _, e⟩ | ⟨_, hcmd, key, _, e⟩
  · rw [e]
    simpa [startTimer_eq, State.setOver, State.setTimer, State.onStrip] using h
  · rw [e]
    simp only []
    rcases hc with hc | hc | hc
    · omega
    · omega
    · rw [hc]; unfold toByte; omega
  · rw [e]
    simp only [State.onStrip, startTimer_eq, toByte]
    omega
  · rw [e]
    have := runTime_countOK key { s with g_countOK := 0, g_command := key }
    simp only [] at this ⊢
    omega
  · rw [e]
    have := cmd_countOK key { s with g_countOK := 0, g_command := key }
    simp only [] at this ⊢
    omega

theorem countOK_run (acts : List Action) (s t : State) (h : s.g_countOK ≤ 255)
    (e : run acts s = some t) : t.g_countOK ≤ 255 := by
  induction acts generalizing s with
  | nil =>
    simp only [run, Option.some.injEq] at e
    rw [← e]
    exact h
  | cons a as ih =>
    simp only [run] at e
    cases hs : step a s with
    | none => rw [hs] at e; simp at e
    | some s1 =>
      rw [hs] at e
      refine ih s1 ?_ e
      by_cases ha : ∃ ev, a = Action.IRcommandHandler ev
      · obtain ⟨ev, rfl⟩ := ha
        simp only [step, Option.some.injEq] at hs
        rw [← hs]
        exact countOK_IRcommandHandler ev s h
      · rw [countOK_of_machineFields (step_env a s s1 hs (fun ev hev => ha ⟨ev, hev⟩)).1]
        exact h

theorem countOK_postSetup (rtcRunning : Bool) (compileTime now : DateTime) :
    (postSetup rtcRunning compileTime now).g_countOK = 0 := by
  cases rtcRunning <;> rfl

theorem countOK_of_reachable {s : State} (h : Reachable s) : s.g_countOK ≤ 255 := by
  obtain ⟨r, c, now, acts, e⟩ := h
  exact countOK_run acts _ s (by rw [countOK_postSetup]; omega) e

/-- The counter and the timeout flag after an `IRcommandHandler` call that
leaves CMD for RUN: after the command timeout the counter is unchanged, after
OK or a digit beyond the entry it is 0; the timeout flag is clear. -/
theorem IRcommandHandler_return (ev : Option IRData) (s : State) (hm : s.g_runMode = CMD)
    (hr : (IRcommandHandler ev s).g_runMode = RUN) :
    ((s.g_timers 3).Over = false → (IRcommandHandler ev s).g_countOK = 0) ∧
    ((s.g_timers 3).Over = true → (IRcommandHandler ev s).g_countOK = s.g_countOK) ∧
    ((IRcommandHandler ev s).g_timers 3).Over = false := by
  have hne : CMD ≠ RUN := by decide
  rcases IRcommandHandler_cases ev s with ⟨h3, e⟩ | ⟨_, c, k, hc, e⟩ | ⟨_, hrun, _, e⟩ |
    ⟨_, hrun, key, _, e⟩ | ⟨h3, hcmd, key, hkey, e⟩
  · refine ⟨fun hf => ?_, fun _ => ?_, ?_⟩
    · rw [h3] at hf; exact absurd hf (by decide)
    · rw [e]
      simp [startTimer_eq, State.setOver, State.setTimer, State.onStrip]
    · rw [e]
      simp [startTimer_eq, State.setOver, State.setTimer, State.onStrip, Function.update]
  · rw [e] at hr
    simp only [] at hr
    rw [hm] at hr
    exact absurd hr hne
  · rw [hm] at hrun
    exact absurd hrun hne
  · rw [hm] at hrun
    exact absurd hrun hne
  · have hcnt := cmd_countOK key { s with g_countOK := 0, g_command := key }
    refine ⟨fun _ => ?_, fun ht => ?_, ?_⟩
    · rw [e]
      exact hcnt
    · rw [h3] at ht; exact absurd ht (by decide)
    · rw [e] at hr ⊢
      by_cases hd : key < KEY_UP
      · have hd9 : key ≤ 9 := by
          have : KEY_UP = 10 := rfl
          omega
        by_cases hp : s.g_digitCount ≤ 9
        · have h1 := (cmd_digit_timers { s with g_countOK := 0, g_command := key } key hp hd9).1
          simp only [] at h1 hr
          rw [h1, hm] at hr
          exact absurd hr hne
        · have hov := cmd_overflow_eq { s with g_countOK := 0, g_command := key } key hd9
            (by simp only []; omega)
          simp only [] at hov ⊢
          rw [hov]
          simp [entryState, showEntry, State.onStrip, startTimer_eq, State.setStart,
            State.setTimer, Function.update]
      · by_cases hok : key = KEY_OK
        · subst hok
          have h1 := (cmd_OK_fields { s with g_countOK := 0, g_command := KEY_OK }).2.2.1
          simp only [] at h1 ⊢
          rw [h1]
          exact h3
        · have h1 := cmd_other_key key { s with g_countOK := 0, g_command := key } hd hok
          simp only [] at h1 hr
          rw [h1] at hr
          simp only [] at hr
          rw [hm] at hr
          exact absurd hr hne

/-- C29 (counterexample): a session entered by ten repeat frames of OK and left
by the command timeout, with no key pressed in between, is back in RUN with the
OK-repeat counter at 10; ten further repeat frames of OK leave the mode RUN and
bring the counter to 20. -/
theorem timeout_leaves_counter_at_ten :
    run timeoutActs bootState = some timedOutState ∧
    timedOutState.g_runMode = RUN ∧ timedOutState.g_countOK = 10 ∧
    (timedOutState.g_timers 3).Over = false ∧
    (handleFrames (List.replicate 10 okRepeatFrame) timedOutState).g_runMode = RUN ∧
    (handleFrames (List.replicate 10 okRepeatFrame) timedOutState).g_countOK = 20 :=
  ⟨rfl, by decide⟩

/-- C29 (amended): in every reachable state the OK-repeat counter is at most
255.  When an `IRcommandHandler` call in a reachable CMD state returns to RUN,
the counter is 0 if the return is by OK or by a digit beyond the entry, and
unchanged if the return is by the command timeout.  Ten further repeat frames
of OK enter CMD again exactly when the counter after the return is at most
9. -/
theorem return_to_run_counter (s : State) (ev : Option IRData) (h : Reachable s)
    (hm : s.g_runMode = CMD) (hr : (IRcommandHandler ev s).g_runMode = RUN) :
    s.g_countOK ≤ 255 ∧
    ((s.g_timers 3).Over = false → (IRcommandHandler ev s).g_countOK = 0) ∧
    ((s.g_timers 3).Over = true → (IRcommandHandler ev s).g_countOK = s.g_countOK) ∧
    ((handleFrames (List.replicate 10 okRepeatFrame) (IRcommandHandler ev s)).g_runMode = CMD ↔
      (IRcommandHandler ev s).g_countOK ≤ 9) := by
  have hc := countOK_of_reachable h
  obtain ⟨r1, r2, r3⟩ := IRcommandHandler_return ev s hm hr
  have hc2 := countOK_IRcommandHandler ev s hc
  refine ⟨hc, r1, r2, ?_, ?_⟩
  · intro hcmd
    by_contra hgt
    have := (repeats_no_entry 10 _ hr r3 hc2 (fun j hj => by omega)).1
    rw [this] at hcmd
    exact absurd hcmd (by decide)
  · intro h9
    exact repeats_enter _ hr r3 h9

theorem timedOut_reachable : Reachable (ISR^[12] cmdEntryState) :=
  ⟨true, sampleTime, sampleTime,
    List.replicate 10 (Action.IRcommandHandler (some okRepeatFrame)) ++
      List.replicate 12 Action.tick, rfl⟩

theorem return_to_run_counter_witness :
    (ISR^[12] cmdEntryState).g_countOK ≤ 255 ∧
    (((ISR^[12] cmdEntryState).g_timers 3).Over = false →
      (IRcommandHandler none (ISR^[12] cmdEntryState)).g_countOK = 0) ∧
    (((ISR^[12] cmdEntryState).g_timers 3).Over = true →
      (IRcommandHandler none (ISR^[12] cmdEntryState)).g_countOK =
        (ISR^[12] cmdEntryState).g_countOK) ∧
    ((handleFrames (List.replicate 10 okRepeatFrame)
        (IRcommandHandler none (ISR^[12] cmdEntryState))).g_runMode = CMD ↔
      (IRcommandHandler none (ISR^[12] cmdEntryState)).g_countOK ≤ 9) :=
  return_to_run_counter (ISR^[12] cmdEntryState) none timedOut_reachable (by decide) (by decide)

/-! ## Commits and stale pending fields (C28) -/

theorem setPending_ISR_iterate (n : Nat) (s : State) (dc d m h mi : Nat) (y : Int) :
    ISR^[n] (setPending s dc d m h mi y) = setPending (ISR^[n] s) dc d m h mi y := by
  rw [ISR_iterate_eq, ISR_iterate_eq]
  rfl

theorem setPending_ISR (s : State) (dc d m h mi : Nat) (y : Int) :
    ISR (setPending s dc d m h mi y) = setPending (ISR s) dc d m h mi y :=
  setPending_ISR_iterate 1 s dc d m h mi y

theorem setPending_startTimer (i : Fin 4) (s : State) (dc d m h mi : Nat) (y : Int) :
    startTimer i (setPending s dc d m h mi y) = setPending (startTimer i s) dc d m h mi y := by
  rw [startTimer_eq, startTimer_eq]
  rfl

theorem setPending_onStrip (f : Strip → Strip) (s : State) (dc d m h mi : Nat) (y : Int) :
    (setPending s dc d m h mi y).onStrip f = setPending (s.onStrip f) dc d m h mi y := rfl

theorem setPending_updateClock (now : DateTime) (s : State) (dc d m h mi : Nat) (y : Int) :
    updateClock now (setPending s dc d m h mi y) =
      setPending (updateClock now s) dc d m h mi y := by
  by_cases h2 : (s.g_timers 2).Over = true
  · by_cases hd : s.g_showDisplay = true
    · simp [updateClock, setPending, h2, hd, startTimer_eq, State.onStrip]
    · simp [updateClock, setPending, h2, hd, startTimer_eq, State.onStrip]
  · simp [updateClock, setPending, h2]

theorem setPending_checkDoor (doorOpen : Bool) (ticks : Nat) (s : State) (dc d m h mi : Nat)
    (y : Int) :
    checkDoor doorOpen ticks (setPending s dc d m h mi y) =
      setPending (checkDoor doorOpen ticks s) dc d m h mi y := by
  unfold checkDoor
  split_ifs
  · simp only [setErrorCode, setPending_onStrip, setPending_ISR_iterate]
  · rfl

theorem setPending_updateBrightness (ldrValue : Nat) (s : State) (dc d m h mi : Nat) (y : Int) :
    updateBrightness ldrValue (setPending s dc d m h mi y) =
      setPending (updateBrightness ldrValue s) dc d m h mi y := by
  unfold updateBrightness
  split_ifs <;> rfl

theorem setPending_setColorLevel (a : Int) (s : State) (dc d m h mi : Nat) (y : Int) :
    setColorLevel a (setPending s dc d m h mi y) =
      setPending (setColorLevel a s) dc d m h mi y := by
  unfold setColorLevel
  split_ifs <;> rfl

theorem setPending_waitCO2 (polls : List Poll) (s : State) (dc d m h mi : Nat) (y : Int) :
    waitCO2 polls (setPending s dc d m h mi y) =
      (waitCO2 polls s).map (fun t => setPending t dc d m h mi y) := by
  induction polls generalizing s with
  | nil => rfl
  | cons p ps ih =>
    simp only [waitCO2, setPending_ISR_iterate]
    have e0 : ((setPending (ISR^[p.ticks] s) dc d m h mi y).g_timers 0).Over =
        ((ISR^[p.ticks] s).g_timers 0).Over := rfl
    rw [e0]
    split_ifs
    · simp only [Option.map_some', Option.some.injEq]
      rw [← setPending_setColorLevel]
      rfl
    · exact ih _
    · rfl

theorem setPending_getCO2 (polls : List Poll) (s : State) (dc d m h mi : Nat) (y : Int) :
    getCO2 polls (setPending s dc d m h mi y) =
      (getCO2 polls s).map (fun t => setPending t dc d m h mi y) := by
  rw [getCO2_eq, getCO2_eq]
  have e1 : ((setPending s dc d m h mi y).g_timers 1).Over = (s.g_timers 1).Over := rfl
  rw [e1]
  split_ifs with h1
  · have e2 : startTimer 0 { startTimer 1 (setPending s dc d m h mi y) with
        serialWrites := (startTimer 1 (setPending s dc d m h mi y)).serialWrites ++
          [INIT_CO2.take INIT_CO2_LENGTH] } =
        setPending (startTimer 0 { startTimer 1 s with
          serialWrites := (startTimer 1 s).serialWrites ++ [INIT_CO2.take INIT_CO2_LENGTH] })
          dc d m h mi y := by
      rw [setPending_startTimer 1, ← setPending_startTimer 0]
      rfl
    rw [e2, setPending_waitCO2]
    cases hw : waitCO2 polls (startTimer 0 { startTimer 1 s with
        serialWrites := (startTimer 1 s).serialWrites ++ [INIT_CO2.take INIT_CO2_LENGTH] }) with
    | none => rfl
    | some s4 =>
      simp only [Option.map_some', Option.some_bind]
      have e0 : ((setPending s4 dc d m h mi y).g_timers 0).Over = (s4.g_timers 0).Over := rfl
      rw [e0]
      split_ifs
      · rfl
      · rfl
  · rfl

theorem setPending_runTime (c : Nat) (s : State) (dc d m h mi : Nat) (y : Int) :
    runTimeCommandProcessing c (setPending s dc d m h mi y) =
      setPending (runTimeCommandProcessing c s) dc d m h mi y := by
  unfold runTimeCommandProcessing
  split_ifs
  · rfl
  · rfl
  · simp only [setPending_startTimer, setPending_onStrip]
    rfl
  · simp only [setPending_startTimer, setPending_onStrip]
    rfl
  · rfl

theorem setPending_showEntry (a b : Nat) (s : State) (dc d m h mi : Nat) (y : Int) :
    showEntry a b (setPending s dc d m h mi y) = setPending (showEntry a b s) dc d m h mi y := rfl

theorem setPending_entryState (key : Nat) (s : State) (d m h mi : Nat) (y : Int) :
    entryState key (setPending s s.g_digitCount d m h mi y) =
      setPending (entryState key s) (entryState key s).g_digitCount d m h mi y := by
  rw [entryState_digitCount]
  simp [entryState, setPending, showEntry, State.onStrip, startTimer_eq, State.setStart,
    State.setTimer]

theorem cmdDigitSwitch_sim (key : Nat) (u : State) (d m h mi : Nat) (y : Int)
    (hag : EntryAgree u (setPending u u.g_digitCount d m h mi y)) :
    SameButEntry (cmdDigitSwitch key u)
        (cmdDigitSwitch key (setPending u u.g_digitCount d m h mi y)) ∧
      EntryAgree (cmdDigitSwitch key u)
        (cmdDigitSwitch key (setPending u u.g_digitCount d m h mi y)) := by
  obtain ⟨_, a1, a3, a5, a7, a9⟩ := hag
  simp only [setPending] at a1 a3 a5 a7 a9
  have hdc : (setPending u u.g_digitCount d m h mi y).g_digitCount = u.g_digitCount := rfl
  rcases digitCount_cases u.g_digitCount with hc | hc | hc | hc | hc | hc | hc | hc | hc | hc | hc
  · rw [cmdDigitSwitch_pos0 key u hc,
      cmdDigitSwitch_pos0 key (setPending _ _ _ _ _ _ _) (hdc.trans hc)]
    split_ifs
    · refine ⟨⟨_, _, _, _, _, _, rfl⟩, ?_⟩
      simp [EntryAgree, showEntry, State.onStrip, setPending, hc]
    · refine ⟨⟨_, _, _, _, _, _, rfl⟩, ?_⟩
      simp [EntryAgree, setPending, hc]
  · rw [cmdDigitSwitch_pos1 key u hc,
      cmdDigitSwitch_pos1 key (setPending _ _ _ _ _ _ _) (hdc.trans hc)]
    have e1 := a1 (by omega)
    subst e1
    refine ⟨⟨_, _, _, _, _, _, rfl⟩, ?_⟩
    simp [EntryAgree, setPending, hc]
  · rw [cmdDigitSwitch_pos2 key u hc,
      cmdDigitSwitch_pos2 key (setPending _ _ _ _ _ _ _) (hdc.trans hc)]
    have e1 := a1 (by omega)
    subst e1
    split_ifs
    · refine ⟨⟨_, _, _, _, _, _, rfl⟩, ?_⟩
      simp [EntryAgree, showEntry, State.onStrip, setPending, hc]
    · refine ⟨⟨_, _, _, _, _, _, rfl⟩, ?_⟩
      simp [EntryAgree, setPending, hc]
  · rw [cmdDigitSwitch_pos3 key u hc,
      cmdDigitSwitch_pos3 key (setPending _ _ _ _ _ _ _) (hdc.trans hc)]
    have e1 := a1 (by omega)
    have e3 := a3 (by omega)
    subst e1
    subst e3
    refine ⟨⟨_, _, _, _, _, _, rfl⟩, ?_⟩
    simp [EntryAgree, setPending, hc]
  · rw [cmdDigitSwitch_pos4 key u hc,
      cmdDigitSwitch_pos4 key (setPending _ _ _ _ _ _ _) (hdc.trans hc)]
    have e1 := a1 (by omega)
    have e3 := a3 (by omega)
    subst e1
    subst e3
    refine ⟨⟨_, _, _, _, _, _, rfl⟩, ?_⟩
    simp [EntryAgree, setPending, hc]
  · rw [cmdDigitSwitch_pos5 key u hc,
      cmdDigitSwitch_pos5 key (setPending _ _ _ _ _ _ _) (hdc.trans hc)]
    have e1 := a1 (by omega)
    have e3 := a3 (by omega)
    have e5 := a5 (by omega)
    subst e1
    subst e3
    subst e5
    refine ⟨⟨_, _, _, _, _, _, rfl⟩, ?_⟩
    simp [EntryAgree, setPending, hc]
  · rw [cmdDigitSwitch_pos6 key u hc,
      cmdDigitSwitch_pos6 key (setPending _ _ _ _ _ _ _) (hdc.trans hc)]
    have e1 := a1 (by omega)
    have e3 := a3 (by omega)
    have e5 := a5 (by omega)
    subst e1
    subst e3
    subst e5
    split_ifs
    · refine ⟨⟨_, _, _, _, _, _, rfl⟩, ?_⟩
      simp [EntryAgree, showEntry, State.onStrip, setPending, hc]
    · refine ⟨⟨_, _, _, _, _, _, rfl⟩, ?_⟩
      simp [EntryAgree, setPending, hc]
  · rw [cmdDigitSwitch_pos7 key u hc,
      cmdDigitSwitch_pos7 key (setPending _ _ _ _ _ _ _) (hdc.trans hc)]
    have e1 := a1 (by omega)
    have e3 := a3 (by omega)
    have e5 := a5 (by omega)
    have e7 := a7 (by omega)
    subst e1
    subst e3
    subst e5
    subst e7
    by_cases hh : u.g_newHour * 10 + key > 23
    · have hh2 : (setPending u u.g_digitCount u.g_newDay u.g_newMonth u.g_newHour mi
          u.g_newYear).g_newHour * 10 + key > 23 := hh
      rw [if_pos hh, if_pos hh2]
      refine ⟨⟨_, _, _, _, _, _, rfl⟩, ?_⟩
      simp [EntryAgree, showEntry, State.onStrip, setPending, hc]
    · have hh2 : ¬ (setPending u u.g_digitCount u.g_newDay u.g_newMonth u.g_newHour mi
          u.g_newYear).g_newHour * 10 + key > 23 := hh
      rw [if_neg hh, if_neg hh2]
      refine ⟨⟨_, _, _, _, _, _, rfl⟩, ?_⟩
      simp [EntryAgree, setPending, hc]
  · rw [cmdDigitSwitch_pos8 key u hc,
      cmdDigitSwitch_pos8 key (setPending _ _ _ _ _ _ _) (hdc.trans hc)]
    have e1 := a1 (by omega)
    have e3 := a3 (by omega)
    have e5 := a5 (by omega)
    have e7 := a7 (by omega)
    subst e1
    subst e3
    subst e5
    subst e7
    split_ifs
    · refine ⟨⟨_, _, _, _, _, _, rfl⟩, ?_⟩
      simp [EntryAgree, showEntry, State.onStrip, setPending, hc]
    · refine ⟨⟨_, _, _, _, _, _, rfl⟩, ?_⟩
      simp [EntryAgree, setPending, hc]
  · rw [cmdDigitSwitch_pos9 key u hc,
      cmdDigitSwitch_pos9 key (setPending _ _ _ _ _ _ _) (hdc.trans hc)]
    have e1 := a1 (by omega)
    have e3 := a3 (by omega)
    have e5 := a5 (by omega)
    have e7 := a7 (by omega)
    have e9 := a9 (by omega)
    subst e1
    subst e3
    subst e5
    subst e7
    subst e9
    refine ⟨⟨_, _, _, _, _, _, rfl⟩, ?_⟩
    simp [EntryAgree, setPending, hc]
  · rw [cmdDigitSwitch_overflow key u hc,
      cmdDigitSwitch_overflow key (setPending _ _ _ _ _ _ _) (hdc ▸ hc)]
    have e1 := a1 (by omega)
    have e3 := a3 (by omega)
    have e5 := a5 (by omega)
    have e7 := a7 (by omega)
    have e9 := a9 (by omega)
    subst e1 e3 e5 e7 e9
    refine ⟨?_, ?_⟩
    · refine ⟨u.g_digitCount, u.g_newDay, u.g_newMonth, u.g_newHour, u.g_newMinute,
        u.g_newYear, ?_⟩
      simp [setPending, startTimer_eq, State.setStart, State.setTimer]
    · simp [EntryAgree, setPending, startTimer_eq, State.setStart, State.setTimer]

theorem cmd_sim (key : Nat) (s : State) (d m h mi : Nat) (y : Int)
    (hag : EntryAgree s (setPending s s.g_digitCount d m h mi y)) :
    SameButEntry (cmdTimeCommandProcessing key s)
        (cmdTimeCommandProcessing key (setPending s s.g_digitCount d m h mi y)) ∧
      EntryAgree (cmdTimeCommandProcessing key s)
        (cmdTimeCommandProcessing key (setPending s s.g_digitCount d m h mi y)) := by
  by_cases hd : key < KEY_UP
  · have hd9 : key ≤ 9 := by
      have : KEY_UP = 10 := rfl
      omega
    rw [cmd_digit_eq key s hd9, cmd_digit_eq key _ hd9, setPending_entryState]
    refine cmdDigitSwitch_sim key (entryState key s) d m h mi y ?_
    have e := entryFields_entryState key s
    simp only [entryFields, Prod.mk.injEq] at e
    obtain ⟨e1, e2, e3, e4, e5, e6⟩ := e
    obtain ⟨_, a1, a3, a5, a7, a9⟩ := hag
    simp only [setPending] at a1 a3 a5 a7 a9
    simp only [EntryAgree, setPending, e1, e2, e3, e4, e5, e6]
    exact ⟨trivial, a1, a3, a5, a7, a9⟩
  · by_cases hok : key = KEY_OK
    · subst hok
      rw [cmd_OK_eq, cmd_OK_eq]
      obtain ⟨_, a1, a3, a5, a7, a9⟩ := hag
      simp only [setPending] at a1 a3 a5 a7 a9
      by_cases h10 : s.g_digitCount = 10
      · have e1 := a1 (by omega)
        have e3 := a3 (by omega)
        have e5 := a5 (by omega)
        have e7 := a7 (by omega)
        have e9 := a9 (by omega)
        subst e1 e3 e5 e7 e9
        refine ⟨⟨s.g_digitCount, s.g_newDay, s.g_newMonth, s.g_newHour, s.g_newMinute,
          s.g_newYear, ?_⟩, ?_⟩
        · simp [setPending, h10, State.setStart, State.setOver, State.setTimer]
        · simp [EntryAgree, setPending, h10, State.setStart, State.setOver, State.setTimer]
      · refine ⟨⟨s.g_digitCount, d, m, h, mi, y, ?_⟩, ?_⟩
        · simp [setPending, h10, State.setStart, State.setOver, State.setTimer]
        · simp only [EntryAgree, setPending, h10, State.setStart, State.setOver, State.setTimer,
            if_false]
          exact ⟨trivial, a1, a3, a5, a7, a9⟩
    · rw [cmd_other_key key s hd hok, cmd_other_key key _ hd hok]
      exact ⟨⟨_, _, _, _, _, _, rfl⟩, hag⟩

/-- The case distinction of `IRcommandHandler`, for a state and for the same
state with other pending fields: both calls go the same way. -/
theorem IRcommandHandler_cases_pair (ev : Option IRData) (s : State) (dc d m h mi : Nat)
    (y : Int) :
    (IRcommandHandler ev s =
        startTimer 2 (({ s.onStrip Strip.clear with
          g_showDisplay := true, g_runMode := RUN } : State).setOver 3 false) ∧
      IRcommandHandler ev (setPending s dc d m h mi y) =
        startTimer 2 (({ (setPending s dc d m h mi y).onStrip Strip.clear with
          g_showDisplay := true, g_runMode := RUN } : State).setOver 3 false)) ∨
    (∃ c k, IRcommandHandler ev s = { s with g_countOK := c, g_command := k } ∧
      IRcommandHandler ev (setPending s dc d m h mi y) =
        { setPending s dc d m h mi y with g_countOK := c, g_command := k }) ∨
    (IRcommandHandler ev s =
        { ((({ startTimer 3 { s with g_countOK := toByte (s.g_countOK + 1) } with
              g_runMode := CMD } : State).onStrip Strip.clear).onStrip
                (Strip.setPixelColor RING5 COLOUR_ORANGE)).onStrip Strip.showPixels with
          g_digitCount := 0, g_command := NO_CMD } ∧
      IRcommandHandler ev (setPending s dc d m h mi y) =
        { ((({ startTimer 3 { setPending s dc d m h mi y with
                g_countOK := toByte (s.g_countOK + 1) } with
              g_runMode := CMD } : State).onStrip Strip.clear).onStrip
                (Strip.setPixelColor RING5 COLOUR_ORANGE)).onStrip Strip.showPixels with
          g_digitCount := 0, g_command := NO_CMD }) ∨
    (s.g_runMode = RUN ∧ ∃ key,
      IRcommandHandler ev s =
        { runTimeCommandProcessing key { s with g_countOK := 0, g_command := key } with
          g_command := NO_CMD } ∧
      IRcommandHandler ev (setPending s dc d m h mi y) =
        { runTimeCommandProcessing key
            { setPending s dc d m h mi y with g_countOK := 0, g_command := key } with
          g_command := NO_CMD }) ∨
    (s.g_runMode = CMD ∧ ∃ key,
      IRcommandHandler ev s =
        { cmdTimeCommandProcessing key { s with g_countOK := 0, g_command := key } with
          g_command := NO_CMD } ∧
      IRcommandHandler ev (setPending s dc d m h mi y) =
        { cmdTimeCommandProcessing key
            { setPending s dc d m h mi y with g_countOK := 0, g_command := key } with
          g_command := NO_CMD }) := by
  have t3 : ((setPending s dc d m h mi y).g_timers 3).Over = (s.g_timers 3).Over := rfl
  have tm : (setPending s dc d m h mi y).g_runMode = s.g_runMode := rfl
  have tc : (setPending s dc d m h mi y).g_countOK = s.g_countOK := rfl
  by_cases h3 : (s.g_timers 3).Over = true
  · exact Or.inl ⟨IRcommandHandler_of_timeout ev s h3,
      IRcommandHandler_of_timeout ev _ (t3.trans h3)⟩
  have h3f : (s.g_timers 3).Over = false := by simpa using h3
  have h3f2 := t3.trans h3f
  cases ev with
  | none =>
    refine Or.inr (Or.inl ⟨s.g_countOK, NO_CMD, ?_, ?_⟩)
    · rw [IRcommandHandler_of_no_cmd none s h3f rfl]
      rfl
    · rw [IRcommandHandler_of_no_cmd none _ h3f2 rfl]
      rfl
  | some e =>
    by_cases hrep : isRepeat e = true
    · by_cases hok : s.g_runMode = RUN ∧ toByte e.command = 0x1C
      · by_cases hten : toByte (s.g_countOK + 1) = 10
        · refine Or.inr (Or.inr (Or.inl ⟨?_, ?_⟩))
          · simp [IRcommandHandler, receiveIR, hok.1, hok.2, h3f, hrep, hten, State.onStrip]
          · simp [IRcommandHandler, receiveIR, tm, tc, hok.1, hok.2, h3f2, hrep, hten,
              State.onStrip]
        · refine Or.inr (Or.inl ⟨toByte (s.g_countOK + 1), NO_CMD, ?_, ?_⟩)
          · exact IRcommandHandler_repeatOK_count s e hok.1 h3f hrep hok.2 hten
          · exact IRcommandHandler_repeatOK_count _ e (tm.trans hok.1) h3f2 hrep hok.2
              (by rw [tc]; exact hten)
      · refine Or.inr (Or.inl ⟨s.g_countOK, NO_CMD, ?_, ?_⟩)
        · simp [IRcommandHandler, receiveIR, h3f, hrep, hok]
        · simp [IRcommandHandler, receiveIR, tm, tc, h3f2, hrep, hok]
    · have hrepf : isRepeat e = false := by simpa using hrep
      by_cases hk : decodeKey (toByte e.command) = NO_CMD
      · refine Or.inr (Or.inl ⟨0, NO_CMD, ?_, ?_⟩)
        · have hno : (receiveIR (some e) s).1 = NO_CMD := by
            rw [receiveIR_of_press e s hrepf]; exact hk
          rw [IRcommandHandler_of_no_cmd _ s h3f hno, receiveIR_of_press e s hrepf]
        · have hno : (receiveIR (some e) (setPending s dc d m h mi y)).1 = NO_CMD := by
            rw [receiveIR_of_press e _ hrepf]; exact hk
          rw [IRcommandHandler_of_no_cmd _ _ h3f2 hno, receiveIR_of_press e _ hrepf]
      · by_cases hrun : s.g_runMode = RUN
        · exact Or.inr (Or.inr (Or.inr (Or.inl ⟨hrun, _,
            IRcommandHandler_in_run s e hrun h3f hrepf hk,
            IRcommandHandler_in_run _ e (tm.trans hrun) h3f2 hrepf hk⟩)))
        · by_cases hcmd : s.g_runMode = CMD
          · exact Or.inr (Or.inr (Or.inr (Or.inr ⟨hcmd, _,
              IRcommandHandler_in_cmd s e hcmd h3f hrepf hk,
              IRcommandHandler_in_cmd _ e (tm.trans hcmd) h3f2 hrepf hk⟩)))
          · exact Or.inr (Or.inl ⟨_, _,
              IRcommandHandler_in_other_mode s e hrun hcmd h3f hrepf,
              IRcommandHandler_in_other_mode _ e (by rw [tm]; exact hrun) (by rw [tm]; exact hcmd)
                h3f2 hrepf⟩)

theorem SameButEntry_rtcWrites {s t : State} (h : SameButEntry s t) :
    t.rtcWrites = s.rtcWrites := by
  obtain ⟨dc, d, m, hh, mi, y, rfl⟩ := h
  rfl

/-- One `IRcommandHandler` call keeps the relation `StaleRel`. -/
theorem IRcommandHandler_sim (ev : Option IRData) (s1 s2 : State) (hR : StaleRel s1 s2) :
    StaleRel (IRcommandHandler ev s1) (IRcommandHandler ev s2) := by
  obtain ⟨⟨dc, d, m, h, mi, y, rfl⟩, hag⟩ := hR
  have hne : RUN ≠ CMD := by decide
  rcases IRcommandHandler_cases_pair ev s1 dc d m h mi y with ⟨e1, e2⟩ | ⟨c, k, e1, e2⟩ |
    ⟨e1, e2⟩ | ⟨hrun, key, e1, e2⟩ | ⟨hcmd, key, e1, e2⟩
  · rw [e1, e2]
    refine ⟨⟨dc, d, m, h, mi, y, ?_⟩, fun hm => ?_⟩
    · simp [setPending, startTimer_eq, State.setOver, State.setTimer, State.onStrip]
    · simp [startTimer_eq, State.setOver, State.setTimer, State.onStrip] at hm
      exact absurd hm hne
  · rw [e1, e2]
    exact ⟨⟨dc, d, m, h, mi, y, rfl⟩, fun hm => hag hm⟩
  · rw [e1, e2]
    refine ⟨⟨0, d, m, h, mi, y, ?_⟩, fun _ => ?_⟩
    · simp [setPending, startTimer_eq, State.onStrip]
    · simp [EntryAgree, setPending, startTimer_eq, State.onStrip]
  · rw [e1, e2]
    refine ⟨⟨dc, d, m, h, mi, y, ?_⟩, fun hm => ?_⟩
    · have := setPending_runTime key { s1 with g_countOK := 0, g_command := key } dc d m h mi y
      simp only [setPending] at this ⊢
      rw [this]
    · have := runTime_runMode key { s1 with g_countOK := 0, g_command := key }
      simp only [] at this hm
      rw [this, hrun] at hm
      exact absurd hm hne
  · rw [e1, e2]
    have hag1 := hag hcmd
    have hdc : dc = s1.g_digitCount := hag1.1
    subst hdc
    have hag2 : EntryAgree { s1 with g_countOK := 0, g_command := key }
        (setPending { s1 with g_countOK := 0, g_command := key }
          ({ s1 with g_countOK := 0, g_command := key } : State).g_digitCount d m h mi y) := hag1
    obtain ⟨⟨dc', d', m', h', mi', y', hs⟩, ha⟩ := cmd_sim key _ d m h mi y hag2
    have hs2 : cmdTimeCommandProcessing key
        { setPending s1 s1.g_digitCount d m h mi y with g_countOK := 0, g_command := key } =
        setPending (cmdTimeCommandProcessing key { s1 with g_countOK := 0, g_command := key })
          dc' d' m' h' mi' y' := hs
    rw [hs2]
    refine ⟨⟨dc', d', m', h', mi', y', rfl⟩, fun _ => ?_⟩
    rw [hs] at ha
    exact ha

theorem EntryAgree_of_entryFields {s1 s2 t1 t2 : State} (h1 : entryFields t1 = entryFields s1)
    (h2 : entryFields t2 = entryFields s2) (h : EntryAgree s1 s2) : EntryAgree t1 t2 := by
  simp only [entryFields, Prod.mk.injEq] at h1 h2
  obtain ⟨a1, a2, a3, a4, a5, a6⟩ := h1
  obtain ⟨b1, b2, b3, b4, b5, b6⟩ := h2
  unfold EntryAgree at h ⊢
  rw [a1, a2, a3, a4, a5, a6, b1, b2, b3, b4, b5, b6]
  exact h

theorem step_setPending (a : Action) (s : State) (dc d m h mi : Nat) (y : Int)
    (ha : ∀ ev, a ≠ Action.IRcommandHandler ev) :
    step a (setPending s dc d m h mi y) = (step a s).map (fun t => setPending t dc d m h mi y) := by
  cases a with
  | tick => exact congrArg some (setPending_ISR s dc d m h mi y)
  | updateClock now => exact congrArg some (setPending_updateClock now s dc d m h mi y)
  | checkDoor doorOpen ticks =>
    exact congrArg some (setPending_checkDoor doorOpen ticks s dc d m h mi y)
  | getCO2 polls => exact setPending_getCO2 polls s dc d m h mi y
  | updateBrightness ldrValue =>
    exact congrArg some (setPending_updateBrightness ldrValue s dc d m h mi y)
  | IRcommandHandler ev => exact absurd rfl (ha ev)

/-- One step keeps the relation `StaleRel`, and the second run does not get
stuck where the first does not. -/
theorem step_sim (a : Action) (s1 s2 t1 : State) (hR : StaleRel s1 s2)
    (e : step a s1 = some t1) : ∃ t2, step a s2 = some t2 ∧ StaleRel t1 t2 := by
  by_cases ha : ∃ ev, a = Action.IRcommandHandler ev
  · obtain ⟨ev, rfl⟩ := ha
    simp only [step, Option.some.injEq] at e
    rw [← e]
    exact ⟨_, rfl, IRcommandHandler_sim ev s1 s2 hR⟩
  · have hna : ∀ ev, a ≠ Action.IRcommandHandler ev := fun ev hev => ha ⟨ev, hev⟩
    obtain ⟨⟨dc, d, m, h, mi, y, rfl⟩, hag⟩ := hR
    refine ⟨setPending t1 dc d m h mi y, ?_, ⟨dc, d, m, h, mi, y, rfl⟩, fun hm => ?_⟩
    · rw [step_setPending a s1 dc d m h mi y hna, e]
      rfl
    · have hmf := (step_env a s1 t1 e hna).1
      rw [runMode_of_machineFields hmf] at hm
      exact EntryAgree_of_entryFields (entryFields_of_machineFields hmf) rfl (hag hm)

theorem run_sim (acts : List Action) (s1 s2 t1 : State) (hR : StaleRel s1 s2)
    (e : run acts s1 = some t1) : ∃ t2, run acts s2 = some t2 ∧ StaleRel t1 t2 := by
  induction acts generalizing s1 s2 with
  | nil =>
    simp only [run, Option.some.injEq] at e
    rw [← e]
    exact ⟨s2, rfl, hR⟩
  | cons a as ih =>
    simp only [run] at e
    cases hs : step a s1 with
    | none => rw [hs] at e; simp at e
    | some u1 =>
      rw [hs] at e
      obtain ⟨u2, hu, hR2⟩ := step_sim a s1 s2 u1 hR hs
      obtain ⟨t2, ht, hR3⟩ := ih u1 u2 hR2 e
      refine ⟨t2, ?_, hR3⟩
      simp only [run, hu]
      exact ht

/-- C28: two runs of the same ticks and main-loop calls, with the same inputs,
started in a RUN state and in the same state with other values in the digit
count and the five pending fields, write the same dates to the RTC.  Both
runs return, the states after the runs differ at most in the digit count and
the pending fields, and while the mode is CMD they agree on the digit count
and on every pending field that the digits entered so far have set. -/
theorem commit_independent_of_stale (s t : State) (dc d m h mi : Nat) (y : Int)
    (acts : List Action) (hrun : s.g_runMode = RUN) (e : run acts s = some t) :
    ∃ u, run acts (setPending s dc d m h mi y) = some u ∧ u.rtcWrites = t.rtcWrites ∧
      SameButEntry t u ∧ (t.g_runMode = CMD → EntryAgree t u) := by
  have hR : StaleRel s (setPending s dc d m h mi y) := by
    refine ⟨⟨dc, d, m, h, mi, y, rfl⟩, fun hm => ?_⟩
    rw [hrun] at hm
    exact absurd hm (by decide)
  obtain ⟨u, hu, hs, ha⟩ := run_sim acts s _ t hR e
  exact ⟨u, hu, SameButEntry_rtcWrites hs, hs, ha⟩

theorem commit_independent_of_stale_witness :
    (∃ u, run fullEntryActs staleState = some u ∧ u.rtcWrites = committedState.rtcWrites ∧
      SameButEntry committedState u ∧ (committedState.g_runMode = CMD → EntryAgree committedState u)) ∧
    staleState.g_newHour = 23 ∧ bootState.g_newHour = 0 ∧
    committedState.rtcWrites =
      [{ year := 2024, month := 1, day := 1, hour := 10, minute := 30, second := 0 }] :=
  ⟨commit_independent_of_stale bootState committedState 7 31 12 23 59 2099 fullEntryActs
    (by decide) rfl, by decide⟩

end Co2Clock
